import Mathlib

/-!
Verification development for the Pack codec (src/common/type/pack.c): a typed,
self-describing, field-addressed binary serialization format.  The definitions below
are a shallow embedding of the C source in buffer mode (no IoRead/IoWrite attached):
machine integers become Nat with explicit `% 2 ^ w` where the C arithmetic can wrap,
strings/blobs become `List Nat` of bytes (NULL pointers become `none`), THROW becomes
`Except.error (PackError.formatError msg)` and a failed ASSERT becomes
`Except.error PackError.assertViolation`.
-/

namespace Pack

/-- PackType ordinals in the order of the packTypeData table (pack.c 68-129); the C
enum values index that table (pckReadTagNext uses `tag >> 4` directly as an index). -/
def pckTypeUnknown : Nat := 0

def pckTypeArray : Nat := 1

def pckTypeBin : Nat := 2

def pckTypeBool : Nat := 3

def pckTypeI32 : Nat := 4

def pckTypeI64 : Nat := 5

def pckTypeObj : Nat := 6

def pckTypePtr : Nat := 7

def pckTypeStr : Nat := 8

def pckTypeTime : Nat := 9

def pckTypeU32 : Nat := 10

def pckTypeU64 : Nat := 11

/-- packTypeData[t].valueSingleBit (pack.c 68-129): set for bin, bool, str. -/
def valueSingleBit (t : Nat) : Bool :=
  t == pckTypeBin || t == pckTypeBool || t == pckTypeStr

/-- packTypeData[t].valueMultiBit (pack.c 68-129): set for i32, i64, ptr, time, u32, u64. -/
def valueMultiBit (t : Nat) : Bool :=
  t == pckTypeI32 || t == pckTypeI64 || t == pckTypePtr || t == pckTypeTime ||
    t == pckTypeU32 || t == pckTypeU64

/-- packTypeData[t].size (pack.c 68-129): set for bin and str. -/
def sizeFlag (t : Nat) : Bool :=
  t == pckTypeBin || t == pckTypeStr

/-- packTypeData[t].name (pack.c 68-129), used in the type-mismatch error message. -/
def typeName (t : Nat) : String :=
  if t = 0 then "unknown"
  else if t = 1 then "array"
  else if t = 2 then "bin"
  else if t = 3 then "bool"
  else if t = 4 then "i32"
  else if t = 5 then "i64"
  else if t = 6 then "obj"
  else if t = 7 then "ptr"
  else if t = 8 then "str"
  else if t = 9 then "time"
  else if t = 10 then "u32"
  else "u64"

/-- Failure modes: THROW(FormatError, msg) becomes formatError msg; a failed ASSERT
(a programmer error that aborts the process) becomes assertViolation; loopLimit is
the fuel bound of the pckReadTag do-loop, which the supplied fuel never reaches. -/
inductive PackError where
  | formatError (msg : String)
  | assertViolation
  | loopLimit
  deriving DecidableEq, Repr

/-- PACK_UINT64_SIZE_MAX (pack.c 54). -/
def PACK_UINT64_SIZE_MAX : Nat := 10

/-- pckWriteUInt64Internal (pack.c 971-996): little-endian base-128 varint encoding.
The C loop emits `(unsigned char)value | 0x80` while value >= 0x80 and then the final
byte `(unsigned char)value`; on Nat the byte cast is `% 256`. -/
def pckWriteUInt64Internal (value : Nat) : List Nat :=
  if value < 0x80 then [value % 256]
  else (value % 256 ||| 0x80) :: pckWriteUInt64Internal (value >>> 7)
termination_by value
decreasing_by
  simp only [Nat.shiftRight_eq_div_pow]
  exact Nat.div_lt_self (by omega) (by norm_num)

/-- The loop of pckReadUInt64Internal (pack.c 276-307) over the raw buffer contents.
pckReadBuffer(this, 1) in buffer mode fails with "unexpected EOF" when no byte
remains; a byte < 0x80 ends the loop (and the final bufferPos++ consumes it); after
ten continuation bytes the decode fails.  The C `|=` of the shifted 7-bit group is
uint64 arithmetic, hence the `% 2 ^ 64`. -/
def pckReadUInt64Go (data : List Nat) (pos result bufferIdx : Nat) :
    Except PackError (Nat × Nat) :=
  if bufferIdx < PACK_UINT64_SIZE_MAX then
    if pos < data.length then
      let byte := data.getD pos 0
      let result := result ||| (((byte &&& 0x7f) <<< (7 * bufferIdx)) % 2 ^ 64)
      if byte < 0x80 then .ok (result, pos + 1)
      else pckReadUInt64Go data (pos + 1) result (bufferIdx + 1)
    else .error (.formatError "unexpected EOF")
  else .error (.formatError "unterminated base-128 integer")
termination_by PACK_UINT64_SIZE_MAX - bufferIdx

/-- Modelled from the spec: cvtInt64ToZigZag is declared in common/type/convert.h,
which is not under src/.  Spec section 4.2: signed integers are mapped to unsigned via
zig-zag `(n << 1) ^ (n >> (W-1))` with arithmetic shift, which on int64 equals 2n for
n >= 0 and -2n - 1 for n < 0. -/
def cvtInt64ToZigZag (n : Int) : Nat :=
  if 0 ≤ n then 2 * n.toNat else 2 * (-n).toNat - 1

/-- Modelled from the spec: inverse of the zig-zag mapping of spec section 4.2
(convert.h is not under src/). -/
def cvtInt64FromZigZag (u : Nat) : Int :=
  if u % 2 = 0 then ((u / 2 : Nat) : Int) else -((u / 2 : Nat) : Int) - 1

/-- Modelled from the spec: 32-bit zig-zag (convert.h is not under src/); same formula
with W = 32. -/
def cvtInt32ToZigZag (n : Int) : Nat :=
  if 0 ≤ n then 2 * n.toNat else 2 * (-n).toNat - 1

/-- Modelled from the spec: inverse of the 32-bit zig-zag mapping (convert.h is not
under src/). -/
def cvtInt32FromZigZag (u : Nat) : Int :=
  if u % 2 = 0 then ((u / 2 : Nat) : Int) else -((u / 2 : Nat) : Int) - 1

/-- PackTagStack (pack.c 134-139): one container frame. -/
structure PackTagStack where
  type : Nat
  idLast : Nat
  nullTotal : Nat
  deriving DecidableEq, Repr

/-- PackWrite (pack.c 160-168) in buffer mode (write == NULL).  The tag stack keeps
the top frame at the head of the list (the C List keeps it at the end); pckWriteBuffer
in buffer mode only appends, so buffer growth/capacity is not modelled. -/
structure PackWriteState where
  buffer : List Nat
  tagStack : List PackTagStack
  deriving DecidableEq, Repr

/-- pckWriteNewBuf + pckWriteNewInternal (pack.c 867-925): a single implicit obj frame. -/
def pckWriteNewBuf : PackWriteState :=
  { buffer := [], tagStack := [{ type := pckTypeObj, idLast := 0, nullTotal := 0 }] }

/-- pckWriteTag (pack.c 1001-1083) in buffer mode.  The id arithmetic is on unsigned
int; under the ASSERT id > idLast the `id - idLast - 1` subtraction cannot wrap. -/
def pckWriteTag (st : PackWriteState) (type id value : Nat) :
    Except PackError PackWriteState :=
  match st.tagStack with
  | [] => .error .assertViolation
  | top :: rest =>
    if id ≠ 0 ∧ id ≤ top.idLast then .error .assertViolation
    else
      let idRes := if id = 0 then (top.idLast + top.nullTotal + 1) % 2 ^ 32 else id
      let tagId := idRes - top.idLast - 1
      let emit := fun (tag tagId value : Nat) =>
        Except.ok (PackWriteState.mk
          (st.buffer ++ [tag % 256]
            ++ (if tagId > 0 then pckWriteUInt64Internal tagId else [])
            ++ (if value > 0 then pckWriteUInt64Internal value else []))
          ({ type := top.type, idLast := idRes, nullTotal := 0 } :: rest))
      if valueMultiBit type then
        if value < 2 then
          let tag := (type <<< 4) ||| ((value &&& 0x1) <<< 2)
          let value := value >>> 1
          let tag := tag ||| (tagId &&& 0x1)
          let tagId := tagId >>> 1
          let tag := if tagId > 0 then tag ||| 0x2 else tag
          emit tag tagId value
        else
          let tag := ((type <<< 4) ||| 0x8) ||| (tagId &&& 0x3)
          let tagId := tagId >>> 2
          let tag := if tagId > 0 then tag ||| 0x4 else tag
          emit tag tagId value
      else if valueSingleBit type then
        let tag := (type <<< 4) ||| ((value &&& 0x1) <<< 3)
        let value := value >>> 1
        let tag := tag ||| (tagId &&& 0x3)
        let tagId := tagId >>> 2
        let tag := if tagId > 0 then tag ||| 0x4 else tag
        emit tag tagId value
      else
        if value ≠ 0 then .error .assertViolation
        else
          let tag := (type <<< 4) ||| (tagId &&& 0x7)
          let tagId := tagId >>> 3
          let tag := if tagId > 0 then tag ||| 0x8 else tag
          emit tag tagId 0

/-- pckWriteDefaultNull (pack.c 1088-1106): returns true (and counts an elided null)
when defaultNull is set and the value equals the default. -/
def pckWriteDefaultNull (st : PackWriteState) (defaultNull defaultEqual : Bool) :
    Except PackError (Bool × PackWriteState) :=
  if defaultNull && defaultEqual then
    match st.tagStack with
    | [] => .error .assertViolation
    | top :: rest =>
      .ok (true, { st with tagStack := { top with nullTotal := top.nullTotal + 1 } :: rest })
  else .ok (false, st)

/-- pckWriteNull (pack.c 1109-1119). -/
def pckWriteNull (st : PackWriteState) : Except PackError PackWriteState :=
  match st.tagStack with
  | [] => .error .assertViolation
  | top :: rest =>
    .ok { st with tagStack := { top with nullTotal := top.nullTotal + 1 } :: rest }

/-- pckWriteU32 (pack.c 1346-1363); value and defaultValue are uint32_t. -/
def pckWriteU32 (st : PackWriteState) (value id : Nat) (defaultNull : Bool)
    (defaultValue : Nat) : Except PackError PackWriteState :=
  match pckWriteDefaultNull st defaultNull (value == defaultValue) with
  | .error e => .error e
  | .ok (true, st) => .ok st
  | .ok (false, st) => pckWriteTag st pckTypeU32 id value

/-- pckWriteU64 (pack.c 1366-1383). -/
def pckWriteU64 (st : PackWriteState) (value id : Nat) (defaultNull : Bool)
    (defaultValue : Nat) : Except PackError PackWriteState :=
  match pckWriteDefaultNull st defaultNull (value == defaultValue) with
  | .error e => .error e
  | .ok (true, st) => .ok st
  | .ok (false, st) => pckWriteTag st pckTypeU64 id value

/-- pckWriteBool (pack.c 1184-1201); the bool value is 0 or 1 as a tag value. -/
def pckWriteBool (st : PackWriteState) (value : Bool) (id : Nat) (defaultNull : Bool)
    (defaultValue : Bool) : Except PackError PackWriteState :=
  match pckWriteDefaultNull st defaultNull (value == defaultValue) with
  | .error e => .error e
  | .ok (true, st) => .ok st
  | .ok (false, st) => pckWriteTag st pckTypeBool id (if value then 1 else 0)

/-- pckWriteI32 (pack.c 1204-1221). -/
def pckWriteI32 (st : PackWriteState) (value : Int) (id : Nat) (defaultNull : Bool)
    (defaultValue : Int) : Except PackError PackWriteState :=
  match pckWriteDefaultNull st defaultNull (value == defaultValue) with
  | .error e => .error e
  | .ok (true, st) => .ok st
  | .ok (false, st) => pckWriteTag st pckTypeI32 id (cvtInt32ToZigZag value)

/-- pckWriteI64 (pack.c 1224-1241). -/
def pckWriteI64 (st : PackWriteState) (value : Int) (id : Nat) (defaultNull : Bool)
    (defaultValue : Int) : Except PackError PackWriteState :=
  match pckWriteDefaultNull st defaultNull (value == defaultValue) with
  | .error e => .error e
  | .ok (true, st) => .ok st
  | .ok (false, st) => pckWriteTag st pckTypeI64 id (cvtInt64ToZigZag value)

/-- pckWriteTime (pack.c 1326-1343); time_t is a signed 64-bit count of seconds. -/
def pckWriteTime (st : PackWriteState) (value : Int) (id : Nat) (defaultNull : Bool)
    (defaultValue : Int) : Except PackError PackWriteState :=
  match pckWriteDefaultNull st defaultNull (value == defaultValue) with
  | .error e => .error e
  | .ok (true, st) => .ok st
  | .ok (false, st) => pckWriteTag st pckTypeTime id (cvtInt64ToZigZag value)

/-- Modelled from the spec where pckWriteStr depends on strEq (common/type/string.c is
not under src/): spec section 4.4.2, the elision comparison is structural string
equality with null equal only to null. -/
def strEq (a b : Option (List Nat)) : Bool := a == b

/-- pckWriteStr (pack.c 1298-1323): tag value is 1 iff the size is > 0; a nonzero size
is followed by the size varint and the string bytes. -/
def pckWriteStr (st : PackWriteState) (value : Option (List Nat)) (id : Nat)
    (defaultNull : Bool) (defaultValue : Option (List Nat)) :
    Except PackError PackWriteState :=
  match pckWriteDefaultNull st defaultNull (strEq value defaultValue) with
  | .error e => .error e
  | .ok (true, st) => .ok st
  | .ok (false, st) =>
    match value with
    | none => .error .assertViolation
    | some s =>
      match pckWriteTag st pckTypeStr id (if s.length > 0 then 1 else 0) with
      | .error e => .error e
      | .ok st =>
        if s.length > 0 then
          .ok { st with buffer := st.buffer ++ pckWriteUInt64Internal s.length ++ s }
        else .ok st

/-- pckWriteBin (pack.c 1157-1181): like pckWriteStr but the defaultNull comparison is
`value == NULL`. -/
def pckWriteBin (st : PackWriteState) (value : Option (List Nat)) (id : Nat)
    (defaultNull : Bool) : Except Pack.PackError PackWriteState :=
  match pckWriteDefaultNull st defaultNull value.isNone with
  | .error e => .error e
  | .ok (true, st) => .ok st
  | .ok (false, st) =>
    match value with
    | none => .error .assertViolation
    | some b =>
      match pckWriteTag st pckTypeBin id (if b.length > 0 then 1 else 0) with
      | .error e => .error e
      | .ok st =>
        if b.length > 0 then
          .ok { st with buffer := st.buffer ++ pckWriteUInt64Internal b.length ++ b }
        else .ok st

/-- pckWriteArrayBegin (pack.c 1122-1136). -/
def pckWriteArrayBegin (st : PackWriteState) (id : Nat) :
    Except PackError PackWriteState :=
  match pckWriteTag st pckTypeArray id 0 with
  | .error e => .error e
  | .ok st =>
    .ok { st with
          tagStack := { type := pckTypeArray, idLast := 0, nullTotal := 0 } :: st.tagStack }

/-- pckWriteObjBegin (pack.c 1244-1258). -/
def pckWriteObjBegin (st : PackWriteState) (id : Nat) :
    Except PackError PackWriteState :=
  match pckWriteTag st pckTypeObj id 0 with
  | .error e => .error e
  | .ok st =>
    .ok { st with
          tagStack := { type := pckTypeObj, idLast := 0, nullTotal := 0 } :: st.tagStack }

/-- pckWriteArrayEnd (pack.c 1138-1154): ASSERTs that more than the outermost frame
remains and that the top frame is an array; emits the terminator byte and pops. -/
def pckWriteArrayEnd (st : PackWriteState) : Except PackError PackWriteState :=
  match st.tagStack with
  | [] => .error .assertViolation
  | [_] => .error .assertViolation
  | top :: rest =>
    if top.type ≠ pckTypeArray then .error .assertViolation
    else .ok { buffer := st.buffer ++ pckWriteUInt64Internal 0, tagStack := rest }

/-- pckWriteObjEnd (pack.c 1260-1276). -/
def pckWriteObjEnd (st : PackWriteState) : Except PackError PackWriteState :=
  match st.tagStack with
  | [] => .error .assertViolation
  | [_] => .error .assertViolation
  | top :: rest =>
    if top.type ≠ pckTypeObj then .error .assertViolation
    else .ok { buffer := st.buffer ++ pckWriteUInt64Internal 0, tagStack := rest }

/-- pckWriteEnd (pack.c 1386-1410) in buffer mode: ASSERTs exactly the outermost frame
remains, writes the final terminator and clears the top pointer (modelled by emptying
the stack); the buffer trim is a no-op on the model. -/
def pckWriteEnd (st : PackWriteState) : Except PackError PackWriteState :=
  match st.tagStack with
  | [_] => .ok { buffer := st.buffer ++ pckWriteUInt64Internal 0, tagStack := [] }
  | _ => .error .assertViolation

/-- PackRead (pack.c 141-156) in buffer mode (read == NULL): data holds the whole
pre-filled buffer, bufferPos the read cursor (bufferMax is data.length).
tagNextId = 0 means no lookahead; 0xFFFFFFFF means the lookahead saw a terminator. -/
structure PackReadState where
  data : List Nat
  bufferPos : Nat
  tagNextId : Nat
  tagNextType : Nat
  tagNextValue : Nat
  tagStack : List PackTagStack
  deriving DecidableEq, Repr

/-- pckReadNewBuf + pckReadNewInternal (pack.c 173-228). -/
def pckReadNewBuf (buffer : List Nat) : PackReadState :=
  { data := buffer, bufferPos := 0, tagNextId := 0, tagNextType := 0, tagNextValue := 0,
    tagStack := [{ type := pckTypeObj, idLast := 0, nullTotal := 0 }] }

/-- pckReadBuffer (pack.c 234-271) in buffer mode (read == NULL, so no refill):
returns how many of the requested bytes may be consumed, failing with
"unexpected EOF" when none remain. -/
def pckReadBuffer (st : PackReadState) (size : Nat) : Except PackError Nat :=
  let remaining := st.data.length - st.bufferPos
  if remaining < size then
    if remaining < 1 then .error (.formatError "unexpected EOF")
    else .ok remaining
  else .ok size

/-- pckReadUInt64Internal (pack.c 276-307) on the reader state. -/
def pckReadUInt64Internal (st : PackReadState) : Except PackError (Nat × PackReadState) :=
  match pckReadUInt64Go st.data st.bufferPos 0 0 with
  | .error e => .error e
  | .ok (v, pos) => .ok (v, { st with bufferPos := pos })

/-- One `tagNextId |= (unsigned int)pckReadUInt64Internal(this) << shift` step of
pckReadTagNext (pack.c 338, 347, 357, 366), guarded by the more-ID-delta tag bit;
the uint64 varint is cast to unsigned int and shifted as unsigned int. -/
def pckReadTagNextIdHigh (st : PackReadState) (cond : Bool) (base shift : Nat) :
    Except PackError (Nat × PackReadState) :=
  if cond then
    match pckReadUInt64Internal st with
    | .error e => .error e
    | .ok (v, st) => .ok (base ||| (((v % 2 ^ 32) <<< shift) % 2 ^ 32), st)
  else .ok (base, st)

/-- pckReadTagNext (pack.c 312-376): parse the next tag into the lookahead.  Returns
false on the zero terminator byte (setting tagNextId = 0xFFFFFFFF), true otherwise.
The final id is delta + idLast + 1 on unsigned int. -/
def pckReadTagNext (st : PackReadState) : Except PackError (Bool × PackReadState) :=
  match st.tagStack with
  | [] => .error .assertViolation
  | top :: _ =>
    if st.data.length - st.bufferPos < 1 then .error (.formatError "unexpected EOF")
    else
      let tag := st.data.getD st.bufferPos 0
      let st := { st with bufferPos := st.bufferPos + 1 }
      if tag = 0 then .ok (false, { st with tagNextId := 0xFFFFFFFF })
      else
        let ttype := tag >>> 4
        let finish := fun (id0 value : Nat) (st : PackReadState) =>
          Except.ok (true, { st with tagNextId := (id0 + top.idLast + 1) % 2 ^ 32,
                                     tagNextType := ttype, tagNextValue := value })
        if valueMultiBit ttype then
          if (tag &&& 0x8) ≠ 0 then
            match pckReadTagNextIdHigh st ((tag &&& 0x4) != 0) (tag &&& 0x3) 2 with
            | .error e => .error e
            | .ok (id0, st) =>
              match pckReadUInt64Internal st with
              | .error e => .error e
              | .ok (value, st) => finish id0 value st
          else
            match pckReadTagNextIdHigh st ((tag &&& 0x2) != 0) (tag &&& 0x1) 1 with
            | .error e => .error e
            | .ok (id0, st) => finish id0 ((tag >>> 2) &&& 0x1) st
        else if valueSingleBit ttype then
          match pckReadTagNextIdHigh st ((tag &&& 0x4) != 0) (tag &&& 0x3) 2 with
          | .error e => .error e
          | .ok (id0, st) => finish id0 ((tag >>> 3) &&& 0x1) st
        else
          match pckReadTagNextIdHigh st ((tag &&& 0x8) != 0) (tag &&& 0x7) 3 with
          | .error e => .error e
          | .ok (id0, st) => finish id0 0 st

/-- `this->tagStackTop->idLast = n`; the stack is nonempty whenever the C reaches this. -/
def setTopIdLast (st : PackReadState) (n : Nat) : PackReadState :=
  match st.tagStack with
  | [] => st
  | top :: rest => { st with tagStack := { top with idLast := n } :: rest }

/-- The skip loop of pckReadTag (pack.c 435-440): consume sizeExpected payload bytes
through pckReadBuffer (inlined in buffer mode), which grants min(remaining, requested)
and fails with "unexpected EOF" when nothing remains. -/
def pckReadSkipBytes (st : PackReadState) (sizeExpected : Nat) :
    Except PackError PackReadState :=
  if sizeExpected = 0 then .ok st
  else
    let remaining := st.data.length - st.bufferPos
    if remaining < sizeExpected then
      if remaining < 1 then .error (.formatError "unexpected EOF")
      else
        pckReadSkipBytes { st with bufferPos := st.bufferPos + remaining }
          (sizeExpected - remaining)
    else .ok { st with bufferPos := st.bufferPos + sizeExpected }
termination_by sizeExpected
decreasing_by omega

/-- The payload-accumulation loops of pckReadBin (pack.c 608-613) and pckReadStr
(pack.c 762-767): read sizeExpected bytes from the buffer, in chunks granted by
pckReadBuffer (inlined in buffer mode). -/
def pckReadBytesGo (st : PackReadState) (sizeExpected : Nat) :
    Except PackError (List Nat × PackReadState) :=
  if sizeExpected = 0 then .ok ([], st)
  else
    let remaining := st.data.length - st.bufferPos
    if remaining < sizeExpected then
      if remaining < 1 then .error (.formatError "unexpected EOF")
      else
        match pckReadBytesGo { st with bufferPos := st.bufferPos + remaining }
            (sizeExpected - remaining) with
        | .error e => .error e
        | .ok (s, st2) => .ok ((st.data.drop st.bufferPos).take remaining ++ s, st2)
    else
      .ok ((st.data.drop st.bufferPos).take sizeExpected,
        { st with bufferPos := st.bufferPos + sizeExpected })
termination_by sizeExpected
decreasing_by omega

/-- The do-loop of pckReadTag (pack.c 400-446).  fuel bounds the iterations: at most
the first iteration finds a loaded lookahead, and every later iteration parses a tag,
consuming at least one byte, so pckReadTag supplies remaining + 1 which the loop never
exhausts.  Note the skip condition tests packTypeData[type].size for the REQUESTED
type, not the skipped tag's type. -/
def pckReadTagLoop (id type : Nat) (peek : Bool) (st : PackReadState) (fuel : Nat) :
    Except PackError (Nat × PackReadState) :=
  match fuel with
  | 0 => .error .loopLimit
  | fuel + 1 =>
    match (if st.tagNextId = 0 then
             match pckReadTagNext st with
             | .error e => Except.error e
             | .ok (_, st) => Except.ok st
           else Except.ok st) with
    | .error e => .error e
    | .ok st =>
      if id < st.tagNextId then
        if peek then .ok (st.tagNextValue, st)
        else .error (.formatError ("field " ++ toString id ++ " does not exist"))
      else if id = st.tagNextId then
        if peek then .ok (st.tagNextValue, st)
        else
          if st.tagNextType ≠ type then
            .error (.formatError ("field " ++ toString id ++ " is type \x27"
              ++ typeName st.tagNextType ++ "\x27 but expected \x27" ++ typeName type ++ "\x27"))
          else .ok (st.tagNextValue, { setTopIdLast st st.tagNextId with tagNextId := 0 })
      else
        match (if sizeFlag type && (st.tagNextValue != 0) then
                 match pckReadUInt64Internal st with
                 | .error e => Except.error e
                 | .ok (sz, st) => pckReadSkipBytes st sz
               else Except.ok st) with
        | .error e => .error e
        | .ok st => pckReadTagLoop id type peek { setTopIdLast st st.tagNextId with tagNextId := 0 } fuel

/-- pckReadTag (pack.c 381-449): resolve the requested id (0 means idLast + 1), fail
if the id was already read, then run the scan loop.  Returns (value, resolved id,
state); the C writes the resolved id back through the id pointer. -/
def pckReadTag (st : PackReadState) (id type : Nat) (peek : Bool) :
    Except PackError (Nat × Nat × PackReadState) :=
  match st.tagStack with
  | [] => .error .assertViolation
  | top :: _ =>
    if ¬ ((peek = true ∧ type = pckTypeUnknown) ∨ (peek = false ∧ type ≠ pckTypeUnknown)) then
      .error .assertViolation
    else if id = 0 then
      let id := (top.idLast + 1) % 2 ^ 32
      match pckReadTagLoop id type peek st (st.data.length - st.bufferPos + 1) with
      | .error e => .error e
      | .ok (v, st) => .ok (v, id, st)
    else if id ≤ top.idLast then
      .error (.formatError ("field " ++ toString id ++ " was already read"))
    else
      match pckReadTagLoop id type peek st (st.data.length - st.bufferPos + 1) with
      | .error e => .error e
      | .ok (v, st) => .ok (v, id, st)

/-- pckReadNext (pack.c 452-462). -/
def pckReadNext (st : PackReadState) : Except PackError (Bool × PackReadState) :=
  pckReadTagNext st

/-- pckReadId (pack.c 465-475). -/
def pckReadId (st : PackReadState) : Nat :=
  st.tagNextId

/-- pckReadType (pack.c 533-543). -/
def pckReadType (st : PackReadState) : Nat :=
  st.tagNextType

/-- pckReadNullInternal (pack.c 479-493): peek at the requested id and report whether
it is absent (resolved id below the next tag's id). -/
def pckReadNullInternal (st : PackReadState) (id : Nat) :
    Except PackError (Bool × Nat × PackReadState) :=
  match pckReadTag st id pckTypeUnknown true with
  | .error e => .error e
  | .ok (_, id, st) => .ok (decide (id < st.tagNextId), id, st)

/-- pckReadNull (pack.c 495-506). -/
def pckReadNull (st : PackReadState) (id : Nat) : Except PackError (Bool × PackReadState) :=
  match pckReadNullInternal st id with
  | .error e => .error e
  | .ok (b, _, st) => .ok (b, st)

/-- pckReadDefaultNull (pack.c 511-530): when defaultNull is set and the field is
absent, record idLast = resolved id and return true (caller returns the default). -/
def pckReadDefaultNull (st : PackReadState) (defaultNull : Bool) (id : Nat) :
    Except PackError (Bool × Nat × PackReadState) :=
  if defaultNull then
    match pckReadNullInternal st id with
    | .error e => .error e
    | .ok (true, id, st) => .ok (true, id, setTopIdLast st id)
    | .ok (false, id, st) => .ok (false, id, st)
  else .ok (false, id, st)

/-- pckReadU32 (pack.c 795-811); the result is cast to uint32_t. -/
def pckReadU32 (st : PackReadState) (id : Nat) (defaultNull : Bool) (defaultValue : Nat) :
    Except PackError (Nat × PackReadState) :=
  match pckReadDefaultNull st defaultNull id with
  | .error e => .error e
  | .ok (true, _, st) => .ok (defaultValue, st)
  | .ok (false, id, st) =>
    match pckReadTag st id pckTypeU32 false with
    | .error e => .error e
    | .ok (v, _, st) => .ok (v % 2 ^ 32, st)

/-- pckReadU64 (pack.c 814-830). -/
def pckReadU64 (st : PackReadState) (id : Nat) (defaultNull : Bool) (defaultValue : Nat) :
    Except PackError (Nat × PackReadState) :=
  match pckReadDefaultNull st defaultNull id with
  | .error e => .error e
  | .ok (true, _, st) => .ok (defaultValue, st)
  | .ok (false, id, st) =>
    match pckReadTag st id pckTypeU64 false with
    | .error e => .error e
    | .ok (v, _, st) => .ok (v, st)

/-- pckReadBool (pack.c 622-638); the uint64 tag value converts to bool. -/
def pckReadBool (st : PackReadState) (id : Nat) (defaultNull : Bool) (defaultValue : Bool) :
    Except PackError (Bool × PackReadState) :=
  match pckReadDefaultNull st defaultNull id with
  | .error e => .error e
  | .ok (true, _, st) => .ok (defaultValue, st)
  | .ok (false, id, st) =>
    match pckReadTag st id pckTypeBool false with
    | .error e => .error e
    | .ok (v, _, st) => .ok (v != 0, st)

/-- pckReadI32 (pack.c 641-657). -/
def pckReadI32 (st : PackReadState) (id : Nat) (defaultNull : Bool) (defaultValue : Int) :
    Except PackError (Int × PackReadState) :=
  match pckReadDefaultNull st defaultNull id with
  | .error e => .error e
  | .ok (true, _, st) => .ok (defaultValue, st)
  | .ok (false, id, st) =>
    match pckReadTag st id pckTypeI32 false with
    | .error e => .error e
    | .ok (v, _, st) => .ok (cvtInt32FromZigZag (v % 2 ^ 32), st)

/-- pckReadI64 (pack.c 660-676). -/
def pckReadI64 (st : PackReadState) (id : Nat) (defaultNull : Bool) (defaultValue : Int) :
    Except PackError (Int × PackReadState) :=
  match pckReadDefaultNull st defaultNull id with
  | .error e => .error e
  | .ok (true, _, st) => .ok (defaultValue, st)
  | .ok (false, id, st) =>
    match pckReadTag st id pckTypeI64 false with
    | .error e => .error e
    | .ok (v, _, st) => .ok (cvtInt64FromZigZag v, st)

/-- pckReadTime (pack.c 776-792). -/
def pckReadTime (st : PackReadState) (id : Nat) (defaultNull : Bool) (defaultValue : Int) :
    Except PackError (Int × PackReadState) :=
  match pckReadDefaultNull st defaultNull id with
  | .error e => .error e
  | .ok (true, _, st) => .ok (defaultValue, st)
  | .ok (false, id, st) =>
    match pckReadTag st id pckTypeTime false with
    | .error e => .error e
    | .ok (v, _, st) => .ok (cvtInt64FromZigZag v, st)

/-- pckReadStr (pack.c 740-773): on the defaultNull path return strDup(defaultValue);
otherwise a tag value 1 is followed by the size varint and that many bytes, and a tag
value 0 yields the empty string (never NULL). -/
def pckReadStr (st : PackReadState) (id : Nat) (defaultNull : Bool)
    (defaultValue : Option (List Nat)) :
    Except PackError (Option (List Nat) × PackReadState) :=
  match pckReadDefaultNull st defaultNull id with
  | .error e => .error e
  | .ok (true, _, st) => .ok (defaultValue, st)
  | .ok (false, id, st) =>
    match pckReadTag st id pckTypeStr false with
    | .error e => .error e
    | .ok (v, _, st) =>
      if v ≠ 0 then
        match pckReadUInt64Internal st with
        | .error e => .error e
        | .ok (sz, st) =>
          match pckReadBytesGo st sz with
          | .error e => .error e
          | .ok (s, st) => .ok (some s, st)
      else .ok (some [], st)

/-- pckReadBin (pack.c 588-619): on the defaultNull path return NULL; otherwise like
pckReadStr, with a tag value 0 yielding an empty (non-NULL) buffer. -/
def pckReadBin (st : PackReadState) (id : Nat) (defaultNull : Bool) :
    Except PackError (Option (List Nat) × PackReadState) :=
  match pckReadDefaultNull st defaultNull id with
  | .error e => .error e
  | .ok (true, _, st) => .ok (none, st)
  | .ok (false, id, st) =>
    match pckReadTag st id pckTypeBin false with
    | .error e => .error e
    | .ok (v, _, st) =>
      if v ≠ 0 then
        match pckReadUInt64Internal st with
        | .error e => .error e
        | .ok (sz, st) =>
          match pckReadBytesGo st sz with
          | .error e => .error e
          | .ok (b, st) => .ok (some b, st)
      else .ok (some [], st)

/-- pckReadArrayBegin (pack.c 546-560): match an array tag at id and push a frame. -/
def pckReadArrayBegin (st : PackReadState) (id : Nat) : Except PackError PackReadState :=
  match pckReadTag st id pckTypeArray false with
  | .error e => .error e
  | .ok (_, _, st) =>
    .ok { st with
          tagStack := { type := pckTypeArray, idLast := 0, nullTotal := 0 } :: st.tagStack }

/-- pckReadObjBegin (pack.c 679-693). -/
def pckReadObjBegin (st : PackReadState) (id : Nat) : Except PackError PackReadState :=
  match pckReadTag st id pckTypeObj false with
  | .error e => .error e
  | .ok (_, _, st) =>
    .ok { st with
          tagStack := { type := pckTypeObj, idLast := 0, nullTotal := 0 } :: st.tagStack }

/-- pckReadArrayEnd (pack.c 562-586): require a non-outermost array frame, scan to the
terminator with a peek at id 0xFFFFFFFF - 1, pop the frame, and clear the lookahead. -/
def pckReadArrayEnd (st : PackReadState) : Except PackError PackReadState :=
  match st.tagStack with
  | [] => .error .assertViolation
  | [_] => .error (.formatError "not in array")
  | top :: _ =>
    if top.type ≠ pckTypeArray then .error (.formatError "not in array")
    else
      match pckReadTag st (0xFFFFFFFF - 1) pckTypeUnknown true with
      | .error e => .error e
      | .ok (_, _, st) =>
        match st.tagStack with
        | [] => .error .assertViolation
        | _ :: rest => .ok { st with tagStack := rest, tagNextId := 0 }

/-- pckReadObjEnd (pack.c 695-719). -/
def pckReadObjEnd (st : PackReadState) : Except PackError PackReadState :=
  match st.tagStack with
  | [] => .error .assertViolation
  | [_] => .error (.formatError "not in object")
  | top :: _ =>
    if top.type ≠ pckTypeObj then .error (.formatError "not in object")
    else
      match pckReadTag st (0xFFFFFFFF - 1) pckTypeUnknown true with
      | .error e => .error e
      | .ok (_, _, st) =>
        match st.tagStack with
        | [] => .error .assertViolation
        | _ :: rest => .ok { st with tagStack := rest, tagNextId := 0 }

/-! ### Bit-twiddling helpers -/

set_option maxRecDepth 4000 in
theorem lor_or128 : ∀ y < 256, y ||| 128 = y % 128 + 128 := by decide

theorem lor_low_high (r : Nat) {m i : Nat} (h : r < 2 ^ i) :
    r ||| 2 ^ i * m = r + 2 ^ i * m := by
  rw [Nat.lor_comm, ← Nat.mul_add_lt_is_or h m, Nat.add_comm]

theorem getD_append_cons (pre rest : List Nat) (x : Nat) :
    (pre ++ x :: rest).getD pre.length 0 = x := by
  rw [List.getD_eq_getElem?_getD, List.getElem?_append_right (Nat.le_refl _)]
  simp

/-! ### Varint encode/decode lemmas -/

theorem pckWriteUInt64Internal_spec :
    ∀ k v, v < 2 ^ (7 * k + 7) →
      (pckWriteUInt64Internal v).length ≤ k + 1 ∧
      ∃ bs b, pckWriteUInt64Internal v = bs ++ [b] ∧ b < 0x80 ∧
        ∀ x ∈ bs, 0x80 ≤ x ∧ x < 0x100 := by
  intro k
  induction k with
  | zero =>
    intro v hv
    rw [pckWriteUInt64Internal]
    have h : v < 0x80 := by norm_num at hv; omega
    simp only [if_pos h]
    refine ⟨by simp, [], v % 256, by simp, by omega, by simp⟩
  | succ k ih =>
    intro v hv
    rw [pckWriteUInt64Internal]
    by_cases h : v < 0x80
    · simp only [if_pos h]
      exact ⟨by simp, [], v % 256, by simp, by omega, by simp⟩
    · simp only [if_neg h]
      have hv7 : v >>> 7 < 2 ^ (7 * k + 7) := by
        rw [Nat.shiftRight_eq_div_pow]
        have h128 : (2 : Nat) ^ 7 = 128 := by norm_num
        rw [h128, Nat.div_lt_iff_lt_mul (by norm_num)]
        calc v < 2 ^ (7 * (k + 1) + 7) := hv
        _ = 2 ^ (7 * k + 7) * 128 := by rw [← h128, ← pow_add]; congr 1
      obtain ⟨hlen, bs, b, heq, hb, hbs⟩ := ih (v >>> 7) hv7
      refine ⟨?_, (v % 256 ||| 0x80) :: bs, b, by simp [heq], hb, ?_⟩
      · simp only [List.length_cons]
        omega
      · intro x hx
        rcases List.mem_cons.mp hx with hx | hx
        · subst hx
          have h256 : v % 256 < 256 := Nat.mod_lt _ (by norm_num)
          rw [lor_or128 _ h256]
          omega
        · exact hbs x hx

theorem pckWriteUInt64Internal_len_le (v : Nat) (hv : v < 2 ^ 64) :
    (pckWriteUInt64Internal v).length ≤ 10 := by
  have := (pckWriteUInt64Internal_spec 9 v (by norm_num at hv ⊢; omega)).1
  omega

theorem pckReadUInt64Go_encode (v : Nat) :
    ∀ i r (pre post : List Nat), i ≤ 9 → v < 2 ^ (64 - 7 * i) → r < 2 ^ (7 * i) →
      pckReadUInt64Go (pre ++ pckWriteUInt64Internal v ++ post) pre.length r i
        = .ok (r + v * 2 ^ (7 * i), pre.length + (pckWriteUInt64Internal v).length) := by
  induction v using Nat.strong_induction_on with
  | _ v ih =>
    intro i r pre post hi hv hr
    rw [pckWriteUInt64Internal]
    by_cases h : v < 0x80
    · simp only [if_pos h]
      have hveq : v % 256 = v := Nat.mod_eq_of_lt (by omega)
      rw [pckReadUInt64Go]
      have hi10 : i < PACK_UINT64_SIZE_MAX := by simp [PACK_UINT64_SIZE_MAX]; omega
      have hpos : pre.length < (pre ++ [v % 256] ++ post).length := by simp
      have hbyte : (pre ++ [v % 256] ++ post).getD pre.length 0 = v := by
        rw [List.append_assoc, List.singleton_append, getD_append_cons]; exact hveq
      simp only [if_pos hi10, if_pos hpos, hbyte, if_pos h]
      have hand : v &&& 0x7f = v := by
        have : (0x7f : Nat) = 2 ^ 7 - 1 := by norm_num
        rw [this, Nat.and_pow_two_sub_one_eq_mod]
        exact Nat.mod_eq_of_lt (by omega)
      have hshift : (v <<< (7 * i)) % 2 ^ 64 = v * 2 ^ (7 * i) := by
        rw [Nat.shiftLeft_eq]
        refine Nat.mod_eq_of_lt ?_
        calc v * 2 ^ (7 * i) < 2 ^ (64 - 7 * i) * 2 ^ (7 * i) :=
              (Nat.mul_lt_mul_right (by positivity)).mpr hv
        _ = 2 ^ 64 := by rw [← pow_add]; congr 1; omega
      rw [hand, hshift, mul_comm v, lor_low_high r hr]
      simp [mul_comm]
    · simp only [if_neg h]
      have h256 : v % 256 < 256 := Nat.mod_lt _ (by norm_num)
      have hbyteval : v % 256 ||| 0x80 = v % 128 + 128 := by
        rw [lor_or128 _ h256, Nat.mod_mod_of_dvd _ (by norm_num)]
      have hi8 : i ≤ 8 := by
        rcases Nat.lt_or_ge i 9 with h9 | h9
        · omega
        · exfalso
          have : i = 9 := by omega
          subst this
          norm_num at hv
          omega
      rw [pckReadUInt64Go]
      have hi10 : i < PACK_UINT64_SIZE_MAX := by simp [PACK_UINT64_SIZE_MAX]; omega
      have hpos : pre.length < (pre ++ ((v % 256 ||| 0x80) :: pckWriteUInt64Internal (v >>> 7)) ++ post).length := by
        simp
      have hbyte : (pre ++ ((v % 256 ||| 0x80) :: pckWriteUInt64Internal (v >>> 7)) ++ post).getD pre.length 0
          = v % 128 + 128 := by
        rw [List.append_assoc, List.cons_append, getD_append_cons]; exact hbyteval
      simp only [if_pos hi10, if_pos hpos, hbyte]
      have hnotlt : ¬ (v % 128 + 128 < 0x80) := by omega
      simp only [if_neg hnotlt]
      have hand : (v % 128 + 128) &&& 0x7f = v % 128 := by
        have : (0x7f : Nat) = 2 ^ 7 - 1 := by norm_num
        rw [this, Nat.and_pow_two_sub_one_eq_mod]
        omega
      have hshift : ((v % 128) <<< (7 * i)) % 2 ^ 64 = (v % 128) * 2 ^ (7 * i) := by
        rw [Nat.shiftLeft_eq]
        refine Nat.mod_eq_of_lt ?_
        calc (v % 128) * 2 ^ (7 * i) < 128 * 2 ^ (7 * i) :=
              (Nat.mul_lt_mul_right (by positivity)).mpr (by omega)
        _ ≤ 128 * 2 ^ 56 := by
              exact Nat.mul_le_mul_left _ (Nat.pow_le_pow_right (by norm_num) (by omega))
        _ < 2 ^ 64 := by norm_num
      have hor : r ||| ((v % 128) * 2 ^ (7 * i)) = r + (v % 128) * 2 ^ (7 * i) := by
        rw [mul_comm, lor_low_high r hr, mul_comm]
      rw [hand, hshift, hor]
      have hvr7 : v >>> 7 < v := by
        rw [Nat.shiftRight_eq_div_pow]
        exact Nat.div_lt_self (by omega) (by norm_num)
      have hv7 : v >>> 7 < 2 ^ (64 - 7 * (i + 1)) := by
        rw [Nat.shiftRight_eq_div_pow]
        have h128 : (2 : Nat) ^ 7 = 128 := by norm_num
        rw [h128, Nat.div_lt_iff_lt_mul (by norm_num)]
        calc v < 2 ^ (64 - 7 * i) := hv
        _ = 2 ^ (64 - 7 * (i + 1)) * 128 := by rw [← h128, ← pow_add]; congr 1; omega
      have hr7 : r + (v % 128) * 2 ^ (7 * i) < 2 ^ (7 * (i + 1)) := by
        have hm : v % 128 ≤ 127 := by omega
        calc r + (v % 128) * 2 ^ (7 * i) < 2 ^ (7 * i) + (v % 128) * 2 ^ (7 * i) :=
              Nat.add_lt_add_right hr _
        _ ≤ 2 ^ (7 * i) + 127 * 2 ^ (7 * i) :=
              Nat.add_le_add_left (Nat.mul_le_mul_right _ hm) _
        _ = 128 * 2 ^ (7 * i) := by ring
        _ = 2 ^ (7 * (i + 1)) := by
              have h128 : (128 : Nat) = 2 ^ 7 := by norm_num
              rw [h128, ← pow_add]
              congr 1
              omega
      have heq2 := ih (v >>> 7) hvr7 (i + 1) (r + (v % 128) * 2 ^ (7 * i))
        (pre ++ [v % 256 ||| 0x80]) post (by omega) hv7 hr7
      simp only [List.append_assoc, List.cons_append, List.singleton_append,
        List.nil_append, List.length_append, List.length_cons, List.length_nil,
        Nat.zero_add, Nat.add_zero] at heq2 ⊢
      rw [heq2]
      have hval : r + v % 128 * 2 ^ (7 * i) + v >>> 7 * 2 ^ (7 * (i + 1))
          = r + v * 2 ^ (7 * i) := by
        have hsplit : v % 128 + v / 128 * 128 = v := Nat.mod_add_div' v 128
        rw [Nat.shiftRight_eq_div_pow]
        have h128 : (2 : Nat) ^ 7 = 128 := by norm_num
        rw [h128]
        have hpow : (2 : Nat) ^ (7 * (i + 1)) = 2 ^ (7 * i) * 128 := by
          rw [← h128, ← pow_add]
          congr 1
        rw [hpow]
        calc r + v % 128 * 2 ^ (7 * i) + v / 128 * (2 ^ (7 * i) * 128)
            = r + (v % 128 + v / 128 * 128) * 2 ^ (7 * i) := by ring
        _ = r + v * 2 ^ (7 * i) := by rw [hsplit]
      simp only [Except.ok.injEq, Prod.mk.injEq]
      exact ⟨hval, by omega⟩

/-- The public varint round-trip: decoding the encoding of v (for v in uint64 range)
yields v and consumes exactly the encoded bytes. -/
theorem pckReadUInt64Go_roundtrip (v : Nat) (hv : v < 2 ^ 64) (pre post : List Nat) :
    pckReadUInt64Go (pre ++ pckWriteUInt64Internal v ++ post) pre.length 0 0
      = .ok (v, pre.length + (pckWriteUInt64Internal v).length) := by
  have := pckReadUInt64Go_encode v 0 0 pre post (by omega) (by simpa using hv)
    (by norm_num)
  simpa using this

theorem pckReadUInt64Go_unterminated :
    ∀ n i r pos (data : List Nat), i + n = 10 →
      (∀ j, j < n → pos + j < data.length ∧ 0x80 ≤ data.getD (pos + j) 0) →
      pckReadUInt64Go data pos r i = .error (.formatError "unterminated base-128 integer") := by
  intro n
  induction n with
  | zero =>
    intro i r pos data hi _
    rw [pckReadUInt64Go]
    have : ¬ (i < PACK_UINT64_SIZE_MAX) := by simp [PACK_UINT64_SIZE_MAX]; omega
    simp [this]
  | succ n ih =>
    intro i r pos data hi hbytes
    rw [pckReadUInt64Go]
    have hi10 : i < PACK_UINT64_SIZE_MAX := by simp [PACK_UINT64_SIZE_MAX]; omega
    obtain ⟨hpos, hbyte⟩ := hbytes 0 (by omega)
    simp only [Nat.add_zero] at hpos hbyte
    have hnotlt : ¬ (data.getD pos 0 < 0x80) := by omega
    simp only [if_pos hi10, if_pos hpos, if_neg hnotlt]
    exact ih (i + 1) _ (pos + 1) data (by omega) (fun j hj => by
      have := hbytes (j + 1) (by omega)
      constructor
      · have := this.1; omega
      · have h2 := this.2
        have : pos + 1 + j = pos + (j + 1) := by omega
        rw [this]
        exact h2)

theorem pckReadUInt64Go_eof :
    ∀ n i r pos (data : List Nat), i + n = 10 → data.length - pos < n →
      (∀ j, pos + j < data.length → 0x80 ≤ data.getD (pos + j) 0) →
      pckReadUInt64Go data pos r i = .error (.formatError "unexpected EOF") := by
  intro n
  induction n with
  | zero =>
    intro i r pos data _ hlen _
    omega
  | succ n ih =>
    intro i r pos data hi hlen hbytes
    rw [pckReadUInt64Go]
    have hi10 : i < PACK_UINT64_SIZE_MAX := by simp [PACK_UINT64_SIZE_MAX]; omega
    by_cases hpos : pos < data.length
    · have hbyte := hbytes 0 (by omega)
      simp only [Nat.add_zero] at hbyte
      have hnotlt : ¬ (data.getD pos 0 < 0x80) := by omega
      simp only [if_pos hi10, if_pos hpos, if_neg hnotlt]
      exact ih (i + 1) _ (pos + 1) data (by omega) (by omega) (fun j hj => by
        have := hbytes (j + 1) (by omega)
        have heq : pos + 1 + j = pos + (j + 1) := by omega
        rw [heq]
        exact this)
    · simp only [if_pos hi10, if_neg hpos]

/-! ### Tag-byte bit lemmas

The writer assembles the tag byte with `|||`/`<<<` on disjoint bit ranges and the
reader takes it apart with `&&&`/`>>>`.  All participating quantities are bounded, so
each fact is settled by `decide` after the unbounded delta/value are reduced to their
low bits with the mask lemmas. -/

theorem and3_eq_mod (d : Nat) : d &&& 3 = d % 4 := by
  have h : (3 : Nat) = 2 ^ 2 - 1 := by norm_num
  rw [h, Nat.and_pow_two_sub_one_eq_mod]

theorem and7_eq_mod (d : Nat) : d &&& 7 = d % 8 := by
  have h : (7 : Nat) = 2 ^ 3 - 1 := by norm_num
  rw [h, Nat.and_pow_two_sub_one_eq_mod]

theorem shiftRight1_eq_div (d : Nat) : d >>> 1 = d / 2 := by
  rw [Nat.shiftRight_eq_div_pow]

theorem shiftRight2_eq_div (d : Nat) : d >>> 2 = d / 4 := by
  rw [Nat.shiftRight_eq_div_pow]

theorem shiftRight3_eq_div (d : Nat) : d >>> 3 = d / 8 := by
  rw [Nat.shiftRight_eq_div_pow]

set_option maxRecDepth 8000 in
theorem tag_mbs_or : ∀ t < 16, ∀ a < 2, ∀ b < 2,
    ((t <<< 4) ||| (a <<< 2)) ||| b = 16 * t + 4 * a + b := by decide

set_option maxRecDepth 8000 in
theorem tag_mbs_or2 : ∀ t < 16, ∀ a < 2, ∀ b < 2,
    (16 * t + 4 * a + b) ||| 2 = 16 * t + 4 * a + 2 + b := by decide

set_option maxRecDepth 8000 in
theorem tag_mbs_decode_type : ∀ t < 16, ∀ a < 2, ∀ c < 2, ∀ b < 2,
    (16 * t + 4 * a + 2 * c + b) >>> 4 = t ∧
    (16 * t + 4 * a + 2 * c + b) &&& 8 = 0 := by decide

set_option maxRecDepth 8000 in
theorem tag_mbs_decode_id : ∀ t < 16, ∀ a < 2, ∀ c < 2, ∀ b < 2,
    (16 * t + 4 * a + 2 * c + b) &&& 1 = b ∧
    (16 * t + 4 * a + 2 * c + b) &&& 2 = 2 * c := by decide

set_option maxRecDepth 8000 in
theorem tag_mbs_decode_value : ∀ t < 16, ∀ a < 2, ∀ c < 2, ∀ b < 2,
    ((16 * t + 4 * a + 2 * c + b) >>> 2) &&& 1 = a := by decide

set_option maxRecDepth 8000 in
theorem tag_mbl_or : ∀ t < 16, ∀ r < 4,
    ((t <<< 4) ||| 8) ||| r = 16 * t + 8 + r := by decide

set_option maxRecDepth 8000 in
theorem tag_mbl_or4 : ∀ t < 16, ∀ r < 4,
    (16 * t + 8 + r) ||| 4 = 16 * t + 8 + 4 + r := by decide

set_option maxRecDepth 8000 in
theorem tag_mbl_decode_type : ∀ t < 16, ∀ c < 2, ∀ r < 4,
    (16 * t + 8 + 4 * c + r) >>> 4 = t ∧
    (16 * t + 8 + 4 * c + r) &&& 8 = 8 := by decide

set_option maxRecDepth 8000 in
theorem tag_mbl_decode_id : ∀ t < 16, ∀ c < 2, ∀ r < 4,
    (16 * t + 8 + 4 * c + r) &&& 3 = r ∧
    (16 * t + 8 + 4 * c + r) &&& 4 = 4 * c := by decide

set_option maxRecDepth 8000 in
theorem tag_sb_or : ∀ t < 16, ∀ a < 2, ∀ r < 4,
    ((t <<< 4) ||| (a <<< 3)) ||| r = 16 * t + 8 * a + r := by decide

set_option maxRecDepth 8000 in
theorem tag_sb_or4 : ∀ t < 16, ∀ a < 2, ∀ r < 4,
    (16 * t + 8 * a + r) ||| 4 = 16 * t + 8 * a + 4 + r := by decide

set_option maxRecDepth 8000 in
theorem tag_sb_decode_type : ∀ t < 16, ∀ a < 2, ∀ c < 2, ∀ r < 4,
    (16 * t + 8 * a + 4 * c + r) >>> 4 = t ∧
    ((16 * t + 8 * a + 4 * c + r) >>> 3) &&& 1 = a := by decide

set_option maxRecDepth 8000 in
theorem tag_sb_decode_id : ∀ t < 16, ∀ a < 2, ∀ c < 2, ∀ r < 4,
    (16 * t + 8 * a + 4 * c + r) &&& 3 = r ∧
    (16 * t + 8 * a + 4 * c + r) &&& 4 = 4 * c := by decide

set_option maxRecDepth 8000 in
theorem tag_ct_or : ∀ t < 16, ∀ r < 8,
    (t <<< 4) ||| r = 16 * t + r := by decide

set_option maxRecDepth 8000 in
theorem tag_ct_or8 : ∀ t < 16, ∀ r < 8,
    (16 * t + r) ||| 8 = 16 * t + 8 + r := by decide

set_option maxRecDepth 8000 in
theorem tag_ct_decode_type : ∀ t < 16, ∀ c < 2, ∀ r < 8,
    (16 * t + 8 * c + r) >>> 4 = t := by decide

set_option maxRecDepth 8000 in
theorem tag_ct_decode_id : ∀ t < 16, ∀ c < 2, ∀ r < 8,
    (16 * t + 8 * c + r) &&& 7 = r ∧
    (16 * t + 8 * c + r) &&& 8 = 8 * c := by decide

/-- Reassembling the id delta on the reader side: the low tag bits or-ed with the
varint of the high bits (cast to unsigned int and shifted) give back the delta. -/
theorem idHigh_reconstruct (d k : Nat) (hd : d < 2 ^ 32) :
    (d % 2 ^ k) ||| (((d / 2 ^ k) % 2 ^ 32) <<< k) % 2 ^ 32 = d := by
  have h1 : (d / 2 ^ k) % 2 ^ 32 = d / 2 ^ k :=
    Nat.mod_eq_of_lt (Nat.lt_of_le_of_lt (Nat.div_le_self _ _) hd)
  have h2 : ((d / 2 ^ k) <<< k) % 2 ^ 32 = 2 ^ k * (d / 2 ^ k) := by
    rw [Nat.shiftLeft_eq, mul_comm]
    exact Nat.mod_eq_of_lt (Nat.lt_of_le_of_lt (by
      rw [mul_comm]
      exact Nat.div_mul_le_self d _) hd)
  rw [h1, h2, lor_low_high _ (Nat.mod_lt _ (by positivity)), Nat.mod_add_div]

/-! ### Category facts about the type table -/

theorem mb_cases (t : Nat) (h : valueMultiBit t = true) :
    t = 4 ∨ t = 5 ∨ t = 7 ∨ t = 9 ∨ t = 10 ∨ t = 11 := by
  simp [valueMultiBit, pckTypeI32, pckTypeI64, pckTypePtr, pckTypeTime, pckTypeU32,
    pckTypeU64] at h
  tauto

theorem sb_cases (t : Nat) (h : valueSingleBit t = true) :
    t = 2 ∨ t = 3 ∨ t = 8 := by
  simp [valueSingleBit, pckTypeBin, pckTypeBool, pckTypeStr] at h
  tauto

theorem mb_pos (t : Nat) (h : valueMultiBit t = true) : 1 ≤ t := by
  rcases mb_cases t h with h | h | h | h | h | h <;> omega

theorem sb_pos (t : Nat) (h : valueSingleBit t = true) : 1 ≤ t := by
  rcases sb_cases t h with h | h | h <;> omega

theorem sb_not_mb (t : Nat) (h : valueSingleBit t = true) : valueMultiBit t = false := by
  rcases sb_cases t h with h | h | h <;> subst h <;> rfl

/-! ### State-level decode helpers -/

theorem pckReadUInt64Internal_encode (v : Nat) (hv : v < 2 ^ 64)
    (pre post : List Nat) (tn tt tv : Nat) (stack : List PackTagStack) :
    pckReadUInt64Internal ⟨pre ++ pckWriteUInt64Internal v ++ post, pre.length, tn, tt, tv, stack⟩
      = .ok (v, ⟨pre ++ pckWriteUInt64Internal v ++ post,
          pre.length + (pckWriteUInt64Internal v).length, tn, tt, tv, stack⟩) := by
  simp only [pckReadUInt64Internal]
  rw [pckReadUInt64Go_roundtrip v hv]

theorem pckReadBytesGo_slice (s : List Nat) (pre post : List Nat) (tn tt tv : Nat)
    (stack : List PackTagStack) :
    pckReadBytesGo ⟨pre ++ s ++ post, pre.length, tn, tt, tv, stack⟩ s.length
      = .ok (s, ⟨pre ++ s ++ post, pre.length + s.length, tn, tt, tv, stack⟩) := by
  rw [pckReadBytesGo]
  by_cases h : s.length = 0
  · have hs : s = [] := List.length_eq_zero.mp h
    subst hs
    simp
  · simp only [if_neg h]
    have hrem : (pre ++ s ++ post).length - pre.length = s.length + post.length := by
      simp
    have hnot : ¬ ((pre ++ s ++ post).length - pre.length < s.length) := by
      rw [hrem]
      omega
    simp only [if_neg hnot]
    have hdrop : (pre ++ s ++ post).drop pre.length = s ++ post := by
      rw [List.append_assoc]
      exact List.drop_left pre (s ++ post)
    rw [hdrop, List.take_left]

/-! ### Tag byte round-trip, one lemma per writer path -/

theorem tag_roundtrip_mb_small
    (wst : PackWriteState) (t id value : Nat) (top : PackTagStack) (rest : List PackTagStack)
    (hstack : wst.tagStack = top :: rest)
    (hmb : valueMultiBit t = true) (ht16 : t < 16)
    (hid : top.idLast < id) (hid32 : id < 2 ^ 32) (hval : value < 2) :
    ∃ δ, pckWriteTag wst t id value
        = .ok ⟨wst.buffer ++ δ, { type := top.type, idLast := id, nullTotal := 0 } :: rest⟩ ∧
      0 < δ.length ∧
      ∀ (pre post : List Nat) (tn tt tv : Nat) (rtop : PackTagStack) (rrest : List PackTagStack),
        rtop.idLast = top.idLast →
        pckReadTagNext ⟨pre ++ δ ++ post, pre.length, tn, tt, tv, rtop :: rrest⟩
          = .ok (true, ⟨pre ++ δ ++ post, pre.length + δ.length, id, t, value, rtop :: rrest⟩) := by
  have ht1 : 1 ≤ t := mb_pos t hmb
  set d := id - top.idLast - 1 with hd
  have hd32 : d < 2 ^ 32 := by omega
  have hassert : ¬ (id ≠ 0 ∧ id ≤ top.idLast) := by omega
  have hidne : ¬ (id = 0) := by omega
  have hand1 : value &&& 1 = value := by
    rw [Nat.and_one_is_mod]
    omega
  have hdand1 : d &&& 1 = d % 2 := Nat.and_one_is_mod d
  by_cases hd2 : d >>> 1 > 0
  · -- more-ID-delta varint present
    have hd2' : 0 < d / 2 := by rwa [shiftRight1_eq_div] at hd2
    have hB : ((t <<< 4) ||| (value &&& 1) <<< 2) ||| (d &&& 1) ||| 2
        = 16 * t + 4 * value + 2 + d % 2 := by
      rw [hand1, hdand1, tag_mbs_or t ht16 value hval (d % 2) (Nat.mod_lt _ (by norm_num)),
        tag_mbs_or2 t ht16 value hval (d % 2) (Nat.mod_lt _ (by norm_num))]
    have hBlt : 16 * t + 4 * value + 2 + d % 2 < 256 := by
      have := Nat.mod_lt d (y := 2) (by norm_num)
      omega
    refine ⟨[16 * t + 4 * value + 2 + d % 2] ++ pckWriteUInt64Internal (d >>> 1), ?_, by simp, ?_⟩
    · simp only [pckWriteTag, hstack, if_neg hassert, if_neg hidne, hmb, if_pos hval,
        if_pos hd2, ← hd]
      rw [hB]
      have hv2 : ¬ (value >>> 1 > 0) := by
        rw [shiftRight1_eq_div]
        omega
      simp only [if_neg hv2, Nat.mod_eq_of_lt hBlt]
      simp
    · intro pre post tn tt tv rtop rrest hrid
      have hB8 := (tag_mbs_decode_type t ht16 value hval 1 (by norm_num) (d % 2)
        (Nat.mod_lt _ (by norm_num))).2
      have hBt := (tag_mbs_decode_type t ht16 value hval 1 (by norm_num) (d % 2)
        (Nat.mod_lt _ (by norm_num))).1
      have hB1 := (tag_mbs_decode_id t ht16 value hval 1 (by norm_num) (d % 2)
        (Nat.mod_lt _ (by norm_num))).1
      have hB2 := (tag_mbs_decode_id t ht16 value hval 1 (by norm_num) (d % 2)
        (Nat.mod_lt _ (by norm_num))).2
      have hBv := tag_mbs_decode_value t ht16 value hval 1 (by norm_num) (d % 2)
        (Nat.mod_lt _ (by norm_num))
      simp only [Nat.mul_one] at hB8 hBt hB1 hB2 hBv
      set B := 16 * t + 4 * value + 2 + d % 2 with hBdef
      have hlen1 : ¬ ((pre ++ ([B] ++ pckWriteUInt64Internal (d >>> 1)) ++ post).length
          - pre.length < 1) := by
        simp
      have hgetB : (pre ++ ([B] ++ pckWriteUInt64Internal (d >>> 1)) ++ post).getD pre.length 0
          = B := by
        rw [List.append_assoc, List.append_assoc, List.singleton_append, getD_append_cons]
      have hBne : ¬ (B = 0) := by
        rw [hBdef]
        omega
      simp only [pckReadTagNext, hlen1, if_neg hlen1, hgetB, if_neg hBne, hBt, hmb,
        if_pos rfl]
      have h8 : ¬ ((B &&& 8) ≠ 0) := by
        rw [hB8]
        omega
      simp only [if_neg h8]
      have h2ne : ((B &&& 2) != 0) = true := by
        rw [hB2]
        norm_num
      simp only [pckReadTagNextIdHigh, h2ne, if_pos rfl]
      have hread := pckReadUInt64Internal_encode (d >>> 1) (by
          rw [shiftRight1_eq_div]
          have : d / 2 ≤ d := Nat.div_le_self _ _
          have h64 : (2 : Nat) ^ 32 < 2 ^ 64 := by norm_num
          omega)
        (pre ++ [B]) post tn tt tv (rtop :: rrest)
      simp only [List.append_assoc, List.singleton_append, List.cons_append,
        List.nil_append, List.length_append, List.length_cons, List.length_nil,
        Nat.zero_add, Nat.add_zero] at hread ⊢
      rw [hread]
      simp only [if_true, if_false]
      have hrecon : (B &&& 1) ||| (((d >>> 1) % 2 ^ 32) <<< 1) % 2 ^ 32 = d := by
        rw [hB1, shiftRight1_eq_div]
        have := idHigh_reconstruct d 1 hd32
        norm_num at this
        exact this
      rw [hrecon, hBv, hrid]
      have hfin : (d + top.idLast + 1) % 2 ^ 32 = id := by
        have : d + top.idLast + 1 = id := by omega
        rw [this]
        exact Nat.mod_eq_of_lt hid32
      rw [hfin]
      simp only [Except.ok.injEq, Prod.mk.injEq, PackReadState.mk.injEq, true_and,
        and_true]
      omega
  · -- delta fits in the tag
    have hd2' : d / 2 = 0 := by
      rw [shiftRight1_eq_div] at hd2
      omega
    have hdlt : d < 2 := by omega
    have hdm : d % 2 = d := by omega
    have hB : ((t <<< 4) ||| (value &&& 1) <<< 2) ||| (d &&& 1)
        = 16 * t + 4 * value + d := by
      rw [hand1, hdand1, hdm, tag_mbs_or t ht16 value hval d hdlt]
    have hBlt : 16 * t + 4 * value + d < 256 := by omega
    refine ⟨[16 * t + 4 * value + d], ?_, by simp, ?_⟩
    · simp only [pckWriteTag, hstack, if_neg hassert, if_neg hidne, hmb, if_pos hval,
        if_neg hd2, ← hd]
      rw [hB]
      have hv2 : ¬ (value >>> 1 > 0) := by
        rw [shiftRight1_eq_div]
        omega
      simp only [if_neg hv2, Nat.mod_eq_of_lt hBlt]
      simp
    · intro pre post tn tt tv rtop rrest hrid
      have hBt := (tag_mbs_decode_type t ht16 value hval 0 (by norm_num) d hdlt).1
      have hB8 := (tag_mbs_decode_type t ht16 value hval 0 (by norm_num) d hdlt).2
      have hB1 := (tag_mbs_decode_id t ht16 value hval 0 (by norm_num) d hdlt).1
      have hB2 := (tag_mbs_decode_id t ht16 value hval 0 (by norm_num) d hdlt).2
      have hBv := tag_mbs_decode_value t ht16 value hval 0 (by norm_num) d hdlt
      simp only [Nat.mul_zero, Nat.add_zero] at hBt hB8 hB1 hB2 hBv
      set B := 16 * t + 4 * value + d with hBdef
      have hlen1 : ¬ ((pre ++ [B] ++ post).length - pre.length < 1) := by
        simp
      have hgetB : (pre ++ [B] ++ post).getD pre.length 0 = B := by
        rw [List.append_assoc, List.singleton_append, getD_append_cons]
      have hBne : ¬ (B = 0) := by
        rw [hBdef]
        omega
      simp only [pckReadTagNext, if_neg hlen1, hgetB, if_neg hBne, hBt, hmb, if_pos rfl]
      have h8 : ¬ ((B &&& 8) ≠ 0) := by
        rw [hB8]
        omega
      simp only [if_neg h8]
      have h2ne : ((B &&& 2) != 0) = false := by
        rw [hB2]
        norm_num
      simp only [pckReadTagNextIdHigh, h2ne, Bool.false_eq_true, if_true, if_false]
      rw [hB1, hBv, hrid]
      have hfin : (d + top.idLast + 1) % 2 ^ 32 = id := by
        have : d + top.idLast + 1 = id := by omega
        rw [this]
        exact Nat.mod_eq_of_lt hid32
      rw [hfin]
      simp only [Except.ok.injEq, Prod.mk.injEq, PackReadState.mk.injEq, true_and,
        and_true]
      simp

theorem tag_roundtrip_mb_large
    (wst : PackWriteState) (t id value : Nat) (top : PackTagStack) (rest : List PackTagStack)
    (hstack : wst.tagStack = top :: rest)
    (hmb : valueMultiBit t = true) (ht16 : t < 16)
    (hid : top.idLast < id) (hid32 : id < 2 ^ 32) (hval2 : 2 ≤ value)
    (hval64 : value < 2 ^ 64) :
    ∃ δ, pckWriteTag wst t id value
        = .ok ⟨wst.buffer ++ δ, { type := top.type, idLast := id, nullTotal := 0 } :: rest⟩ ∧
      0 < δ.length ∧
      ∀ (pre post : List Nat) (tn tt tv : Nat) (rtop : PackTagStack) (rrest : List PackTagStack),
        rtop.idLast = top.idLast →
        pckReadTagNext ⟨pre ++ δ ++ post, pre.length, tn, tt, tv, rtop :: rrest⟩
          = .ok (true, ⟨pre ++ δ ++ post, pre.length + δ.length, id, t, value, rtop :: rrest⟩) := by
  have ht1 : 1 ≤ t := mb_pos t hmb
  set d := id - top.idLast - 1 with hd
  have hd32 : d < 2 ^ 32 := by omega
  have hassert : ¬ (id ≠ 0 ∧ id ≤ top.idLast) := by omega
  have hidne : ¬ (id = 0) := by omega
  have hnotlt2 : ¬ (value < 2) := by omega
  have hvpos : value > 0 := by omega
  have hdand3 : d &&& 3 = d % 4 := and3_eq_mod d
  by_cases hd4 : d >>> 2 > 0
  · have hB : (((t <<< 4) ||| 8) ||| (d &&& 3)) ||| 4 = 16 * t + 8 + 4 + d % 4 := by
      rw [hdand3, tag_mbl_or t ht16 (d % 4) (Nat.mod_lt _ (by norm_num)),
        tag_mbl_or4 t ht16 (d % 4) (Nat.mod_lt _ (by norm_num))]
    have hBlt : 16 * t + 8 + 4 + d % 4 < 256 := by
      have := Nat.mod_lt d (y := 4) (by norm_num)
      omega
    refine ⟨[16 * t + 8 + 4 + d % 4] ++ pckWriteUInt64Internal (d >>> 2)
      ++ pckWriteUInt64Internal value, ?_, by simp, ?_⟩
    · simp only [pckWriteTag, hstack, if_neg hassert, if_neg hidne, hmb, if_neg hnotlt2,
        if_pos hd4, if_pos hvpos, ← hd]
      rw [hB]
      simp only [Nat.mod_eq_of_lt hBlt]
      simp
    · intro pre post tn tt tv rtop rrest hrid
      have hBt := (tag_mbl_decode_type t ht16 1 (by norm_num) (d % 4)
        (Nat.mod_lt _ (by norm_num))).1
      have hB8 := (tag_mbl_decode_type t ht16 1 (by norm_num) (d % 4)
        (Nat.mod_lt _ (by norm_num))).2
      have hB3 := (tag_mbl_decode_id t ht16 1 (by norm_num) (d % 4)
        (Nat.mod_lt _ (by norm_num))).1
      have hB4 := (tag_mbl_decode_id t ht16 1 (by norm_num) (d % 4)
        (Nat.mod_lt _ (by norm_num))).2
      simp only [Nat.mul_one] at hBt hB8 hB3 hB4
      set B := 16 * t + 8 + 4 + d % 4 with hBdef
      have hlen1 : ¬ ((pre ++ ([B] ++ pckWriteUInt64Internal (d >>> 2)
          ++ pckWriteUInt64Internal value) ++ post).length - pre.length < 1) := by
        simp
      have hgetB : (pre ++ ([B] ++ pckWriteUInt64Internal (d >>> 2)
          ++ pckWriteUInt64Internal value) ++ post).getD pre.length 0 = B := by
        rw [List.append_assoc, List.append_assoc, List.append_assoc,
          List.singleton_append, getD_append_cons]
      have hBne : ¬ (B = 0) := by
        rw [hBdef]
        omega
      simp only [pckReadTagNext, if_neg hlen1, hgetB, if_neg hBne, hBt, hmb, if_pos rfl]
      have h8 : (B &&& 8) ≠ 0 := by
        rw [hB8]
        omega
      simp only [if_pos h8, if_neg (by rw [hB8]; omega : ¬ (B &&& 8) = 0)]
      have h4ne : ((B &&& 4) != 0) = true := by
        rw [hB4]
        norm_num
      simp only [pckReadTagNextIdHigh, h4ne, if_true]
      have hd64 : d >>> 2 < 2 ^ 64 := by
        rw [shiftRight2_eq_div]
        have : d / 4 ≤ d := Nat.div_le_self _ _
        have h64 : (2 : Nat) ^ 32 < 2 ^ 64 := by norm_num
        omega
      have hread1 := pckReadUInt64Internal_encode (d >>> 2) hd64
        (pre ++ [B]) (pckWriteUInt64Internal value ++ post) tn tt tv (rtop :: rrest)
      have hread2 := pckReadUInt64Internal_encode value hval64
        (pre ++ [B] ++ pckWriteUInt64Internal (d >>> 2)) post tn tt tv (rtop :: rrest)
      simp only [List.append_assoc, List.singleton_append, List.cons_append,
        List.nil_append, List.length_append, List.length_cons, List.length_nil,
        Nat.zero_add, Nat.add_zero, Nat.add_assoc, Nat.add_comm, Nat.add_left_comm]
        at hread1 hread2 ⊢
      rw [hread1]
      simp only [if_true, if_false]
      rw [hread2]
      have hrecon : (B &&& 3) ||| (((d >>> 2) % 2 ^ 32) <<< 2) % 2 ^ 32 = d := by
        rw [hB3, shiftRight2_eq_div]
        have := idHigh_reconstruct d 2 hd32
        norm_num at this
        exact this
      rw [hrecon]
      simp only [Except.ok.injEq, Prod.mk.injEq, PackReadState.mk.injEq, true_and,
        and_true]
      omega
  · have hd4' : d / 4 = 0 := by
      rw [shiftRight2_eq_div] at hd4
      omega
    have hdlt : d < 4 := by omega
    have hdm : d % 4 = d := by omega
    have hB : ((t <<< 4) ||| 8) ||| (d &&& 3) = 16 * t + 8 + d := by
      rw [hdand3, hdm, tag_mbl_or t ht16 d hdlt]
    have hBlt : 16 * t + 8 + d < 256 := by omega
    refine ⟨[16 * t + 8 + d] ++ pckWriteUInt64Internal value, ?_, by simp, ?_⟩
    · simp only [pckWriteTag, hstack, if_neg hassert, if_neg hidne, hmb, if_neg hnotlt2,
        if_neg hd4, if_pos hvpos, ← hd]
      rw [hB]
      simp only [Nat.mod_eq_of_lt hBlt]
      simp
    · intro pre post tn tt tv rtop rrest hrid
      have hBt := (tag_mbl_decode_type t ht16 0 (by norm_num) d hdlt).1
      have hB8 := (tag_mbl_decode_type t ht16 0 (by norm_num) d hdlt).2
      have hB3 := (tag_mbl_decode_id t ht16 0 (by norm_num) d hdlt).1
      have hB4 := (tag_mbl_decode_id t ht16 0 (by norm_num) d hdlt).2
      simp only [Nat.mul_zero, Nat.add_zero] at hBt hB8 hB3 hB4
      set B := 16 * t + 8 + d with hBdef
      have hlen1 : ¬ ((pre ++ ([B] ++ pckWriteUInt64Internal value) ++ post).length
          - pre.length < 1) := by
        simp
      have hgetB : (pre ++ ([B] ++ pckWriteUInt64Internal value) ++ post).getD pre.length 0
          = B := by
        rw [List.append_assoc, List.append_assoc, List.singleton_append, getD_append_cons]
      have hBne : ¬ (B = 0) := by
        rw [hBdef]
        omega
      simp only [pckReadTagNext, if_neg hlen1, hgetB, if_neg hBne, hBt, hmb, if_pos rfl]
      have h8 : (B &&& 8) ≠ 0 := by
        rw [hB8]
        omega
      simp only [if_pos h8, if_neg (by rw [hB8]; omega : ¬ (B &&& 8) = 0)]
      have h4ne : ((B &&& 4) != 0) = false := by
        rw [hB4]
        norm_num
      simp only [pckReadTagNextIdHigh, h4ne, Bool.false_eq_true, if_true, if_false]
      have hread2 := pckReadUInt64Internal_encode value hval64
        (pre ++ [B]) post tn tt tv (rtop :: rrest)
      simp only [List.append_assoc, List.singleton_append, List.cons_append,
        List.nil_append, List.length_append, List.length_cons, List.length_nil,
        Nat.zero_add, Nat.add_zero] at hread2 ⊢
      rw [hread2]
      rw [hB3]
      simp only [Except.ok.injEq, Prod.mk.injEq, PackReadState.mk.injEq, true_and,
        and_true]
      omega

theorem tag_roundtrip_sb
    (wst : PackWriteState) (t id value : Nat) (top : PackTagStack) (rest : List PackTagStack)
    (hstack : wst.tagStack = top :: rest)
    (hsb : valueSingleBit t = true) (ht16 : t < 16)
    (hid : top.idLast < id) (hid32 : id < 2 ^ 32) (hval : value < 2) :
    ∃ δ, pckWriteTag wst t id value
        = .ok ⟨wst.buffer ++ δ, { type := top.type, idLast := id, nullTotal := 0 } :: rest⟩ ∧
      0 < δ.length ∧
      ∀ (pre post : List Nat) (tn tt tv : Nat) (rtop : PackTagStack) (rrest : List PackTagStack),
        rtop.idLast = top.idLast →
        pckReadTagNext ⟨pre ++ δ ++ post, pre.length, tn, tt, tv, rtop :: rrest⟩
          = .ok (true, ⟨pre ++ δ ++ post, pre.length + δ.length, id, t, value, rtop :: rrest⟩) := by
  have ht1 : 1 ≤ t := sb_pos t hsb
  have hmbf : valueMultiBit t = false := sb_not_mb t hsb
  set d := id - top.idLast - 1 with hd
  have hd32 : d < 2 ^ 32 := by omega
  have hassert : ¬ (id ≠ 0 ∧ id ≤ top.idLast) := by omega
  have hidne : ¬ (id = 0) := by omega
  have hand1 : value &&& 1 = value := by
    rw [Nat.and_one_is_mod]
    omega
  have hdand3 : d &&& 3 = d % 4 := and3_eq_mod d
  have hv2 : ¬ (value >>> 1 > 0) := by
    rw [shiftRight1_eq_div]
    omega
  by_cases hd4 : d >>> 2 > 0
  · have hB : (((t <<< 4) ||| (value &&& 1) <<< 3) ||| (d &&& 3)) ||| 4
        = 16 * t + 8 * value + 4 + d % 4 := by
      rw [hand1, hdand3, tag_sb_or t ht16 value hval (d % 4) (Nat.mod_lt _ (by norm_num)),
        tag_sb_or4 t ht16 value hval (d % 4) (Nat.mod_lt _ (by norm_num))]
    have hBlt : 16 * t + 8 * value + 4 + d % 4 < 256 := by
      have := Nat.mod_lt d (y := 4) (by norm_num)
      omega
    refine ⟨[16 * t + 8 * value + 4 + d % 4] ++ pckWriteUInt64Internal (d >>> 2), ?_,
      by simp, ?_⟩
    · simp only [pckWriteTag, hstack, if_neg hassert, if_neg hidne, hmbf, hsb,
        if_pos hd4, ← hd]
      rw [hB]
      simp only [if_neg hv2, Nat.mod_eq_of_lt hBlt]
      simp
    · intro pre post tn tt tv rtop rrest hrid
      have hBt := (tag_sb_decode_type t ht16 value hval 1 (by norm_num) (d % 4)
        (Nat.mod_lt _ (by norm_num))).1
      have hBv := (tag_sb_decode_type t ht16 value hval 1 (by norm_num) (d % 4)
        (Nat.mod_lt _ (by norm_num))).2
      have hB3 := (tag_sb_decode_id t ht16 value hval 1 (by norm_num) (d % 4)
        (Nat.mod_lt _ (by norm_num))).1
      have hB4 := (tag_sb_decode_id t ht16 value hval 1 (by norm_num) (d % 4)
        (Nat.mod_lt _ (by norm_num))).2
      simp only [Nat.mul_one] at hBt hBv hB3 hB4
      set B := 16 * t + 8 * value + 4 + d % 4 with hBdef
      have hlen1 : ¬ ((pre ++ ([B] ++ pckWriteUInt64Internal (d >>> 2)) ++ post).length
          - pre.length < 1) := by
        simp
      have hgetB : (pre ++ ([B] ++ pckWriteUInt64Internal (d >>> 2)) ++ post).getD pre.length 0
          = B := by
        rw [List.append_assoc, List.append_assoc, List.singleton_append, getD_append_cons]
      have hBne : ¬ (B = 0) := by
        rw [hBdef]
        omega
      simp only [pckReadTagNext, if_neg hlen1, hgetB, if_neg hBne, hBt, hmbf, hsb,
        Bool.false_eq_true, if_true, if_false]
      have h4ne : ((B &&& 4) != 0) = true := by
        rw [hB4]
        norm_num
      simp only [pckReadTagNextIdHigh, h4ne, if_true]
      have hd64 : d >>> 2 < 2 ^ 64 := by
        rw [shiftRight2_eq_div]
        have : d / 4 ≤ d := Nat.div_le_self _ _
        have h64 : (2 : Nat) ^ 32 < 2 ^ 64 := by norm_num
        omega
      have hread := pckReadUInt64Internal_encode (d >>> 2) hd64
        (pre ++ [B]) post tn tt tv (rtop :: rrest)
      simp only [List.append_assoc, List.singleton_append, List.cons_append,
        List.nil_append, List.length_append, List.length_cons, List.length_nil,
        Nat.zero_add, Nat.add_zero] at hread ⊢
      rw [hread]
      simp only [if_true, if_false]
      have hrecon : (B &&& 3) ||| (((d >>> 2) % 2 ^ 32) <<< 2) % 2 ^ 32 = d := by
        rw [hB3, shiftRight2_eq_div]
        have := idHigh_reconstruct d 2 hd32
        norm_num at this
        exact this
      rw [hrecon, hBv]
      simp only [Except.ok.injEq, Prod.mk.injEq, PackReadState.mk.injEq, true_and,
        and_true]
      omega
  · have hd4' : d / 4 = 0 := by
      rw [shiftRight2_eq_div] at hd4
      omega
    have hdlt : d < 4 := by omega
    have hdm : d % 4 = d := by omega
    have hB : ((t <<< 4) ||| (value &&& 1) <<< 3) ||| (d &&& 3)
        = 16 * t + 8 * value + d := by
      rw [hand1, hdand3, hdm, tag_sb_or t ht16 value hval d hdlt]
    have hBlt : 16 * t + 8 * value + d < 256 := by omega
    refine ⟨[16 * t + 8 * value + d], ?_, by simp, ?_⟩
    · simp only [pckWriteTag, hstack, if_neg hassert, if_neg hidne, hmbf, hsb,
        if_neg hd4, ← hd]
      rw [hB]
      simp only [if_neg hv2, Nat.mod_eq_of_lt hBlt]
      simp
    · intro pre post tn tt tv rtop rrest hrid
      have hBt := (tag_sb_decode_type t ht16 value hval 0 (by norm_num) d hdlt).1
      have hBv := (tag_sb_decode_type t ht16 value hval 0 (by norm_num) d hdlt).2
      have hB3 := (tag_sb_decode_id t ht16 value hval 0 (by norm_num) d hdlt).1
      have hB4 := (tag_sb_decode_id t ht16 value hval 0 (by norm_num) d hdlt).2
      simp only [Nat.mul_zero, Nat.add_zero] at hBt hBv hB3 hB4
      set B := 16 * t + 8 * value + d with hBdef
      have hlen1 : ¬ ((pre ++ [B] ++ post).length - pre.length < 1) := by
        simp
      have hgetB : (pre ++ [B] ++ post).getD pre.length 0 = B := by
        rw [List.append_assoc, List.singleton_append, getD_append_cons]
      have hBne : ¬ (B = 0) := by
        rw [hBdef]
        omega
      simp only [pckReadTagNext, if_neg hlen1, hgetB, if_neg hBne, hBt, hmbf, hsb,
        Bool.false_eq_true, if_true, if_false]
      have h4ne : ((B &&& 4) != 0) = false := by
        rw [hB4]
        norm_num
      simp only [pckReadTagNextIdHigh, h4ne, Bool.false_eq_true, if_true, if_false]
      rw [hB3, hBv]
      simp only [Except.ok.injEq, Prod.mk.injEq, PackReadState.mk.injEq, true_and,
        and_true]
      simp only [List.append_assoc, List.singleton_append, List.length_append,
        List.length_cons, List.length_nil, Nat.zero_add, Nat.add_zero, true_and,
        and_true]
      omega

theorem tag_roundtrip_ct
    (wst : PackWriteState) (t id : Nat) (top : PackTagStack) (rest : List PackTagStack)
    (hstack : wst.tagStack = top :: rest)
    (hmbf : valueMultiBit t = false) (hsbf : valueSingleBit t = false)
    (ht1 : 1 ≤ t) (ht16 : t < 16)
    (hid : top.idLast < id) (hid32 : id < 2 ^ 32) :
    ∃ δ, pckWriteTag wst t id 0
        = .ok ⟨wst.buffer ++ δ, { type := top.type, idLast := id, nullTotal := 0 } :: rest⟩ ∧
      0 < δ.length ∧
      ∀ (pre post : List Nat) (tn tt tv : Nat) (rtop : PackTagStack) (rrest : List PackTagStack),
        rtop.idLast = top.idLast →
        pckReadTagNext ⟨pre ++ δ ++ post, pre.length, tn, tt, tv, rtop :: rrest⟩
          = .ok (true, ⟨pre ++ δ ++ post, pre.length + δ.length, id, t, 0, rtop :: rrest⟩) := by
  set d := id - top.idLast - 1 with hd
  have hd32 : d < 2 ^ 32 := by omega
  have hassert : ¬ (id ≠ 0 ∧ id ≤ top.idLast) := by omega
  have hidne : ¬ (id = 0) := by omega
  have hdand7 : d &&& 7 = d % 8 := and7_eq_mod d
  by_cases hd8 : d >>> 3 > 0
  · have hB : ((t <<< 4) ||| (d &&& 7)) ||| 8 = 16 * t + 8 + d % 8 := by
      rw [hdand7, tag_ct_or t ht16 (d % 8) (Nat.mod_lt _ (by norm_num)),
        tag_ct_or8 t ht16 (d % 8) (Nat.mod_lt _ (by norm_num))]
    have hBlt : 16 * t + 8 + d % 8 < 256 := by
      have := Nat.mod_lt d (y := 8) (by norm_num)
      omega
    refine ⟨[16 * t + 8 + d % 8] ++ pckWriteUInt64Internal (d >>> 3), ?_, by simp, ?_⟩
    · simp only [pckWriteTag, hstack, if_neg hassert, if_neg hidne, hmbf, hsbf,
        Bool.false_eq_true, if_true, if_false, if_neg (by omega : ¬ ((0 : Nat) ≠ 0)),
        if_pos hd8, ← hd]
      rw [hB]
      simp only [Nat.mod_eq_of_lt hBlt]
      simp
    · intro pre post tn tt tv rtop rrest hrid
      have hBt := tag_ct_decode_type t ht16 1 (by norm_num) (d % 8)
        (Nat.mod_lt _ (by norm_num))
      have hB7 := (tag_ct_decode_id t ht16 1 (by norm_num) (d % 8)
        (Nat.mod_lt _ (by norm_num))).1
      have hB8 := (tag_ct_decode_id t ht16 1 (by norm_num) (d % 8)
        (Nat.mod_lt _ (by norm_num))).2
      simp only [Nat.mul_one] at hBt hB7 hB8
      set B := 16 * t + 8 + d % 8 with hBdef
      have hlen1 : ¬ ((pre ++ ([B] ++ pckWriteUInt64Internal (d >>> 3)) ++ post).length
          - pre.length < 1) := by
        simp
      have hgetB : (pre ++ ([B] ++ pckWriteUInt64Internal (d >>> 3)) ++ post).getD pre.length 0
          = B := by
        rw [List.append_assoc, List.append_assoc, List.singleton_append, getD_append_cons]
      have hBne : ¬ (B = 0) := by
        rw [hBdef]
        omega
      simp only [pckReadTagNext, if_neg hlen1, hgetB, if_neg hBne, hBt, hmbf, hsbf,
        Bool.false_eq_true, if_true, if_false]
      have h8ne : ((B &&& 8) != 0) = true := by
        rw [hB8]
        norm_num
      simp only [pckReadTagNextIdHigh, h8ne, if_true]
      have hd64 : d >>> 3 < 2 ^ 64 := by
        rw [shiftRight3_eq_div]
        have : d / 8 ≤ d := Nat.div_le_self _ _
        have h64 : (2 : Nat) ^ 32 < 2 ^ 64 := by norm_num
        omega
      have hread := pckReadUInt64Internal_encode (d >>> 3) hd64
        (pre ++ [B]) post tn tt tv (rtop :: rrest)
      simp only [List.append_assoc, List.singleton_append, List.cons_append,
        List.nil_append, List.length_append, List.length_cons, List.length_nil,
        Nat.zero_add, Nat.add_zero] at hread ⊢
      rw [hread]
      simp only [if_true, if_false]
      have hrecon : (B &&& 7) ||| (((d >>> 3) % 2 ^ 32) <<< 3) % 2 ^ 32 = d := by
        rw [hB7, shiftRight3_eq_div]
        have := idHigh_reconstruct d 3 hd32
        norm_num at this
        exact this
      rw [hrecon]
      simp only [Except.ok.injEq, Prod.mk.injEq, PackReadState.mk.injEq, true_and,
        and_true]
      omega
  · have hd8' : d / 8 = 0 := by
      rw [shiftRight3_eq_div] at hd8
      omega
    have hdlt : d < 8 := by omega
    have hdm : d % 8 = d := by omega
    have hB : (t <<< 4) ||| (d &&& 7) = 16 * t + d := by
      rw [hdand7, hdm, tag_ct_or t ht16 d hdlt]
    have hBlt : 16 * t + d < 256 := by omega
    refine ⟨[16 * t + d], ?_, by simp, ?_⟩
    · simp only [pckWriteTag, hstack, if_neg hassert, if_neg hidne, hmbf, hsbf,
        Bool.false_eq_true, if_true, if_false, if_neg (by omega : ¬ ((0 : Nat) ≠ 0)),
        if_neg hd8, ← hd]
      rw [hB]
      simp only [Nat.mod_eq_of_lt hBlt]
      simp
    · intro pre post tn tt tv rtop rrest hrid
      have hBt := tag_ct_decode_type t ht16 0 (by norm_num) d hdlt
      have hB7 := (tag_ct_decode_id t ht16 0 (by norm_num) d hdlt).1
      have hB8 := (tag_ct_decode_id t ht16 0 (by norm_num) d hdlt).2
      simp only [Nat.mul_zero, Nat.add_zero, Nat.zero_add] at hBt hB7 hB8
      set B := 16 * t + d with hBdef
      have hlen1 : ¬ ((pre ++ [B] ++ post).length - pre.length < 1) := by
        simp
      have hgetB : (pre ++ [B] ++ post).getD pre.length 0 = B := by
        rw [List.append_assoc, List.singleton_append, getD_append_cons]
      have hBne : ¬ (B = 0) := by
        rw [hBdef]
        omega
      simp only [pckReadTagNext, if_neg hlen1, hgetB, if_neg hBne, hBt, hmbf, hsbf,
        Bool.false_eq_true, if_true, if_false]
      have h8ne : ((B &&& 8) != 0) = false := by
        rw [hB8]
        norm_num
      simp only [pckReadTagNextIdHigh, h8ne, Bool.false_eq_true, if_true, if_false]
      rw [hB7]
      simp only [Except.ok.injEq, Prod.mk.injEq, PackReadState.mk.injEq, true_and,
        and_true]
      simp only [List.append_assoc, List.singleton_append, List.length_append,
        List.length_cons, List.length_nil, Nat.zero_add, Nat.add_zero, true_and,
        and_true]
      omega

/-- Combined multi-bit tag round-trip (both the small-value and large-value layouts). -/
theorem tag_roundtrip_mb
    (wst : PackWriteState) (t id value : Nat) (top : PackTagStack) (rest : List PackTagStack)
    (hstack : wst.tagStack = top :: rest)
    (hmb : valueMultiBit t = true) (ht16 : t < 16)
    (hid : top.idLast < id) (hid32 : id < 2 ^ 32) (hval64 : value < 2 ^ 64) :
    ∃ δ, pckWriteTag wst t id value
        = .ok ⟨wst.buffer ++ δ, { type := top.type, idLast := id, nullTotal := 0 } :: rest⟩ ∧
      0 < δ.length ∧
      ∀ (pre post : List Nat) (tn tt tv : Nat) (rtop : PackTagStack) (rrest : List PackTagStack),
        rtop.idLast = top.idLast →
        pckReadTagNext ⟨pre ++ δ ++ post, pre.length, tn, tt, tv, rtop :: rrest⟩
          = .ok (true, ⟨pre ++ δ ++ post, pre.length + δ.length, id, t, value, rtop :: rrest⟩) := by
  by_cases h : value < 2
  · exact tag_roundtrip_mb_small wst t id value top rest hstack hmb ht16 hid hid32 h
  · exact tag_roundtrip_mb_large wst t id value top rest hstack hmb ht16 hid hid32
      (by omega) hval64

/-! ### Zig-zag lemmas -/

theorem zigzag64_roundtrip (n : Int) : cvtInt64FromZigZag (cvtInt64ToZigZag n) = n := by
  simp only [cvtInt64ToZigZag, cvtInt64FromZigZag]
  by_cases h : 0 ≤ n
  · simp only [if_pos h]
    have h2 : 2 * n.toNat % 2 = 0 := by omega
    simp only [if_pos h2]
    omega
  · simp only [if_neg h]
    have h1 : 1 ≤ (-n).toNat := by omega
    have h2 : ¬ ((2 * (-n).toNat - 1) % 2 = 0) := by omega
    simp only [if_neg h2]
    omega

theorem zigzag32_roundtrip (n : Int) : cvtInt32FromZigZag (cvtInt32ToZigZag n) = n := by
  simp only [cvtInt32ToZigZag, cvtInt32FromZigZag]
  by_cases h : 0 ≤ n
  · simp only [if_pos h]
    have h2 : 2 * n.toNat % 2 = 0 := by omega
    simp only [if_pos h2]
    omega
  · simp only [if_neg h]
    have h1 : 1 ≤ (-n).toNat := by omega
    have h2 : ¬ ((2 * (-n).toNat - 1) % 2 = 0) := by omega
    simp only [if_neg h2]
    omega

theorem zigzag64_lt (n : Int) (h1 : -(2 ^ 63) ≤ n) (h2 : n < 2 ^ 63) :
    cvtInt64ToZigZag n < 2 ^ 64 := by
  simp only [cvtInt64ToZigZag]
  by_cases h : 0 ≤ n
  · simp only [if_pos h]
    omega
  · simp only [if_neg h]
    omega

theorem zigzag32_lt (n : Int) (h1 : -(2 ^ 31) ≤ n) (h2 : n < 2 ^ 31) :
    cvtInt32ToZigZag n < 2 ^ 32 := by
  simp only [cvtInt32ToZigZag]
  by_cases h : 0 ≤ n
  · simp only [if_pos h]
    omega
  · simp only [if_neg h]
    omega

/-! ### pckReadTag on an immediately matching field -/

theorem pckReadTagLoop_match
    (id t value : Nat) (data : List Nat) (pos pos2 : Nat) (tt tv : Nat)
    (rtop : PackTagStack) (rrest : List PackTagStack) (fuel : Nat)
    (hparse : pckReadTagNext ⟨data, pos, 0, tt, tv, rtop :: rrest⟩
       = .ok (true, ⟨data, pos2, id, t, value, rtop :: rrest⟩))
    (hfuel : 0 < fuel) :
    pckReadTagLoop id t false ⟨data, pos, 0, tt, tv, rtop :: rrest⟩ fuel
      = .ok (value, ⟨data, pos2, 0, t, value, { rtop with idLast := id } :: rrest⟩) := by
  match fuel with
  | 0 => omega
  | fuel + 1 =>
    rw [pckReadTagLoop]
    simp only [hparse, eq_self_iff_true, if_true, lt_self_iff_false, if_false,
      Bool.false_eq_true, ne_eq, not_true, setTopIdLast]

theorem pckReadTag_match
    (id t value : Nat) (data : List Nat) (pos pos2 : Nat) (tt tv : Nat)
    (rtop : PackTagStack) (rrest : List PackTagStack)
    (hparse : pckReadTagNext ⟨data, pos, 0, tt, tv, rtop :: rrest⟩
       = .ok (true, ⟨data, pos2, id, t, value, rtop :: rrest⟩))
    (hidne : id ≠ 0) (ht0 : t ≠ 0) (hgt : rtop.idLast < id) :
    pckReadTag ⟨data, pos, 0, tt, tv, rtop :: rrest⟩ id t false
      = .ok (value, id, ⟨data, pos2, 0, t, value, { rtop with idLast := id } :: rrest⟩) := by
  have hc2 : (id = 0) ↔ False := by simp [hidne]
  have hc3 : (id ≤ rtop.idLast) ↔ False := by
    simp only [iff_false, not_le]
    omega
  have ht0f : (t = pckTypeUnknown) ↔ False := by simp [pckTypeUnknown, ht0]
  rw [pckReadTag]
  rw [pckReadTagLoop_match id t value data pos pos2 tt tv rtop rrest _ hparse (by omega)]
  simp only [hc2, hc3, ht0f, if_false, Bool.false_eq_true, false_and, and_false,
    ne_eq, not_false_iff, and_true, false_or, not_true, not_false_eq_true, if_true,
    eq_self_iff_true, true_and, or_false, not_not]

theorem pckReadTagNext_term (pre post : List Nat) (tn tt tv : Nat)
    (stack : List PackTagStack) (hne : stack ≠ []) :
    pckReadTagNext ⟨pre ++ [0] ++ post, pre.length, tn, tt, tv, stack⟩
      = .ok (false, ⟨pre ++ [0] ++ post, pre.length + 1, 0xFFFFFFFF, tt, tv, stack⟩) := by
  match stack, hne with
  | top :: rest, _ =>
    rw [pckReadTagNext]
    have hlen1 : ¬ ((pre ++ [0] ++ post).length - pre.length < 1) := by
      simp
    have hget0 : (pre ++ [0] ++ post).getD pre.length 0 = 0 := by
      rw [List.append_assoc, List.singleton_append, getD_append_cons]
    simp only [if_neg hlen1, hget0, eq_self_iff_true, if_true]

/-- The peek that pckReadArrayEnd/pckReadObjEnd/pckReadEnd perform at id
0xFFFFFFFF - 1 when the lookahead is empty and the next byte is the container
terminator: it parses the terminator and breaks without consuming a field. -/
theorem pckReadTag_peek_term
    (data : List Nat) (pos pos2 tt tv : Nat) (rtop : PackTagStack)
    (rrest : List PackTagStack)
    (hterm : pckReadTagNext ⟨data, pos, 0, tt, tv, rtop :: rrest⟩
       = .ok (false, ⟨data, pos2, 0xFFFFFFFF, tt, tv, rtop :: rrest⟩))
    (hidlast : rtop.idLast < 0xFFFFFFFF - 1) :
    pckReadTag ⟨data, pos, 0, tt, tv, rtop :: rrest⟩ (0xFFFFFFFF - 1) pckTypeUnknown true
      = .ok (tv, 0xFFFFFFFF - 1, ⟨data, pos2, 0xFFFFFFFF, tt, tv, rtop :: rrest⟩) := by
  have hne0 : ((0xFFFFFFFF - 1 : Nat) = 0) ↔ False := by norm_num
  have hle : ((0xFFFFFFFF - 1 : Nat) ≤ rtop.idLast) ↔ False := by
    simp only [iff_false, not_le]
    omega
  have hlt : ((0xFFFFFFFF - 1 : Nat) < 0xFFFFFFFF) ↔ True := by norm_num
  rw [pckReadTag, pckReadTagLoop]
  simp only [hterm, hne0, hle, hlt, pckTypeUnknown, eq_self_iff_true, true_and,
    true_or, not_true, if_true, if_false]

theorem pckReadArrayEnd_at_term (pre post : List Nat) (tt tv : Nat)
    (rtop rtop2 : PackTagStack) (rrest : List PackTagStack)
    (htype : rtop.type = pckTypeArray) (hidlast : rtop.idLast < 0xFFFFFFFF - 1) :
    pckReadArrayEnd ⟨pre ++ [0] ++ post, pre.length, 0, tt, tv, rtop :: rtop2 :: rrest⟩
      = .ok ⟨pre ++ [0] ++ post, pre.length + 1, 0, tt, tv, rtop2 :: rrest⟩ := by
  have hct : (rtop.type ≠ pckTypeArray) ↔ False := by simp [htype]
  have hterm := pckReadTagNext_term pre post 0 tt tv (rtop :: rtop2 :: rrest) (by simp)
  have hpeek := pckReadTag_peek_term (pre ++ [0] ++ post) pre.length (pre.length + 1)
    tt tv rtop (rtop2 :: rrest) hterm hidlast
  simp only [pckReadArrayEnd, hct, if_false, hpeek]

theorem pckReadObjEnd_at_term (pre post : List Nat) (tt tv : Nat)
    (rtop rtop2 : PackTagStack) (rrest : List PackTagStack)
    (htype : rtop.type = pckTypeObj) (hidlast : rtop.idLast < 0xFFFFFFFF - 1) :
    pckReadObjEnd ⟨pre ++ [0] ++ post, pre.length, 0, tt, tv, rtop :: rtop2 :: rrest⟩
      = .ok ⟨pre ++ [0] ++ post, pre.length + 1, 0, tt, tv, rtop2 :: rrest⟩ := by
  have hct : (rtop.type ≠ pckTypeObj) ↔ False := by simp [htype]
  have hterm := pckReadTagNext_term pre post 0 tt tv (rtop :: rtop2 :: rrest) (by simp)
  have hpeek := pckReadTag_peek_term (pre ++ [0] ++ post) pre.length (pre.length + 1)
    tt tv rtop (rtop2 :: rrest) hterm hidlast
  simp only [pckReadObjEnd, hct, if_false, hpeek]

/-- With a loaded lookahead whose id exceeds the requested id, a peeking pckReadTag
returns without touching the state. -/
theorem pckReadTag_absent_peek (data : List Nat) (pos tn tt tv id : Nat)
    (rtop : PackTagStack) (rrest : List PackTagStack)
    (htn : tn ≠ 0) (hid0 : id ≠ 0) (hlast : rtop.idLast < id) (hlt : id < tn) :
    pckReadTag ⟨data, pos, tn, tt, tv, rtop :: rrest⟩ id pckTypeUnknown true
      = .ok (tv, id, ⟨data, pos, tn, tt, tv, rtop :: rrest⟩) := by
  have hc2 : (id = 0) ↔ False := by simp [hid0]
  have hc3 : (id ≤ rtop.idLast) ↔ False := by
    simp only [iff_false, not_le]
    omega
  rw [pckReadTag, pckReadTagLoop]
  simp only [hc2, hc3, if_false, htn, if_neg htn, hlt, if_pos hlt, pckTypeUnknown,
    eq_self_iff_true, true_and, and_true, true_or, not_true, if_true, if_false,
    Bool.false_eq_true, false_and, false_or, not_false_eq_true, and_false, or_false]

/-- With a loaded lookahead whose id exceeds the requested id, a non-peeking
pckReadTag fails with "field N does not exist". -/
theorem pckReadTag_absent (data : List Nat) (pos tn tt tv id t : Nat)
    (rtop : PackTagStack) (rrest : List PackTagStack)
    (htn : tn ≠ 0) (hid0 : id ≠ 0) (hlast : rtop.idLast < id) (hlt : id < tn)
    (ht : t ≠ pckTypeUnknown) :
    pckReadTag ⟨data, pos, tn, tt, tv, rtop :: rrest⟩ id t false
      = .error (.formatError ("field " ++ toString id ++ " does not exist")) := by
  have hc2 : (id = 0) ↔ False := by simp [hid0]
  have hc3 : (id ≤ rtop.idLast) ↔ False := by
    simp only [iff_false, not_le]
    omega
  have ht0f : (t = pckTypeUnknown) ↔ False := by simp [ht]
  rw [pckReadTag, pckReadTagLoop]
  simp only [hc2, hc3, ht0f, if_false, htn, if_neg htn, hlt, if_pos hlt,
    eq_self_iff_true, true_and, and_true, true_or, not_true, if_true,
    Bool.false_eq_true, false_and, false_or, not_false_eq_true, and_false, or_false,
    not_false_iff]
  rw [if_neg (by simp [ht])]

/-- One skip iteration of the pckReadTag loop: the parsed tag's id is below the
requested one and the requested type carries no size flag, so the loop only records
idLast and clears the lookahead before scanning on. -/
theorem pckReadTagLoop_skip_step (id t : Nat) (peek : Bool)
    (data : List Nat) (pos pos2 tid tt2 tv2 tt tv : Nat)
    (rtop : PackTagStack) (rrest : List PackTagStack) (fuel : Nat) (hfuel : 0 < fuel)
    (hparse : pckReadTagNext ⟨data, pos, 0, tt, tv, rtop :: rrest⟩
       = .ok (true, ⟨data, pos2, tid, tt2, tv2, rtop :: rrest⟩))
    (hgt : tid < id) (hsz : sizeFlag t = false) :
    pckReadTagLoop id t peek ⟨data, pos, 0, tt, tv, rtop :: rrest⟩ fuel
      = pckReadTagLoop id t peek
          ⟨data, pos2, 0, tt2, tv2, { rtop with idLast := tid } :: rrest⟩ (fuel - 1) := by
  match fuel, hfuel with
  | fuel + 1, _ =>
    have hlt : (id < tid) ↔ False := by
      simp only [iff_false, not_lt]
      omega
    have heq : (id = tid) ↔ False := by
      simp only [iff_false]
      omega
    rw [pckReadTagLoop]
    simp only [hparse, hsz, hlt, heq, eq_self_iff_true, if_true, if_false,
      Bool.false_and, Bool.false_eq_true, bne_iff_ne, ne_eq, setTopIdLast,
      Nat.add_sub_cancel]

/-- The final iteration of the pckReadTag loop during a peek: the parser hits the
container terminator, the sentinel lookahead id exceeds the requested id, and the
peek returns without consuming. -/
theorem pckReadTagLoop_term_peek_step (id t : Nat)
    (data : List Nat) (pos pos2 tt tv : Nat)
    (rtop : PackTagStack) (rrest : List PackTagStack) (fuel : Nat) (hfuel : 0 < fuel)
    (hterm : pckReadTagNext ⟨data, pos, 0, tt, tv, rtop :: rrest⟩
       = .ok (false, ⟨data, pos2, 0xFFFFFFFF, tt, tv, rtop :: rrest⟩))
    (hlt : id < 0xFFFFFFFF) :
    pckReadTagLoop id t true ⟨data, pos, 0, tt, tv, rtop :: rrest⟩ fuel
      = .ok (tv, ⟨data, pos2, 0xFFFFFFFF, tt, tv, rtop :: rrest⟩) := by
  match fuel, hfuel with
  | fuel + 1, _ =>
    rw [pckReadTagLoop]
    simp only [hterm, hlt, eq_self_iff_true, if_true, if_pos hlt]

/-- With a loaded lookahead whose id is at least the requested id, a peeking
pckReadTag returns the lookahead value and leaves the state untouched. -/
theorem pckReadTag_loaded_peek (data : List Nat) (pos tn tt tv id : Nat)
    (rtop : PackTagStack) (rrest : List PackTagStack)
    (htn : tn ≠ 0) (hid0 : id ≠ 0) (hlast : rtop.idLast < id) (hle : id ≤ tn) :
    pckReadTag ⟨data, pos, tn, tt, tv, rtop :: rrest⟩ id pckTypeUnknown true
      = .ok (tv, id, ⟨data, pos, tn, tt, tv, rtop :: rrest⟩) := by
  rcases Nat.lt_or_ge id tn with h | h
  · exact pckReadTag_absent_peek data pos tn tt tv id rtop rrest htn hid0 hlast h
  · have heq : id = tn := Nat.le_antisymm hle h
    have hc2 : (id = 0) ↔ False := by simp [hid0]
    have hc3 : (id ≤ rtop.idLast) ↔ False := by
      simp only [iff_false, not_le]
      omega
    have hnlt : (id < tn) ↔ False := by
      simp only [iff_false, not_lt]
      omega
    rw [pckReadTag, pckReadTagLoop]
    simp only [hc2, hc3, hnlt, heq, if_false, htn, if_neg htn, pckTypeUnknown,
      eq_self_iff_true, true_and, and_true, true_or, not_true, if_true,
      Bool.false_eq_true, false_and, false_or, not_false_eq_true, and_false,
      or_false, lt_self_iff_false]
    rw [if_neg (by omega)]

/-- A non-peeking pckReadTag at an explicit id at or below the frame idLast fails
with "field N was already read" without looking at the stream. -/
theorem pckReadTag_already_read (data : List Nat) (pos tn tt tv id t : Nat)
    (rtop : PackTagStack) (rrest : List PackTagStack)
    (hid0 : id ≠ 0) (hle : id ≤ rtop.idLast) (ht : t ≠ pckTypeUnknown) :
    pckReadTag ⟨data, pos, tn, tt, tv, rtop :: rrest⟩ id t false
      = .error (.formatError ("field " ++ toString id ++ " was already read")) := by
  have hc2 : (id = 0) ↔ False := by simp [hid0]
  rw [pckReadTag]
  simp only [hc2, hle, if_pos hle, if_false, eq_self_iff_true, true_and, and_true,
    Bool.false_eq_true, false_and, false_or, not_false_eq_true, if_true,
    not_not]
  rw [if_neg (by simp [ht])]

/-! ### Per-type field round-trips (explicit id, defaultNull off) -/

theorem u32_roundtrip
    (wst : PackWriteState) (id value : Nat) (top : PackTagStack) (rest : List PackTagStack)
    (hstack : wst.tagStack = top :: rest)
    (hid : top.idLast < id) (hid32 : id < 2 ^ 32) (hval : value < 2 ^ 32) :
    ∃ δ, pckWriteU32 wst value id false 0
        = .ok ⟨wst.buffer ++ δ, { type := top.type, idLast := id, nullTotal := 0 } :: rest⟩ ∧
      0 < δ.length ∧
      ∀ (pre post : List Nat) (tt tv : Nat) (rtop : PackTagStack) (rrest : List PackTagStack),
        rtop.idLast = top.idLast →
        pckReadU32 ⟨pre ++ δ ++ post, pre.length, 0, tt, tv, rtop :: rrest⟩ id false 0
          = .ok (value, ⟨pre ++ δ ++ post, pre.length + δ.length, 0, pckTypeU32, value,
              { rtop with idLast := id } :: rrest⟩) := by
  obtain ⟨δ, hw, hδ, hr⟩ := tag_roundtrip_mb wst pckTypeU32 id value top rest hstack rfl
    (by norm_num [pckTypeU32]) hid hid32 (by norm_num at hval ⊢; omega)
  refine ⟨δ, ?_, hδ, ?_⟩
  · simp only [pckWriteU32, pckWriteDefaultNull, Bool.false_and, Bool.false_eq_true,
      if_false]
    exact hw
  · intro pre post tt tv rtop rrest hrid
    have hparse := hr pre post 0 tt tv rtop rrest hrid
    simp only [pckReadU32, pckReadDefaultNull, Bool.false_eq_true, if_false]
    rw [pckReadTag_match id pckTypeU32 value _ _ _ tt tv rtop rrest hparse
      (by omega) (by norm_num [pckTypeU32]) (by omega)]
    simp only [Nat.mod_eq_of_lt hval]

theorem u64_roundtrip
    (wst : PackWriteState) (id value : Nat) (top : PackTagStack) (rest : List PackTagStack)
    (hstack : wst.tagStack = top :: rest)
    (hid : top.idLast < id) (hid32 : id < 2 ^ 32) (hval : value < 2 ^ 64) :
    ∃ δ, pckWriteU64 wst value id false 0
        = .ok ⟨wst.buffer ++ δ, { type := top.type, idLast := id, nullTotal := 0 } :: rest⟩ ∧
      0 < δ.length ∧
      ∀ (pre post : List Nat) (tt tv : Nat) (rtop : PackTagStack) (rrest : List PackTagStack),
        rtop.idLast = top.idLast →
        pckReadU64 ⟨pre ++ δ ++ post, pre.length, 0, tt, tv, rtop :: rrest⟩ id false 0
          = .ok (value, ⟨pre ++ δ ++ post, pre.length + δ.length, 0, pckTypeU64, value,
              { rtop with idLast := id } :: rrest⟩) := by
  obtain ⟨δ, hw, hδ, hr⟩ := tag_roundtrip_mb wst pckTypeU64 id value top rest hstack rfl
    (by norm_num [pckTypeU64]) hid hid32 hval
  refine ⟨δ, ?_, hδ, ?_⟩
  · simp only [pckWriteU64, pckWriteDefaultNull, Bool.false_and, Bool.false_eq_true,
      if_false]
    exact hw
  · intro pre post tt tv rtop rrest hrid
    have hparse := hr pre post 0 tt tv rtop rrest hrid
    simp only [pckReadU64, pckReadDefaultNull, Bool.false_eq_true, if_false]
    rw [pckReadTag_match id pckTypeU64 value _ _ _ tt tv rtop rrest hparse
      (by omega) (by norm_num [pckTypeU64]) (by omega)]

theorem i32_roundtrip
    (wst : PackWriteState) (id : Nat) (value : Int) (top : PackTagStack)
    (rest : List PackTagStack) (hstack : wst.tagStack = top :: rest)
    (hid : top.idLast < id) (hid32 : id < 2 ^ 32)
    (hlo : -(2 ^ 31) ≤ value) (hhi : value < 2 ^ 31) :
    ∃ δ, pckWriteI32 wst value id false 0
        = .ok ⟨wst.buffer ++ δ, { type := top.type, idLast := id, nullTotal := 0 } :: rest⟩ ∧
      0 < δ.length ∧
      ∀ (pre post : List Nat) (tt tv : Nat) (rtop : PackTagStack) (rrest : List PackTagStack),
        rtop.idLast = top.idLast →
        pckReadI32 ⟨pre ++ δ ++ post, pre.length, 0, tt, tv, rtop :: rrest⟩ id false 0
          = .ok (value, ⟨pre ++ δ ++ post, pre.length + δ.length, 0, pckTypeI32,
              cvtInt32ToZigZag value, { rtop with idLast := id } :: rrest⟩) := by
  have hzz := zigzag32_lt value hlo hhi
  obtain ⟨δ, hw, hδ, hr⟩ := tag_roundtrip_mb wst pckTypeI32 id (cvtInt32ToZigZag value)
    top rest hstack rfl (by norm_num [pckTypeI32]) hid hid32 (by norm_num at hzz ⊢; omega)
  refine ⟨δ, ?_, hδ, ?_⟩
  · simp only [pckWriteI32, pckWriteDefaultNull, Bool.false_and, Bool.false_eq_true,
      if_false]
    exact hw
  · intro pre post tt tv rtop rrest hrid
    have hparse := hr pre post 0 tt tv rtop rrest hrid
    simp only [pckReadI32, pckReadDefaultNull, Bool.false_eq_true, if_false]
    rw [pckReadTag_match id pckTypeI32 (cvtInt32ToZigZag value) _ _ _ tt tv rtop rrest
      hparse (by omega) (by norm_num [pckTypeI32]) (by omega)]
    simp only [Nat.mod_eq_of_lt hzz, zigzag32_roundtrip]

theorem i64_roundtrip
    (wst : PackWriteState) (id : Nat) (value : Int) (top : PackTagStack)
    (rest : List PackTagStack) (hstack : wst.tagStack = top :: rest)
    (hid : top.idLast < id) (hid32 : id < 2 ^ 32)
    (hlo : -(2 ^ 63) ≤ value) (hhi : value < 2 ^ 63) :
    ∃ δ, pckWriteI64 wst value id false 0
        = .ok ⟨wst.buffer ++ δ, { type := top.type, idLast := id, nullTotal := 0 } :: rest⟩ ∧
      0 < δ.length ∧
      ∀ (pre post : List Nat) (tt tv : Nat) (rtop : PackTagStack) (rrest : List PackTagStack),
        rtop.idLast = top.idLast →
        pckReadI64 ⟨pre ++ δ ++ post, pre.length, 0, tt, tv, rtop :: rrest⟩ id false 0
          = .ok (value, ⟨pre ++ δ ++ post, pre.length + δ.length, 0, pckTypeI64,
              cvtInt64ToZigZag value, { rtop with idLast := id } :: rrest⟩) := by
  have hzz := zigzag64_lt value hlo hhi
  obtain ⟨δ, hw, hδ, hr⟩ := tag_roundtrip_mb wst pckTypeI64 id (cvtInt64ToZigZag value)
    top rest hstack rfl (by norm_num [pckTypeI64]) hid hid32 hzz
  refine ⟨δ, ?_, hδ, ?_⟩
  · simp only [pckWriteI64, pckWriteDefaultNull, Bool.false_and, Bool.false_eq_true,
      if_false]
    exact hw
  · intro pre post tt tv rtop rrest hrid
    have hparse := hr pre post 0 tt tv rtop rrest hrid
    simp only [pckReadI64, pckReadDefaultNull, Bool.false_eq_true, if_false]
    rw [pckReadTag_match id pckTypeI64 (cvtInt64ToZigZag value) _ _ _ tt tv rtop rrest
      hparse (by omega) (by norm_num [pckTypeI64]) (by omega)]
    simp only [zigzag64_roundtrip]

theorem time_roundtrip
    (wst : PackWriteState) (id : Nat) (value : Int) (top : PackTagStack)
    (rest : List PackTagStack) (hstack : wst.tagStack = top :: rest)
    (hid : top.idLast < id) (hid32 : id < 2 ^ 32)
    (hlo : -(2 ^ 63) ≤ value) (hhi : value < 2 ^ 63) :
    ∃ δ, pckWriteTime wst value id false 0
        = .ok ⟨wst.buffer ++ δ, { type := top.type, idLast := id, nullTotal := 0 } :: rest⟩ ∧
      0 < δ.length ∧
      ∀ (pre post : List Nat) (tt tv : Nat) (rtop : PackTagStack) (rrest : List PackTagStack),
        rtop.idLast = top.idLast →
        pckReadTime ⟨pre ++ δ ++ post, pre.length, 0, tt, tv, rtop :: rrest⟩ id false 0
          = .ok (value, ⟨pre ++ δ ++ post, pre.length + δ.length, 0, pckTypeTime,
              cvtInt64ToZigZag value, { rtop with idLast := id } :: rrest⟩) := by
  have hzz := zigzag64_lt value hlo hhi
  obtain ⟨δ, hw, hδ, hr⟩ := tag_roundtrip_mb wst pckTypeTime id (cvtInt64ToZigZag value)
    top rest hstack rfl (by norm_num [pckTypeTime]) hid hid32 hzz
  refine ⟨δ, ?_, hδ, ?_⟩
  · simp only [pckWriteTime, pckWriteDefaultNull, Bool.false_and, Bool.false_eq_true,
      if_false]
    exact hw
  · intro pre post tt tv rtop rrest hrid
    have hparse := hr pre post 0 tt tv rtop rrest hrid
    simp only [pckReadTime, pckReadDefaultNull, Bool.false_eq_true, if_false]
    rw [pckReadTag_match id pckTypeTime (cvtInt64ToZigZag value) _ _ _ tt tv rtop rrest
      hparse (by omega) (by norm_num [pckTypeTime]) (by omega)]
    simp only [zigzag64_roundtrip]

theorem bool_roundtrip
    (wst : PackWriteState) (id : Nat) (value : Bool) (top : PackTagStack)
    (rest : List PackTagStack) (hstack : wst.tagStack = top :: rest)
    (hid : top.idLast < id) (hid32 : id < 2 ^ 32) :
    ∃ δ, pckWriteBool wst value id false false
        = .ok ⟨wst.buffer ++ δ, { type := top.type, idLast := id, nullTotal := 0 } :: rest⟩ ∧
      0 < δ.length ∧
      ∀ (pre post : List Nat) (tt tv : Nat) (rtop : PackTagStack) (rrest : List PackTagStack),
        rtop.idLast = top.idLast →
        pckReadBool ⟨pre ++ δ ++ post, pre.length, 0, tt, tv, rtop :: rrest⟩ id false false
          = .ok (value, ⟨pre ++ δ ++ post, pre.length + δ.length, 0, pckTypeBool,
              if value then 1 else 0, { rtop with idLast := id } :: rrest⟩) := by
  have hv2 : (if value then 1 else 0) < 2 := by
    cases value <;> norm_num
  obtain ⟨δ, hw, hδ, hr⟩ := tag_roundtrip_sb wst pckTypeBool id (if value then 1 else 0)
    top rest hstack rfl (by norm_num [pckTypeBool]) hid hid32 hv2
  refine ⟨δ, ?_, hδ, ?_⟩
  · cases value
    · simp only [pckWriteBool, pckWriteDefaultNull, Bool.false_and, Bool.false_eq_true,
        if_false]
      exact hw
    · simp only [pckWriteBool, pckWriteDefaultNull, Bool.false_and, Bool.false_eq_true,
        if_false]
      exact hw
  · intro pre post tt tv rtop rrest hrid
    have hparse := hr pre post 0 tt tv rtop rrest hrid
    simp only [pckReadBool, pckReadDefaultNull, Bool.false_eq_true, if_false]
    rw [pckReadTag_match id pckTypeBool (if value then 1 else 0) _ _ _ tt tv rtop rrest
      hparse (by omega) (by norm_num [pckTypeBool]) (by omega)]
    cases value <;> simp

theorem str_roundtrip
    (wst : PackWriteState) (id : Nat) (s : List Nat) (top : PackTagStack)
    (rest : List PackTagStack) (hstack : wst.tagStack = top :: rest)
    (hid : top.idLast < id) (hid32 : id < 2 ^ 32) (hlen64 : s.length < 2 ^ 64) :
    ∃ δ, pckWriteStr wst (some s) id false none
        = .ok ⟨wst.buffer ++ δ, { type := top.type, idLast := id, nullTotal := 0 } :: rest⟩ ∧
      0 < δ.length ∧
      ∀ (pre post : List Nat) (tt tv : Nat) (rtop : PackTagStack) (rrest : List PackTagStack),
        rtop.idLast = top.idLast →
        pckReadStr ⟨pre ++ δ ++ post, pre.length, 0, tt, tv, rtop :: rrest⟩ id false none
          = .ok (some s, ⟨pre ++ δ ++ post, pre.length + δ.length, 0, pckTypeStr,
              if s.length > 0 then 1 else 0, { rtop with idLast := id } :: rrest⟩) := by
  have hv2 : (if s.length > 0 then 1 else 0) < 2 := by
    split <;> norm_num
  have hseq : strEq (some s) none = false := rfl
  obtain ⟨δt, hw, hδt, hr⟩ := tag_roundtrip_sb wst pckTypeStr id
    (if s.length > 0 then 1 else 0) top rest hstack rfl (by norm_num [pckTypeStr])
    hid hid32 hv2
  by_cases hs : s.length > 0
  · simp only [if_pos hs] at hw hr ⊢
    refine ⟨δt ++ pckWriteUInt64Internal s.length ++ s, ?_, by simp [hδt], ?_⟩
    · simp only [pckWriteStr, pckWriteDefaultNull, hseq, Bool.and_false,
        Bool.false_eq_true, if_false, if_pos hs, hw]
      simp [List.append_assoc]
    · intro pre post tt tv rtop rrest hrid
      have hparse := hr pre (pckWriteUInt64Internal s.length ++ (s ++ post)) 0 tt tv
        rtop rrest hrid
      have hmatch := pckReadTag_match id pckTypeStr 1
        (pre ++ δt ++ (pckWriteUInt64Internal s.length ++ (s ++ post))) pre.length
        (pre.length + δt.length) tt tv rtop rrest hparse (by omega)
        (by norm_num [pckTypeStr]) (by omega)
      have hread := pckReadUInt64Internal_encode s.length hlen64 (pre ++ δt)
        (s ++ post) 0 pckTypeStr 1 ({ rtop with idLast := id } :: rrest)
      have hbytes := pckReadBytesGo_slice s (pre ++ δt ++ pckWriteUInt64Internal s.length)
        post 0 pckTypeStr 1 ({ rtop with idLast := id } :: rrest)
      simp only [pckReadStr, pckReadDefaultNull, Bool.false_eq_true, if_false]
      simp only [List.append_assoc, List.length_append, Nat.add_assoc]
        at hmatch hread hbytes ⊢
      rw [hmatch]
      simp only [ne_eq, one_ne_zero, not_false_iff, if_true]
      simp only [hread, hbytes]
  · have hs0 : s = [] := List.eq_nil_of_length_eq_zero (by omega)
    subst hs0
    simp only [if_neg hs] at hw hr ⊢
    refine ⟨δt, ?_, hδt, ?_⟩
    · simp only [pckWriteStr, pckWriteDefaultNull, hseq, Bool.and_false,
        Bool.false_eq_true, if_false, if_neg hs, hw]
    · intro pre post tt tv rtop rrest hrid
      have hparse := hr pre post 0 tt tv rtop rrest hrid
      have hmatch := pckReadTag_match id pckTypeStr 0
        (pre ++ δt ++ post) pre.length (pre.length + δt.length) tt tv rtop rrest
        hparse (by omega) (by norm_num [pckTypeStr]) (by omega)
      simp only [pckReadStr, pckReadDefaultNull, Bool.false_eq_true, if_false]
      rw [hmatch]
      simp

theorem bin_roundtrip
    (wst : PackWriteState) (id : Nat) (b : List Nat) (top : PackTagStack)
    (rest : List PackTagStack) (hstack : wst.tagStack = top :: rest)
    (hid : top.idLast < id) (hid32 : id < 2 ^ 32) (hlen64 : b.length < 2 ^ 64) :
    ∃ δ, pckWriteBin wst (some b) id false
        = .ok ⟨wst.buffer ++ δ, { type := top.type, idLast := id, nullTotal := 0 } :: rest⟩ ∧
      0 < δ.length ∧
      ∀ (pre post : List Nat) (tt tv : Nat) (rtop : PackTagStack) (rrest : List PackTagStack),
        rtop.idLast = top.idLast →
        pckReadBin ⟨pre ++ δ ++ post, pre.length, 0, tt, tv, rtop :: rrest⟩ id false
          = .ok (some b, ⟨pre ++ δ ++ post, pre.length + δ.length, 0, pckTypeBin,
              if b.length > 0 then 1 else 0, { rtop with idLast := id } :: rrest⟩) := by
  have hv2 : (if b.length > 0 then 1 else 0) < 2 := by
    split <;> norm_num
  have hnone : (some b).isNone = false := rfl
  obtain ⟨δt, hw, hδt, hr⟩ := tag_roundtrip_sb wst pckTypeBin id
    (if b.length > 0 then 1 else 0) top rest hstack rfl (by norm_num [pckTypeBin])
    hid hid32 hv2
  by_cases hs : b.length > 0
  · simp only [if_pos hs] at hw hr ⊢
    refine ⟨δt ++ pckWriteUInt64Internal b.length ++ b, ?_, by simp [hδt], ?_⟩
    · simp only [pckWriteBin, pckWriteDefaultNull, hnone, Bool.and_false,
        Bool.false_eq_true, if_false, if_pos hs, hw]
      simp [List.append_assoc]
    · intro pre post tt tv rtop rrest hrid
      have hparse := hr pre (pckWriteUInt64Internal b.length ++ (b ++ post)) 0 tt tv
        rtop rrest hrid
      have hmatch := pckReadTag_match id pckTypeBin 1
        (pre ++ δt ++ (pckWriteUInt64Internal b.length ++ (b ++ post))) pre.length
        (pre.length + δt.length) tt tv rtop rrest hparse (by omega)
        (by norm_num [pckTypeBin]) (by omega)
      have hread := pckReadUInt64Internal_encode b.length hlen64 (pre ++ δt)
        (b ++ post) 0 pckTypeBin 1 ({ rtop with idLast := id } :: rrest)
      have hbytes := pckReadBytesGo_slice b (pre ++ δt ++ pckWriteUInt64Internal b.length)
        post 0 pckTypeBin 1 ({ rtop with idLast := id } :: rrest)
      simp only [pckReadBin, pckReadDefaultNull, Bool.false_eq_true, if_false]
      simp only [List.append_assoc, List.length_append, Nat.add_assoc]
        at hmatch hread hbytes ⊢
      rw [hmatch]
      simp only [ne_eq, one_ne_zero, not_false_iff, if_true]
      simp only [hread, hbytes]
  · have hs0 : b = [] := List.eq_nil_of_length_eq_zero (by omega)
    subst hs0
    simp only [if_neg hs] at hw hr ⊢
    refine ⟨δt, ?_, hδt, ?_⟩
    · simp only [pckWriteBin, pckWriteDefaultNull, hnone, Bool.and_false,
        Bool.false_eq_true, if_false, if_neg hs, hw]
    · intro pre post tt tv rtop rrest hrid
      have hparse := hr pre post 0 tt tv rtop rrest hrid
      have hmatch := pckReadTag_match id pckTypeBin 0
        (pre ++ δt ++ post) pre.length (pre.length + δt.length) tt tv rtop rrest
        hparse (by omega) (by norm_num [pckTypeBin]) (by omega)
      simp only [pckReadBin, pckReadDefaultNull, Bool.false_eq_true, if_false]
      rw [hmatch]
      simp

theorem pckWriteUInt64Internal_zero : pckWriteUInt64Internal 0 = [0] := by
  rw [pckWriteUInt64Internal]
  norm_num

theorem arrayBegin_roundtrip
    (wst : PackWriteState) (id : Nat) (top : PackTagStack) (rest : List PackTagStack)
    (hstack : wst.tagStack = top :: rest)
    (hid : top.idLast < id) (hid32 : id < 2 ^ 32) :
    ∃ δ, pckWriteArrayBegin wst id
        = .ok ⟨wst.buffer ++ δ,
            { type := pckTypeArray, idLast := 0, nullTotal := 0 }
              :: { type := top.type, idLast := id, nullTotal := 0 } :: rest⟩ ∧
      0 < δ.length ∧
      ∀ (pre post : List Nat) (tt tv : Nat) (rtop : PackTagStack) (rrest : List PackTagStack),
        rtop.idLast = top.idLast →
        pckReadArrayBegin ⟨pre ++ δ ++ post, pre.length, 0, tt, tv, rtop :: rrest⟩ id
          = .ok ⟨pre ++ δ ++ post, pre.length + δ.length, 0, pckTypeArray, 0,
              { type := pckTypeArray, idLast := 0, nullTotal := 0 }
                :: { rtop with idLast := id } :: rrest⟩ := by
  obtain ⟨δ, hw, hδ, hr⟩ := tag_roundtrip_ct wst pckTypeArray id top rest hstack rfl rfl
    (by norm_num [pckTypeArray]) (by norm_num [pckTypeArray]) hid hid32
  refine ⟨δ, ?_, hδ, ?_⟩
  · simp only [pckWriteArrayBegin, hw]
  · intro pre post tt tv rtop rrest hrid
    have hparse := hr pre post 0 tt tv rtop rrest hrid
    have hmatch := pckReadTag_match id pckTypeArray 0 (pre ++ δ ++ post) pre.length
      (pre.length + δ.length) tt tv rtop rrest hparse (by omega)
      (by norm_num [pckTypeArray]) (by omega)
    simp only [pckReadArrayBegin, hmatch]

theorem objBegin_roundtrip
    (wst : PackWriteState) (id : Nat) (top : PackTagStack) (rest : List PackTagStack)
    (hstack : wst.tagStack = top :: rest)
    (hid : top.idLast < id) (hid32 : id < 2 ^ 32) :
    ∃ δ, pckWriteObjBegin wst id
        = .ok ⟨wst.buffer ++ δ,
            { type := pckTypeObj, idLast := 0, nullTotal := 0 }
              :: { type := top.type, idLast := id, nullTotal := 0 } :: rest⟩ ∧
      0 < δ.length ∧
      ∀ (pre post : List Nat) (tt tv : Nat) (rtop : PackTagStack) (rrest : List PackTagStack),
        rtop.idLast = top.idLast →
        pckReadObjBegin ⟨pre ++ δ ++ post, pre.length, 0, tt, tv, rtop :: rrest⟩ id
          = .ok ⟨pre ++ δ ++ post, pre.length + δ.length, 0, pckTypeObj, 0,
              { type := pckTypeObj, idLast := 0, nullTotal := 0 }
                :: { rtop with idLast := id } :: rrest⟩ := by
  obtain ⟨δ, hw, hδ, hr⟩ := tag_roundtrip_ct wst pckTypeObj id top rest hstack rfl rfl
    (by norm_num [pckTypeObj]) (by norm_num [pckTypeObj]) hid hid32
  refine ⟨δ, ?_, hδ, ?_⟩
  · simp only [pckWriteObjBegin, hw]
  · intro pre post tt tv rtop rrest hrid
    have hparse := hr pre post 0 tt tv rtop rrest hrid
    have hmatch := pckReadTag_match id pckTypeObj 0 (pre ++ δ ++ post) pre.length
      (pre.length + δ.length) tt tv rtop rrest hparse (by omega)
      (by norm_num [pckTypeObj]) (by omega)
    simp only [pckReadObjBegin, hmatch]

/-! ### Write programs: sequences of typed writes with explicit ascending ids

A PackItem is one typed write (or a nested container of writes); running a list of
them against the writer and then reading the produced bytes back with the same
type/id sequence is the round-trip property of the spec. -/

inductive PackItem where
  | u32 (id v : Nat)
  | u64 (id v : Nat)
  | i32 (id : Nat) (v : Int)
  | i64 (id : Nat) (v : Int)
  | bool (id : Nat) (v : Bool)
  | time (id : Nat) (v : Int)
  | str (id : Nat) (s : List Nat)
  | bin (id : Nat) (b : List Nat)
  | arr (id : Nat) (items : List PackItem)
  | obj (id : Nat) (items : List PackItem)

inductive PackValue where
  | u32 (v : Nat)
  | u64 (v : Nat)
  | i32 (v : Int)
  | i64 (v : Int)
  | bool (b : Bool)
  | time (t : Int)
  | str (s : Option (List Nat))
  | bin (b : Option (List Nat))
  | arr (vs : List PackValue)
  | obj (vs : List PackValue)

def PackItem.topId : PackItem → Nat
  | .u32 id _ => id
  | .u64 id _ => id
  | .i32 id _ => id
  | .i64 id _ => id
  | .bool id _ => id
  | .time id _ => id
  | .str id _ => id
  | .bin id _ => id
  | .arr id _ => id
  | .obj id _ => id

mutual

def PackItem.value : PackItem → PackValue
  | .u32 _ v => .u32 v
  | .u64 _ v => .u64 v
  | .i32 _ v => .i32 v
  | .i64 _ v => .i64 v
  | .bool _ v => .bool v
  | .time _ v => .time v
  | .str _ s => .str (some s)
  | .bin _ b => .bin (some b)
  | .arr _ items => .arr (PackItem.valueList items)
  | .obj _ items => .obj (PackItem.valueList items)

def PackItem.valueList : List PackItem → List PackValue
  | [] => []
  | it :: rest => PackItem.value it :: PackItem.valueList rest

end

mutual

/-- Run one typed write (defaultNull off, explicit id). -/
def pckWriteItem (st : PackWriteState) : PackItem → Except PackError PackWriteState
  | .u32 id v => pckWriteU32 st v id false 0
  | .u64 id v => pckWriteU64 st v id false 0
  | .i32 id v => pckWriteI32 st v id false 0
  | .i64 id v => pckWriteI64 st v id false 0
  | .bool id v => pckWriteBool st v id false false
  | .time id v => pckWriteTime st v id false 0
  | .str id s => pckWriteStr st (some s) id false none
  | .bin id b => pckWriteBin st (some b) id false
  | .arr id items =>
    match pckWriteArrayBegin st id with
    | .error e => .error e
    | .ok st =>
      match pckWriteItems st items with
      | .error e => .error e
      | .ok st => pckWriteArrayEnd st
  | .obj id items =>
    match pckWriteObjBegin st id with
    | .error e => .error e
    | .ok st =>
      match pckWriteItems st items with
      | .error e => .error e
      | .ok st => pckWriteObjEnd st

def pckWriteItems (st : PackWriteState) : List PackItem → Except PackError PackWriteState
  | [] => .ok st
  | it :: rest =>
    match pckWriteItem st it with
    | .error e => .error e
    | .ok st => pckWriteItems st rest

end

mutual

/-- Run one typed read with the type/id of the given item (defaultNull off). -/
def pckReadItem (st : PackReadState) : PackItem → Except PackError (PackValue × PackReadState)
  | .u32 id _ =>
    match pckReadU32 st id false 0 with
    | .error e => .error e
    | .ok (v, st) => .ok (.u32 v, st)
  | .u64 id _ =>
    match pckReadU64 st id false 0 with
    | .error e => .error e
    | .ok (v, st) => .ok (.u64 v, st)
  | .i32 id _ =>
    match pckReadI32 st id false 0 with
    | .error e => .error e
    | .ok (v, st) => .ok (.i32 v, st)
  | .i64 id _ =>
    match pckReadI64 st id false 0 with
    | .error e => .error e
    | .ok (v, st) => .ok (.i64 v, st)
  | .bool id _ =>
    match pckReadBool st id false false with
    | .error e => .error e
    | .ok (v, st) => .ok (.bool v, st)
  | .time id _ =>
    match pckReadTime st id false 0 with
    | .error e => .error e
    | .ok (v, st) => .ok (.time v, st)
  | .str id _ =>
    match pckReadStr st id false none with
    | .error e => .error e
    | .ok (v, st) => .ok (.str v, st)
  | .bin id _ =>
    match pckReadBin st id false with
    | .error e => .error e
    | .ok (v, st) => .ok (.bin v, st)
  | .arr id items =>
    match pckReadArrayBegin st id with
    | .error e => .error e
    | .ok st =>
      match pckReadItems st items with
      | .error e => .error e
      | .ok (vs, st) =>
        match pckReadArrayEnd st with
        | .error e => .error e
        | .ok st => .ok (.arr vs, st)
  | .obj id items =>
    match pckReadObjBegin st id with
    | .error e => .error e
    | .ok st =>
      match pckReadItems st items with
      | .error e => .error e
      | .ok (vs, st) =>
        match pckReadObjEnd st with
        | .error e => .error e
        | .ok st => .ok (.obj vs, st)

def pckReadItems (st : PackReadState) : List PackItem → Except PackError (List PackValue × PackReadState)
  | [] => .ok ([], st)
  | it :: rest =>
    match pckReadItem st it with
    | .error e => .error e
    | .ok (v, st) =>
      match pckReadItems st rest with
      | .error e => .error e
      | .ok (vs, st) => .ok (v :: vs, st)

end

mutual

/-- Well-formedness of a write program relative to the last id lo used in the current
frame: explicit strictly ascending ids below the reserved sentinel range, values in
their machine ranges, payload sizes in uint64 range. -/
def itemWF (lo : Nat) : PackItem → Bool
  | .u32 id v => decide (lo < id) && decide (id < 0xFFFFFFFE) && decide (v < 2 ^ 32)
  | .u64 id v => decide (lo < id) && decide (id < 0xFFFFFFFE) && decide (v < 2 ^ 64)
  | .i32 id v => decide (lo < id) && decide (id < 0xFFFFFFFE) && decide (-(2 ^ 31) ≤ v)
      && decide (v < 2 ^ 31)
  | .i64 id v => decide (lo < id) && decide (id < 0xFFFFFFFE) && decide (-(2 ^ 63) ≤ v)
      && decide (v < 2 ^ 63)
  | .bool id _ => decide (lo < id) && decide (id < 0xFFFFFFFE)
  | .time id v => decide (lo < id) && decide (id < 0xFFFFFFFE) && decide (-(2 ^ 63) ≤ v)
      && decide (v < 2 ^ 63)
  | .str id s => decide (lo < id) && decide (id < 0xFFFFFFFE) && decide (s.length < 2 ^ 64)
  | .bin id b => decide (lo < id) && decide (id < 0xFFFFFFFE) && decide (b.length < 2 ^ 64)
  | .arr id items => decide (lo < id) && decide (id < 0xFFFFFFFE) && itemsWF 0 items
  | .obj id items => decide (lo < id) && decide (id < 0xFFFFFFFE) && itemsWF 0 items

def itemsWF (lo : Nat) : List PackItem → Bool
  | [] => true
  | it :: rest => itemWF lo it && itemsWF it.topId rest

end

def itemsTopId (lo : Nat) : List PackItem → Nat
  | [] => lo
  | it :: rest => itemsTopId it.topId rest

/-- A continuation of the write sequence: the remaining typed writes followed by
pckWriteEnd, as a caller would issue them. -/
def pckWriteItemsEnd (st : PackWriteState) (items : List PackItem) :
    Except PackError PackWriteState :=
  match pckWriteItems st items with
  | .error e => .error e
  | .ok st => pckWriteEnd st

theorem itemWF_id (it : PackItem) (lo : Nat) (h : itemWF lo it = true) :
    lo < it.topId ∧ it.topId < 0xFFFFFFFE := by
  cases it <;>
    simp only [itemWF, PackItem.topId, Bool.and_eq_true, decide_eq_true_eq] at h ⊢ <;>
    omega

theorem itemsTopId_bounds (items : List PackItem) :
    ∀ lo, itemsWF lo items = true → lo ≤ itemsTopId lo items ∧
      (lo < 0xFFFFFFFE → itemsTopId lo items < 0xFFFFFFFE) := by
  induction items with
  | nil =>
    intro lo _
    simp [itemsTopId]
  | cons it rest ih =>
    intro lo h
    simp only [itemsWF, Bool.and_eq_true] at h
    have hid := itemWF_id it lo h.1
    have := ih it.topId h.2
    simp only [itemsTopId]
    constructor
    · omega
    · intro _
      exact this.2 (by omega)

mutual

theorem pckItem_roundtrip (it : PackItem) :
    ∀ (L nt t : Nat) (S : List PackTagStack) (wst : PackWriteState),
      wst.tagStack = ⟨t, L, nt⟩ :: S → itemWF L it = true →
      ∃ δ, pckWriteItem wst it = .ok ⟨wst.buffer ++ δ, ⟨t, it.topId, 0⟩ :: S⟩ ∧
        ∀ (pre post : List Nat) (tt tv rt rnt : Nat) (RS : List PackTagStack),
          ∃ tt2 tv2,
          pckReadItem ⟨pre ++ δ ++ post, pre.length, 0, tt, tv, ⟨rt, L, rnt⟩ :: RS⟩ it
            = .ok (it.value, ⟨pre ++ δ ++ post, pre.length + δ.length, 0, tt2, tv2,
                ⟨rt, it.topId, rnt⟩ :: RS⟩) := by
  cases it with
  | u32 id v =>
    intro L nt t S wst hstack hwf
    simp only [itemWF, Bool.and_eq_true, decide_eq_true_eq] at hwf
    obtain ⟨⟨h1, h2⟩, h3⟩ := hwf
    obtain ⟨δ, hw, hδ, hr⟩ := u32_roundtrip wst id v ⟨t, L, nt⟩ S hstack h1 (by omega) h3
    refine ⟨δ, by simp only [pckWriteItem, hw, PackItem.topId], ?_⟩
    intro pre post tt tv rt rnt RS
    refine ⟨pckTypeU32, v, ?_⟩
    have hrr := hr pre post tt tv ⟨rt, L, rnt⟩ RS rfl
    simp only [pckReadItem, hrr, PackItem.value, PackItem.topId]
  | u64 id v =>
    intro L nt t S wst hstack hwf
    simp only [itemWF, Bool.and_eq_true, decide_eq_true_eq] at hwf
    obtain ⟨⟨h1, h2⟩, h3⟩ := hwf
    obtain ⟨δ, hw, hδ, hr⟩ := u64_roundtrip wst id v ⟨t, L, nt⟩ S hstack h1 (by omega) h3
    refine ⟨δ, by simp only [pckWriteItem, hw, PackItem.topId], ?_⟩
    intro pre post tt tv rt rnt RS
    refine ⟨pckTypeU64, v, ?_⟩
    have hrr := hr pre post tt tv ⟨rt, L, rnt⟩ RS rfl
    simp only [pckReadItem, hrr, PackItem.value, PackItem.topId]
  | i32 id v =>
    intro L nt t S wst hstack hwf
    simp only [itemWF, Bool.and_eq_true, decide_eq_true_eq] at hwf
    obtain ⟨⟨⟨h1, h2⟩, h3⟩, h4⟩ := hwf
    obtain ⟨δ, hw, hδ, hr⟩ := i32_roundtrip wst id v ⟨t, L, nt⟩ S hstack h1 (by omega) h3 h4
    refine ⟨δ, by simp only [pckWriteItem, hw, PackItem.topId], ?_⟩
    intro pre post tt tv rt rnt RS
    refine ⟨pckTypeI32, cvtInt32ToZigZag v, ?_⟩
    have hrr := hr pre post tt tv ⟨rt, L, rnt⟩ RS rfl
    simp only [pckReadItem, hrr, PackItem.value, PackItem.topId]
  | i64 id v =>
    intro L nt t S wst hstack hwf
    simp only [itemWF, Bool.and_eq_true, decide_eq_true_eq] at hwf
    obtain ⟨⟨⟨h1, h2⟩, h3⟩, h4⟩ := hwf
    obtain ⟨δ, hw, hδ, hr⟩ := i64_roundtrip wst id v ⟨t, L, nt⟩ S hstack h1 (by omega) h3 h4
    refine ⟨δ, by simp only [pckWriteItem, hw, PackItem.topId], ?_⟩
    intro pre post tt tv rt rnt RS
    refine ⟨pckTypeI64, cvtInt64ToZigZag v, ?_⟩
    have hrr := hr pre post tt tv ⟨rt, L, rnt⟩ RS rfl
    simp only [pckReadItem, hrr, PackItem.value, PackItem.topId]
  | bool id v =>
    intro L nt t S wst hstack hwf
    simp only [itemWF, Bool.and_eq_true, decide_eq_true_eq] at hwf
    obtain ⟨h1, h2⟩ := hwf
    obtain ⟨δ, hw, hδ, hr⟩ := bool_roundtrip wst id v ⟨t, L, nt⟩ S hstack h1 (by omega)
    refine ⟨δ, by simp only [pckWriteItem, hw, PackItem.topId], ?_⟩
    intro pre post tt tv rt rnt RS
    refine ⟨pckTypeBool, if v then 1 else 0, ?_⟩
    have hrr := hr pre post tt tv ⟨rt, L, rnt⟩ RS rfl
    simp only [pckReadItem, hrr, PackItem.value, PackItem.topId]
  | time id v =>
    intro L nt t S wst hstack hwf
    simp only [itemWF, Bool.and_eq_true, decide_eq_true_eq] at hwf
    obtain ⟨⟨⟨h1, h2⟩, h3⟩, h4⟩ := hwf
    obtain ⟨δ, hw, hδ, hr⟩ := time_roundtrip wst id v ⟨t, L, nt⟩ S hstack h1 (by omega) h3 h4
    refine ⟨δ, by simp only [pckWriteItem, hw, PackItem.topId], ?_⟩
    intro pre post tt tv rt rnt RS
    refine ⟨pckTypeTime, cvtInt64ToZigZag v, ?_⟩
    have hrr := hr pre post tt tv ⟨rt, L, rnt⟩ RS rfl
    simp only [pckReadItem, hrr, PackItem.value, PackItem.topId]
  | str id s =>
    intro L nt t S wst hstack hwf
    simp only [itemWF, Bool.and_eq_true, decide_eq_true_eq] at hwf
    obtain ⟨⟨h1, h2⟩, h3⟩ := hwf
    obtain ⟨δ, hw, hδ, hr⟩ := str_roundtrip wst id s ⟨t, L, nt⟩ S hstack h1 (by omega) h3
    refine ⟨δ, by simp only [pckWriteItem, hw, PackItem.topId], ?_⟩
    intro pre post tt tv rt rnt RS
    refine ⟨pckTypeStr, if s.length > 0 then 1 else 0, ?_⟩
    have hrr := hr pre post tt tv ⟨rt, L, rnt⟩ RS rfl
    simp only [pckReadItem, hrr, PackItem.value, PackItem.topId]
  | bin id b =>
    intro L nt t S wst hstack hwf
    simp only [itemWF, Bool.and_eq_true, decide_eq_true_eq] at hwf
    obtain ⟨⟨h1, h2⟩, h3⟩ := hwf
    obtain ⟨δ, hw, hδ, hr⟩ := bin_roundtrip wst id b ⟨t, L, nt⟩ S hstack h1 (by omega) h3
    refine ⟨δ, by simp only [pckWriteItem, hw, PackItem.topId], ?_⟩
    intro pre post tt tv rt rnt RS
    refine ⟨pckTypeBin, if b.length > 0 then 1 else 0, ?_⟩
    have hrr := hr pre post tt tv ⟨rt, L, rnt⟩ RS rfl
    simp only [pckReadItem, hrr, PackItem.value, PackItem.topId]
  | arr id items =>
    intro L nt t S wst hstack hwf
    simp only [itemWF, Bool.and_eq_true, decide_eq_true_eq] at hwf
    obtain ⟨⟨h1, h2⟩, hinner⟩ := hwf
    obtain ⟨δb, hwb, hδb, hrb⟩ := arrayBegin_roundtrip wst id ⟨t, L, nt⟩ S hstack h1
      (by omega)
    obtain ⟨δi, nt2, hwi, hri⟩ := pckItems_roundtrip items 0 0 pckTypeArray
      (⟨t, id, 0⟩ :: S) ⟨wst.buffer ++ δb, ⟨pckTypeArray, 0, 0⟩ :: ⟨t, id, 0⟩ :: S⟩
      rfl hinner
    have htop := itemsTopId_bounds items 0 hinner
    refine ⟨δb ++ δi ++ [0], ?_, ?_⟩
    · simp only [pckWriteItem, hwb, hwi, pckWriteArrayEnd, pckWriteUInt64Internal_zero,
        PackItem.topId, ne_eq, not_true, if_false, if_neg (by simp : ¬ ¬ pckTypeArray = pckTypeArray)]
      simp [List.append_assoc]
    · intro pre post tt tv rt rnt RS
      have hread1 := hrb pre (δi ++ ([0] ++ post)) tt tv ⟨rt, L, rnt⟩ RS rfl
      obtain ⟨tt2, tv2, hread2⟩ := hri (pre ++ δb) ([0] ++ post) pckTypeArray 0
        pckTypeArray 0 (⟨rt, id, rnt⟩ :: RS)
      have hread3 := pckReadArrayEnd_at_term (pre ++ δb ++ δi) post tt2 tv2
        ⟨pckTypeArray, itemsTopId 0 items, 0⟩ ⟨rt, id, rnt⟩ RS rfl
        (by have := htop.2 (by norm_num); norm_num; omega)
      refine ⟨tt2, tv2, ?_⟩
      simp only [pckReadItem, PackItem.value, PackItem.topId]
      simp only [List.append_assoc, List.length_append, List.length_cons,
        List.length_nil, List.singleton_append, List.cons_append, List.nil_append,
        Nat.add_assoc, Nat.add_zero, Nat.zero_add] at hread1 hread2 hread3 ⊢
      simp only [hread1, hread2, hread3]
  | obj id items =>
    intro L nt t S wst hstack hwf
    simp only [itemWF, Bool.and_eq_true, decide_eq_true_eq] at hwf
    obtain ⟨⟨h1, h2⟩, hinner⟩ := hwf
    obtain ⟨δb, hwb, hδb, hrb⟩ := objBegin_roundtrip wst id ⟨t, L, nt⟩ S hstack h1
      (by omega)
    obtain ⟨δi, nt2, hwi, hri⟩ := pckItems_roundtrip items 0 0 pckTypeObj
      (⟨t, id, 0⟩ :: S) ⟨wst.buffer ++ δb, ⟨pckTypeObj, 0, 0⟩ :: ⟨t, id, 0⟩ :: S⟩
      rfl hinner
    have htop := itemsTopId_bounds items 0 hinner
    refine ⟨δb ++ δi ++ [0], ?_, ?_⟩
    · simp only [pckWriteItem, hwb, hwi, pckWriteObjEnd, pckWriteUInt64Internal_zero,
        PackItem.topId, ne_eq, not_true, if_false, if_neg (by simp : ¬ ¬ pckTypeObj = pckTypeObj)]
      simp [List.append_assoc]
    · intro pre post tt tv rt rnt RS
      have hread1 := hrb pre (δi ++ ([0] ++ post)) tt tv ⟨rt, L, rnt⟩ RS rfl
      obtain ⟨tt2, tv2, hread2⟩ := hri (pre ++ δb) ([0] ++ post) pckTypeObj 0
        pckTypeObj 0 (⟨rt, id, rnt⟩ :: RS)
      have hread3 := pckReadObjEnd_at_term (pre ++ δb ++ δi) post tt2 tv2
        ⟨pckTypeObj, itemsTopId 0 items, 0⟩ ⟨rt, id, rnt⟩ RS rfl
        (by have := htop.2 (by norm_num); norm_num; omega)
      refine ⟨tt2, tv2, ?_⟩
      simp only [pckReadItem, PackItem.value, PackItem.topId]
      simp only [List.append_assoc, List.length_append, List.length_cons,
        List.length_nil, List.singleton_append, List.cons_append, List.nil_append,
        Nat.add_assoc, Nat.add_zero, Nat.zero_add] at hread1 hread2 hread3 ⊢
      simp only [hread1, hread2, hread3]

theorem pckItems_roundtrip (items : List PackItem) :
    ∀ (L nt t : Nat) (S : List PackTagStack) (wst : PackWriteState),
      wst.tagStack = ⟨t, L, nt⟩ :: S → itemsWF L items = true →
      ∃ δ nt2, pckWriteItems wst items
          = .ok ⟨wst.buffer ++ δ, ⟨t, itemsTopId L items, nt2⟩ :: S⟩ ∧
        ∀ (pre post : List Nat) (tt tv rt rnt : Nat) (RS : List PackTagStack),
          ∃ tt2 tv2,
          pckReadItems ⟨pre ++ δ ++ post, pre.length, 0, tt, tv, ⟨rt, L, rnt⟩ :: RS⟩ items
            = .ok (PackItem.valueList items, ⟨pre ++ δ ++ post, pre.length + δ.length, 0,
                tt2, tv2, ⟨rt, itemsTopId L items, rnt⟩ :: RS⟩) := by
  cases items with
  | nil =>
    intro L nt t S wst hstack _
    obtain ⟨wbuf, wstack⟩ := wst
    simp only at hstack
    subst hstack
    refine ⟨[], nt, by simp [pckWriteItems, itemsTopId], ?_⟩
    intro pre post tt tv rt rnt RS
    refine ⟨tt, tv, ?_⟩
    simp [pckReadItems, PackItem.valueList, itemsTopId]
  | cons it rest =>
    intro L nt t S wst hstack hwf
    simp only [itemsWF, Bool.and_eq_true] at hwf
    obtain ⟨hwf1, hwf2⟩ := hwf
    obtain ⟨δ1, hw1, hr1⟩ := pckItem_roundtrip it L nt t S wst hstack hwf1
    obtain ⟨δ2, nt2, hw2, hr2⟩ := pckItems_roundtrip rest it.topId 0 t S
      ⟨wst.buffer ++ δ1, ⟨t, it.topId, 0⟩ :: S⟩ rfl hwf2
    refine ⟨δ1 ++ δ2, nt2, ?_, ?_⟩
    · simp only [pckWriteItems, hw1, hw2, itemsTopId]
      simp [List.append_assoc]
    · intro pre post tt tv rt rnt RS
      obtain ⟨tta, tva, hra⟩ := hr1 pre (δ2 ++ post) tt tv rt rnt RS
      obtain ⟨ttb, tvb, hrb⟩ := hr2 (pre ++ δ1) post tta tva rt rnt RS
      refine ⟨ttb, tvb, ?_⟩
      simp only [pckReadItems, PackItem.valueList, itemsTopId]
      simp only [List.append_assoc, List.length_append, Nat.add_assoc] at hra hrb ⊢
      simp only [hra, hrb]

end

/-- With an explicit (nonzero) id, pckWriteTag never looks at the top frame's
nullTotal. -/
theorem pckWriteTag_nullTotal_irrel (buf : List Nat) (t L n1 n2 : Nat)
    (S : List PackTagStack) (type id value : Nat) (hid : id ≠ 0) :
    pckWriteTag ⟨buf, ⟨t, L, n1⟩ :: S⟩ type id value
      = pckWriteTag ⟨buf, ⟨t, L, n2⟩ :: S⟩ type id value := by
  simp only [pckWriteTag, if_neg hid]

/-- A typed write at an explicit id produces the same result from two states that
differ only in the top frame's nullTotal. -/
theorem pckWriteItem_nullTotal_irrel (buf : List Nat) (t L n1 n2 : Nat)
    (S : List PackTagStack) (it : PackItem) (hid : it.topId ≠ 0) :
    pckWriteItem ⟨buf, ⟨t, L, n1⟩ :: S⟩ it = pckWriteItem ⟨buf, ⟨t, L, n2⟩ :: S⟩ it := by
  cases it with
  | u32 id v =>
    simp only [PackItem.topId] at hid
    simp only [pckWriteItem, pckWriteU32, pckWriteDefaultNull, Bool.false_and,
      Bool.false_eq_true, if_false,
      pckWriteTag_nullTotal_irrel buf t L n1 n2 S pckTypeU32 id v hid]
  | u64 id v =>
    simp only [PackItem.topId] at hid
    simp only [pckWriteItem, pckWriteU64, pckWriteDefaultNull, Bool.false_and,
      Bool.false_eq_true, if_false,
      pckWriteTag_nullTotal_irrel buf t L n1 n2 S pckTypeU64 id v hid]
  | i32 id v =>
    simp only [PackItem.topId] at hid
    simp only [pckWriteItem, pckWriteI32, pckWriteDefaultNull, Bool.false_and,
      Bool.false_eq_true, if_false,
      pckWriteTag_nullTotal_irrel buf t L n1 n2 S pckTypeI32 id (cvtInt32ToZigZag v) hid]
  | i64 id v =>
    simp only [PackItem.topId] at hid
    simp only [pckWriteItem, pckWriteI64, pckWriteDefaultNull, Bool.false_and,
      Bool.false_eq_true, if_false,
      pckWriteTag_nullTotal_irrel buf t L n1 n2 S pckTypeI64 id (cvtInt64ToZigZag v) hid]
  | bool id v =>
    simp only [PackItem.topId] at hid
    simp only [pckWriteItem, pckWriteBool, pckWriteDefaultNull, Bool.false_and,
      Bool.false_eq_true, if_false,
      pckWriteTag_nullTotal_irrel buf t L n1 n2 S pckTypeBool id (if v then 1 else 0) hid]
  | time id v =>
    simp only [PackItem.topId] at hid
    simp only [pckWriteItem, pckWriteTime, pckWriteDefaultNull, Bool.false_and,
      Bool.false_eq_true, if_false,
      pckWriteTag_nullTotal_irrel buf t L n1 n2 S pckTypeTime id (cvtInt64ToZigZag v) hid]
  | str id s =>
    simp only [PackItem.topId] at hid
    simp only [pckWriteItem, pckWriteStr, pckWriteDefaultNull, Bool.false_and,
      Bool.false_eq_true, if_false,
      pckWriteTag_nullTotal_irrel buf t L n1 n2 S pckTypeStr id
        (if s.length > 0 then 1 else 0) hid]
  | bin id b =>
    simp only [PackItem.topId] at hid
    simp only [pckWriteItem, pckWriteBin, pckWriteDefaultNull, Bool.false_and,
      Bool.false_eq_true, if_false,
      pckWriteTag_nullTotal_irrel buf t L n1 n2 S pckTypeBin id
        (if b.length > 0 then 1 else 0) hid]
  | arr id items =>
    simp only [PackItem.topId] at hid
    simp only [pckWriteItem, pckWriteArrayBegin,
      pckWriteTag_nullTotal_irrel buf t L n1 n2 S pckTypeArray id 0 hid]
  | obj id items =>
    simp only [PackItem.topId] at hid
    simp only [pckWriteItem, pckWriteObjBegin,
      pckWriteTag_nullTotal_irrel buf t L n1 n2 S pckTypeObj id 0 hid]

/-- For a top-level frame, a whole continuation of explicit-id writes finished by
pckWriteEnd is insensitive to the frame's nullTotal: the first written tag resets
it and the final terminator ignores it. -/
theorem pckWriteItemsEnd_nullTotal_irrel (buf : List Nat) (t L n1 n2 : Nat)
    (items : List PackItem) (hids : ∀ it ∈ items, it.topId ≠ 0) :
    pckWriteItemsEnd ⟨buf, [⟨t, L, n1⟩]⟩ items
      = pckWriteItemsEnd ⟨buf, [⟨t, L, n2⟩]⟩ items := by
  cases items with
  | nil => simp only [pckWriteItemsEnd, pckWriteItems, pckWriteEnd]
  | cons it rest =>
    have hid := hids it (List.mem_cons_self it rest)
    simp only [pckWriteItemsEnd, pckWriteItems,
      pckWriteItem_nullTotal_irrel buf t L n1 n2 [] it hid]

set_option maxHeartbeats 1600000 in
/-- C3 (code bug): the writer stores str "x" at id 1 and u32 7 at id 2 in
[136, 1, 120, 168, 7, 0]; reading id 1 then id 2 in order returns both fields, but
reading id 2 directly must skip the str field, and pckReadTag tests the size flag of
the REQUESTED type (u32, no size) instead of the skipped tag's type (str), so the
2-byte size+payload is never consumed: the payload is parsed as a tag and the read
fails with "field 2 does not exist" instead of returning 7. -/
theorem claim_C3_skip_payload_bug :
    pckWriteStr pckWriteNewBuf (some [120]) 1 false none
      = .ok ⟨[136, 1, 120], [⟨pckTypeObj, 1, 0⟩]⟩ ∧
    pckWriteU32 ⟨[136, 1, 120], [⟨pckTypeObj, 1, 0⟩]⟩ 7 2 false 0
      = .ok ⟨[136, 1, 120, 168, 7], [⟨pckTypeObj, 2, 0⟩]⟩ ∧
    pckWriteEnd ⟨[136, 1, 120, 168, 7], [⟨pckTypeObj, 2, 0⟩]⟩
      = .ok ⟨[136, 1, 120, 168, 7, 0], []⟩ ∧
    pckReadStr (pckReadNewBuf [136, 1, 120, 168, 7, 0]) 1 false none
      = .ok (some [120], ⟨[136, 1, 120, 168, 7, 0], 3, 0, 8, 1, [⟨pckTypeObj, 1, 0⟩]⟩) ∧
    pckReadU32 ⟨[136, 1, 120, 168, 7, 0], 3, 0, 8, 1, [⟨pckTypeObj, 1, 0⟩]⟩ 2 false 0
      = .ok (7, ⟨[136, 1, 120, 168, 7, 0], 5, 0, 10, 7, [⟨pckTypeObj, 2, 0⟩]⟩) ∧
    pckReadU32 (pckReadNewBuf [136, 1, 120, 168, 7, 0]) 2 false 0
      = .error (.formatError "field 2 does not exist") := by
  have h1 : pckWriteUInt64Internal 1 = [1] := by
    rw [pckWriteUInt64Internal]
    norm_num
  have h7 : pckWriteUInt64Internal 7 = [7] := by
    rw [pckWriteUInt64Internal]
    norm_num
  have hw1 : pckWriteStr pckWriteNewBuf (some [120]) 1 false none
      = .ok ⟨[136, 1, 120], [⟨pckTypeObj, 1, 0⟩]⟩ := by
    simp [pckWriteStr, pckWriteDefaultNull, strEq, pckWriteTag, pckWriteNewBuf,
      valueMultiBit, valueSingleBit, pckTypeUnknown, pckTypeArray, pckTypeBin,
      pckTypeBool, pckTypeI32, pckTypeI64, pckTypeObj, pckTypePtr, pckTypeStr,
      pckTypeTime, pckTypeU32, pckTypeU64, h1]
  have hw2 : pckWriteU32 ⟨[136, 1, 120], [⟨pckTypeObj, 1, 0⟩]⟩ 7 2 false 0
      = .ok ⟨[136, 1, 120, 168, 7], [⟨pckTypeObj, 2, 0⟩]⟩ := by
    simp [pckWriteU32, pckWriteDefaultNull, pckWriteTag, valueMultiBit,
      valueSingleBit, pckTypeUnknown, pckTypeArray, pckTypeBin, pckTypeBool,
      pckTypeI32, pckTypeI64, pckTypeObj, pckTypePtr, pckTypeStr, pckTypeTime,
      pckTypeU32, pckTypeU64, h7]
  obtain ⟨δ1, hwδ1, _, hrδ1⟩ := str_roundtrip pckWriteNewBuf 1 [120]
    ⟨pckTypeObj, 0, 0⟩ [] rfl (by norm_num) (by norm_num) (by norm_num)
  have hδ1 : δ1 = [136, 1, 120] := by
    have h := hwδ1.symm.trans hw1
    simp only [pckWriteNewBuf, List.nil_append, Except.ok.injEq,
      PackWriteState.mk.injEq] at h
    exact h.1
  subst hδ1
  obtain ⟨δ2, hwδ2, _, hrδ2⟩ := u32_roundtrip ⟨[136, 1, 120], [⟨pckTypeObj, 1, 0⟩]⟩
    2 7 ⟨pckTypeObj, 1, 0⟩ [] rfl (by norm_num) (by norm_num) (by norm_num)
  have hδ2 : δ2 = [168, 7] := by
    have h := hwδ2.symm.trans hw2
    simp only [Except.ok.injEq, PackWriteState.mk.injEq] at h
    have h' := h.1
    simpa [List.cons_append, List.cons.injEq] using h'
  subst hδ2
  refine ⟨hw1, hw2, ?_, ?_, ?_, ?_⟩
  · simp [pckWriteEnd, pckWriteUInt64Internal_zero]
  · have h := hrδ1 [] [168, 7, 0] 0 0 ⟨pckTypeObj, 0, 0⟩ [] rfl
    simpa [pckReadNewBuf, pckTypeStr] using h
  · have h := hrδ2 [136, 1, 120] [0] 8 1 ⟨pckTypeObj, 1, 0⟩ [] rfl
    simpa [pckTypeU32] using h
  · rfl

set_option maxHeartbeats 1600000 in
/-- C7 (code bug): the error half of the claim holds (readArrayEnd on the outermost
object frame fails "not in array", readObjEnd on an array frame fails "not in
object"), but the drain half diverges.  The writer stores an array at id 1 holding
str "x", then u32 7 at id 2, in [16, 136, 1, 120, 0, 168, 7, 0].  After
readArrayBegin(1), readArrayEnd's peek at id 0xFFFFFFFE skips fields with the size
flag of the REQUESTED type (unknown, no size), so the str payload [1, 120] is not
consumed: it is misparsed as further tags, the drain runs past the array terminator
(ending at position 8, the end of the buffer, instead of 5), and the next read in
the parent frame fails "unexpected EOF" instead of returning 7. -/
theorem claim_C7_container_end_drain_bug :
    pckWriteArrayBegin pckWriteNewBuf 1
      = .ok ⟨[16], [⟨pckTypeArray, 0, 0⟩, ⟨pckTypeObj, 1, 0⟩]⟩ ∧
    pckWriteStr ⟨[16], [⟨pckTypeArray, 0, 0⟩, ⟨pckTypeObj, 1, 0⟩]⟩ (some [120]) 1
        false none
      = .ok ⟨[16, 136, 1, 120], [⟨pckTypeArray, 1, 0⟩, ⟨pckTypeObj, 1, 0⟩]⟩ ∧
    pckWriteArrayEnd ⟨[16, 136, 1, 120], [⟨pckTypeArray, 1, 0⟩, ⟨pckTypeObj, 1, 0⟩]⟩
      = .ok ⟨[16, 136, 1, 120, 0], [⟨pckTypeObj, 1, 0⟩]⟩ ∧
    pckWriteU32 ⟨[16, 136, 1, 120, 0], [⟨pckTypeObj, 1, 0⟩]⟩ 7 2 false 0
      = .ok ⟨[16, 136, 1, 120, 0, 168, 7], [⟨pckTypeObj, 2, 0⟩]⟩ ∧
    pckWriteEnd ⟨[16, 136, 1, 120, 0, 168, 7], [⟨pckTypeObj, 2, 0⟩]⟩
      = .ok ⟨[16, 136, 1, 120, 0, 168, 7, 0], []⟩ ∧
    pckReadArrayEnd (pckReadNewBuf [16, 136, 1, 120, 0, 168, 7, 0])
      = .error (.formatError "not in array") ∧
    pckReadObjEnd ⟨[16, 136, 1, 120, 0, 168, 7, 0], 1, 0, 1, 0,
        [⟨pckTypeArray, 0, 0⟩, ⟨pckTypeObj, 1, 0⟩]⟩
      = .error (.formatError "not in object") ∧
    pckReadArrayBegin (pckReadNewBuf [16, 136, 1, 120, 0, 168, 7, 0]) 1
      = .ok ⟨[16, 136, 1, 120, 0, 168, 7, 0], 1, 0, 1, 0,
          [⟨pckTypeArray, 0, 0⟩, ⟨pckTypeObj, 1, 0⟩]⟩ ∧
    pckReadArrayEnd ⟨[16, 136, 1, 120, 0, 168, 7, 0], 1, 0, 1, 0,
        [⟨pckTypeArray, 0, 0⟩, ⟨pckTypeObj, 1, 0⟩]⟩
      = .ok ⟨[16, 136, 1, 120, 0, 168, 7, 0], 8, 0, 10, 7, [⟨pckTypeObj, 1, 0⟩]⟩ ∧
    pckReadU32 ⟨[16, 136, 1, 120, 0, 168, 7, 0], 8, 0, 10, 7, [⟨pckTypeObj, 1, 0⟩]⟩
        2 false 0
      = .error (.formatError "unexpected EOF") := by
  have h1 : pckWriteUInt64Internal 1 = [1] := by
    rw [pckWriteUInt64Internal]
    norm_num
  have h7 : pckWriteUInt64Internal 7 = [7] := by
    rw [pckWriteUInt64Internal]
    norm_num
  have hv0 : pckReadUInt64Go [16, 136, 1, 120, 0, 168, 7, 0] 4 0 0 = .ok (0, 5) := by
    rw [pckReadUInt64Go]
    norm_num [PACK_UINT64_SIZE_MAX]
  have hv7 : pckReadUInt64Go [16, 136, 1, 120, 0, 168, 7, 0] 6 0 0 = .ok (7, 7) := by
    rw [pckReadUInt64Go]
    norm_num [PACK_UINT64_SIZE_MAX, show (7 : Nat) &&& 127 = 7 from rfl]
  have hp1 : pckReadTagNext ⟨[16, 136, 1, 120, 0, 168, 7, 0], 1, 0, 1, 0,
        [⟨1, 0, 0⟩, ⟨6, 1, 0⟩]⟩
      = .ok (true, ⟨[16, 136, 1, 120, 0, 168, 7, 0], 2, 1, 8, 1,
          [⟨1, 0, 0⟩, ⟨6, 1, 0⟩]⟩) := rfl
  have hp2 : pckReadTagNext ⟨[16, 136, 1, 120, 0, 168, 7, 0], 2, 0, 8, 1,
        [⟨1, 1, 0⟩, ⟨6, 1, 0⟩]⟩
      = .ok (true, ⟨[16, 136, 1, 120, 0, 168, 7, 0], 3, 3, 0, 0,
          [⟨1, 1, 0⟩, ⟨6, 1, 0⟩]⟩) := rfl
  have hp3 : pckReadTagNext ⟨[16, 136, 1, 120, 0, 168, 7, 0], 3, 0, 0, 0,
        [⟨1, 3, 0⟩, ⟨6, 1, 0⟩]⟩
      = .ok (true, ⟨[16, 136, 1, 120, 0, 168, 7, 0], 5, 4, 7, 0,
          [⟨1, 3, 0⟩, ⟨6, 1, 0⟩]⟩) := by
    simp [pckReadTagNext, pckReadTagNextIdHigh, pckReadUInt64Internal, hv0,
      valueMultiBit, valueSingleBit, pckTypeUnknown, pckTypeArray, pckTypeBin,
      pckTypeBool, pckTypeI32, pckTypeI64, pckTypeObj, pckTypePtr, pckTypeStr,
      pckTypeTime, pckTypeU32, pckTypeU64,
      show (120 : Nat) >>> 4 = 7 from rfl, show (120 : Nat) &&& 8 = 8 from rfl,
      show (120 : Nat) &&& 4 = 0 from rfl, show (120 : Nat) &&& 3 = 0 from rfl]
  have hp4 : pckReadTagNext ⟨[16, 136, 1, 120, 0, 168, 7, 0], 5, 0, 7, 0,
        [⟨1, 4, 0⟩, ⟨6, 1, 0⟩]⟩
      = .ok (true, ⟨[16, 136, 1, 120, 0, 168, 7, 0], 7, 5, 10, 7,
          [⟨1, 4, 0⟩, ⟨6, 1, 0⟩]⟩) := by
    simp [pckReadTagNext, pckReadTagNextIdHigh, pckReadUInt64Internal, hv7,
      valueMultiBit, valueSingleBit, pckTypeUnknown, pckTypeArray, pckTypeBin,
      pckTypeBool, pckTypeI32, pckTypeI64, pckTypeObj, pckTypePtr, pckTypeStr,
      pckTypeTime, pckTypeU32, pckTypeU64,
      show (168 : Nat) >>> 4 = 10 from rfl, show (168 : Nat) &&& 8 = 8 from rfl,
      show (168 : Nat) &&& 4 = 0 from rfl, show (168 : Nat) &&& 3 = 0 from rfl]
  have hp5 : pckReadTagNext ⟨[16, 136, 1, 120, 0, 168, 7, 0], 7, 0, 10, 7,
        [⟨1, 5, 0⟩, ⟨6, 1, 0⟩]⟩
      = .ok (false, ⟨[16, 136, 1, 120, 0, 168, 7, 0], 8, 0xFFFFFFFF, 10, 7,
          [⟨1, 5, 0⟩, ⟨6, 1, 0⟩]⟩) := rfl
  have htag : pckReadTag ⟨[16, 136, 1, 120, 0, 168, 7, 0], 1, 0, 1, 0,
        [⟨1, 0, 0⟩, ⟨6, 1, 0⟩]⟩ 4294967294 pckTypeUnknown true
      = .ok (7, 4294967294, ⟨[16, 136, 1, 120, 0, 168, 7, 0], 8, 0xFFFFFFFF, 10, 7,
          [⟨1, 5, 0⟩, ⟨6, 1, 0⟩]⟩) := by
    rw [pckReadTag]
    norm_num [pckTypeUnknown]
    rw [pckReadTagLoop_skip_step 4294967294 0 true
      [16, 136, 1, 120, 0, 168, 7, 0] 1 2 1 8 1 1 0 ⟨1, 0, 0⟩ [⟨6, 1, 0⟩] 8
      (by norm_num) hp1 (by norm_num) (by decide)]
    simp only [show (8 : Nat) - 1 = 7 from rfl]
    rw [pckReadTagLoop_skip_step 4294967294 0 true
      [16, 136, 1, 120, 0, 168, 7, 0] 2 3 3 0 0 8 1 ⟨1, 1, 0⟩ [⟨6, 1, 0⟩] 7
      (by norm_num) hp2 (by norm_num) (by decide)]
    simp only [show (7 : Nat) - 1 = 6 from rfl]
    rw [pckReadTagLoop_skip_step 4294967294 0 true
      [16, 136, 1, 120, 0, 168, 7, 0] 3 5 4 7 0 0 0 ⟨1, 3, 0⟩ [⟨6, 1, 0⟩] 6
      (by norm_num) hp3 (by norm_num) (by decide)]
    simp only [show (6 : Nat) - 1 = 5 from rfl]
    rw [pckReadTagLoop_skip_step 4294967294 0 true
      [16, 136, 1, 120, 0, 168, 7, 0] 5 7 5 10 7 7 0 ⟨1, 4, 0⟩ [⟨6, 1, 0⟩] 5
      (by norm_num) hp4 (by norm_num) (by decide)]
    simp only [show (5 : Nat) - 1 = 4 from rfl]
    rw [pckReadTagLoop_term_peek_step 4294967294 0
      [16, 136, 1, 120, 0, 168, 7, 0] 7 8 10 7 ⟨1, 5, 0⟩ [⟨6, 1, 0⟩] 4
      (by norm_num) hp5 (by norm_num)]
  refine ⟨rfl, ?_, ?_, ?_, ?_, rfl, rfl, rfl, ?_, rfl⟩
  · simp [pckWriteStr, pckWriteDefaultNull, strEq, pckWriteTag, valueMultiBit,
      valueSingleBit, pckTypeUnknown, pckTypeArray, pckTypeBin, pckTypeBool,
      pckTypeI32, pckTypeI64, pckTypeObj, pckTypePtr, pckTypeStr, pckTypeTime,
      pckTypeU32, pckTypeU64, h1]
  · simp [pckWriteArrayEnd, pckWriteUInt64Internal_zero, pckTypeArray]
  · simp [pckWriteU32, pckWriteDefaultNull, pckWriteTag, valueMultiBit,
      valueSingleBit, pckTypeUnknown, pckTypeArray, pckTypeBin, pckTypeBool,
      pckTypeI32, pckTypeI64, pckTypeObj, pckTypePtr, pckTypeStr, pckTypeTime,
      pckTypeU32, pckTypeU64, h7]
  · simp [pckWriteEnd, pckWriteUInt64Internal_zero]
  · unfold pckReadArrayEnd
    simp only [pckTypeArray, pckTypeObj,
      show (0xFFFFFFFF : Nat) - 1 = 4294967294 from rfl, htag]
    norm_num

/-- C5 (amended): writing field (id=k, value=V, defaultNull=true, defaultValue=V)
emits no bytes (only the frame's nullTotal grows), and every continuation made of
writes with explicit (nonzero) ids finished by writeEnd produces bytes identical to
the run with the elided write removed.  (The unrestricted claim, which also allows
continuations passing id = 0, is refuted separately: an id-0 write resolves its
implicit id from nullTotal, so the elided field shifts it.) -/
theorem claim_C5_elision_explicit_ids (buf : List Nat) (t L n k dv : Nat)
    (items : List PackItem) (hids : ∀ it ∈ items, it.topId ≠ 0) :
    pckWriteU32 ⟨buf, [⟨t, L, n⟩]⟩ dv k true dv = .ok ⟨buf, [⟨t, L, n + 1⟩]⟩ ∧
    pckWriteItemsEnd ⟨buf, [⟨t, L, n + 1⟩]⟩ items
      = pckWriteItemsEnd ⟨buf, [⟨t, L, n⟩]⟩ items := by
  constructor
  · simp [pckWriteU32, pckWriteDefaultNull]
  · exact pckWriteItemsEnd_nullTotal_irrel buf t L (n + 1) n items hids

/-- Witness for C5: after writing u32 1 at id 1, eliding field 2 and continuing with
an explicit write at id 3 plus writeEnd gives the bytes of the run without field 2. -/
theorem claim_C5_elision_explicit_ids_witness :
    pckWriteU32 ⟨[164], [⟨pckTypeObj, 1, 0⟩]⟩ 9 2 true 9
      = .ok ⟨[164], [⟨pckTypeObj, 1, 1⟩]⟩ ∧
    pckWriteItemsEnd ⟨[164], [⟨pckTypeObj, 1, 1⟩]⟩ [PackItem.u32 3 1]
      = pckWriteItemsEnd ⟨[164], [⟨pckTypeObj, 1, 0⟩]⟩ [PackItem.u32 3 1] := by
  have h := claim_C5_elision_explicit_ids [164] pckTypeObj 1 0 2 9 [PackItem.u32 3 1]
    (by simp [PackItem.topId])
  exact h

/-- Counterexample to C5 as stated: eliding field 2 changes the bytes a later id-0
write produces, because the implicit id is idLast + nullTotal + 1.  With the elision
the continuation writes tag byte 165 (id 3); with the field removed it writes 164
(id 2). -/
theorem claim_C5_elision_id0_counterexample :
    pckWriteU32 pckWriteNewBuf 1 1 false 0 = .ok ⟨[164], [⟨pckTypeObj, 1, 0⟩]⟩ ∧
    pckWriteU32 ⟨[164], [⟨pckTypeObj, 1, 0⟩]⟩ 9 2 true 9
      = .ok ⟨[164], [⟨pckTypeObj, 1, 1⟩]⟩ ∧
    pckWriteU32 ⟨[164], [⟨pckTypeObj, 1, 1⟩]⟩ 1 0 false 0
      = .ok ⟨[164, 165], [⟨pckTypeObj, 3, 0⟩]⟩ ∧
    pckWriteU32 ⟨[164], [⟨pckTypeObj, 1, 0⟩]⟩ 1 0 false 0
      = .ok ⟨[164, 164], [⟨pckTypeObj, 2, 0⟩]⟩ ∧
    ([164, 165] : List Nat) ≠ [164, 164] := by
  exact ⟨rfl, rfl, rfl, rfl, by decide⟩

/-- C1: for every well-formed sequence of typed writes finished by writeEnd, reading
the produced bytes with the same type/id sequence yields exactly the written values
(structural equality for strings/blobs, numeric for integers/bool/time). -/
theorem claim_C1_roundtrip (items : List PackItem) (hwf : itemsWF 0 items = true) :
    ∃ (st1 wst : PackWriteState) (rst : PackReadState),
      pckWriteItems pckWriteNewBuf items = .ok st1 ∧
      pckWriteEnd st1 = .ok wst ∧
      pckReadItems (pckReadNewBuf wst.buffer) items
        = .ok (PackItem.valueList items, rst) := by
  obtain ⟨δ, nt2, hw, hr⟩ := pckItems_roundtrip items 0 0 pckTypeObj [] pckWriteNewBuf
    rfl hwf
  obtain ⟨tt2, tv2, hrr⟩ := hr [] [0] 0 0 pckTypeObj 0 []
  simp only [pckWriteNewBuf, List.nil_append, List.length_nil, Nat.zero_add]
    at hw hrr
  refine ⟨⟨δ, [⟨pckTypeObj, itemsTopId 0 items, nt2⟩]⟩, ⟨δ ++ [0], []⟩,
    ⟨δ ++ [0], δ.length, 0, tt2, tv2, [⟨pckTypeObj, itemsTopId 0 items, 0⟩]⟩,
    hw, ?_, ?_⟩
  · simp only [pckWriteEnd, pckWriteUInt64Internal_zero]
  · simpa only [pckReadNewBuf] using hrr

/-- C2: pckWriteUInt64Internal emits a little-endian base-128 varint of at most 10
bytes where every byte but the last has the continuation (high) bit set and the
last does not, and pckReadUInt64Internal applied to those bytes returns exactly v. -/
theorem claim_C2_varint (v : Nat) (hv : v < 2 ^ 64) :
    (pckWriteUInt64Internal v).length ≤ 10 ∧
    (∃ bs b, pckWriteUInt64Internal v = bs ++ [b] ∧ b < 0x80 ∧
      ∀ x ∈ bs, 0x80 ≤ x ∧ x < 0x100) ∧
    ∀ (pre post : List Nat) (tn tt tv : Nat) (stack : List PackTagStack),
      pckReadUInt64Internal
          ⟨pre ++ pckWriteUInt64Internal v ++ post, pre.length, tn, tt, tv, stack⟩
        = .ok (v, ⟨pre ++ pckWriteUInt64Internal v ++ post,
            pre.length + (pckWriteUInt64Internal v).length, tn, tt, tv, stack⟩) := by
  refine ⟨pckWriteUInt64Internal_len_le v hv,
    (pckWriteUInt64Internal_spec 9 v (by norm_num at hv ⊢; omega)).2,
    fun pre post tn tt tv stack => pckReadUInt64Internal_encode v hv pre post tn tt tv stack⟩

/-- C4: with the next tag loaded and carrying an ID greater than the requested one,
every typed read at the requested ID behaves as an absent field: with defaultNull set
it succeeds returning the default (null for the reference type Bin, the caller's
default for Str), only advancing idLast; without defaultNull it raises format-error
"field N does not exist". -/
theorem claim_C4_absent_field (data : List Nat) (pos tn tt tv id : Nat)
    (rtop : PackTagStack) (rrest : List PackTagStack)
    (du : Nat) (di : Int) (db : Bool) (ds : Option (List Nat))
    (htn : tn ≠ 0) (hid0 : id ≠ 0) (hlast : rtop.idLast < id) (hlt : id < tn) :
    (pckReadU32 ⟨data, pos, tn, tt, tv, rtop :: rrest⟩ id true du
       = .ok (du, ⟨data, pos, tn, tt, tv, { rtop with idLast := id } :: rrest⟩)) ∧
    (pckReadU64 ⟨data, pos, tn, tt, tv, rtop :: rrest⟩ id true du
       = .ok (du, ⟨data, pos, tn, tt, tv, { rtop with idLast := id } :: rrest⟩)) ∧
    (pckReadI32 ⟨data, pos, tn, tt, tv, rtop :: rrest⟩ id true di
       = .ok (di, ⟨data, pos, tn, tt, tv, { rtop with idLast := id } :: rrest⟩)) ∧
    (pckReadI64 ⟨data, pos, tn, tt, tv, rtop :: rrest⟩ id true di
       = .ok (di, ⟨data, pos, tn, tt, tv, { rtop with idLast := id } :: rrest⟩)) ∧
    (pckReadTime ⟨data, pos, tn, tt, tv, rtop :: rrest⟩ id true di
       = .ok (di, ⟨data, pos, tn, tt, tv, { rtop with idLast := id } :: rrest⟩)) ∧
    (pckReadBool ⟨data, pos, tn, tt, tv, rtop :: rrest⟩ id true db
       = .ok (db, ⟨data, pos, tn, tt, tv, { rtop with idLast := id } :: rrest⟩)) ∧
    (pckReadStr ⟨data, pos, tn, tt, tv, rtop :: rrest⟩ id true ds
       = .ok (ds, ⟨data, pos, tn, tt, tv, { rtop with idLast := id } :: rrest⟩)) ∧
    (pckReadBin ⟨data, pos, tn, tt, tv, rtop :: rrest⟩ id true
       = .ok (none, ⟨data, pos, tn, tt, tv, { rtop with idLast := id } :: rrest⟩)) ∧
    (pckReadU32 ⟨data, pos, tn, tt, tv, rtop :: rrest⟩ id false du
       = .error (.formatError ("field " ++ toString id ++ " does not exist"))) ∧
    (pckReadU64 ⟨data, pos, tn, tt, tv, rtop :: rrest⟩ id false du
       = .error (.formatError ("field " ++ toString id ++ " does not exist"))) ∧
    (pckReadI32 ⟨data, pos, tn, tt, tv, rtop :: rrest⟩ id false di
       = .error (.formatError ("field " ++ toString id ++ " does not exist"))) ∧
    (pckReadI64 ⟨data, pos, tn, tt, tv, rtop :: rrest⟩ id false di
       = .error (.formatError ("field " ++ toString id ++ " does not exist"))) ∧
    (pckReadTime ⟨data, pos, tn, tt, tv, rtop :: rrest⟩ id false di
       = .error (.formatError ("field " ++ toString id ++ " does not exist"))) ∧
    (pckReadBool ⟨data, pos, tn, tt, tv, rtop :: rrest⟩ id false db
       = .error (.formatError ("field " ++ toString id ++ " does not exist"))) ∧
    (pckReadStr ⟨data, pos, tn, tt, tv, rtop :: rrest⟩ id false ds
       = .error (.formatError ("field " ++ toString id ++ " does not exist"))) ∧
    (pckReadBin ⟨data, pos, tn, tt, tv, rtop :: rrest⟩ id false
       = .error (.formatError ("field " ++ toString id ++ " does not exist"))) := by
  have hpeek := pckReadTag_absent_peek data pos tn tt tv id rtop rrest htn hid0 hlast hlt
  have hnull : pckReadNullInternal ⟨data, pos, tn, tt, tv, rtop :: rrest⟩ id
      = .ok (true, id, ⟨data, pos, tn, tt, tv, rtop :: rrest⟩) := by
    simp only [pckReadNullInternal, hpeek]
    simp [hlt]
  have hdT : pckReadDefaultNull ⟨data, pos, tn, tt, tv, rtop :: rrest⟩ true id
      = .ok (true, id, ⟨data, pos, tn, tt, tv, { rtop with idLast := id } :: rrest⟩) := by
    simp [pckReadDefaultNull, hnull, setTopIdLast]
  have hdF : pckReadDefaultNull ⟨data, pos, tn, tt, tv, rtop :: rrest⟩ false id
      = .ok (false, id, ⟨data, pos, tn, tt, tv, rtop :: rrest⟩) := by
    simp [pckReadDefaultNull]
  refine ⟨?_, ?_, ?_, ?_, ?_, ?_, ?_, ?_, ?_, ?_, ?_, ?_, ?_, ?_, ?_, ?_⟩
  · simp only [pckReadU32, hdT]
  · simp only [pckReadU64, hdT]
  · simp only [pckReadI32, hdT]
  · simp only [pckReadI64, hdT]
  · simp only [pckReadTime, hdT]
  · simp only [pckReadBool, hdT]
  · simp only [pckReadStr, hdT]
  · simp only [pckReadBin, hdT]
  · simp only [pckReadU32, hdF,
      pckReadTag_absent data pos tn tt tv id pckTypeU32 rtop rrest htn hid0 hlast hlt
        (by decide)]
  · simp only [pckReadU64, hdF,
      pckReadTag_absent data pos tn tt tv id pckTypeU64 rtop rrest htn hid0 hlast hlt
        (by decide)]
  · simp only [pckReadI32, hdF,
      pckReadTag_absent data pos tn tt tv id pckTypeI32 rtop rrest htn hid0 hlast hlt
        (by decide)]
  · simp only [pckReadI64, hdF,
      pckReadTag_absent data pos tn tt tv id pckTypeI64 rtop rrest htn hid0 hlast hlt
        (by decide)]
  · simp only [pckReadTime, hdF,
      pckReadTag_absent data pos tn tt tv id pckTypeTime rtop rrest htn hid0 hlast hlt
        (by decide)]
  · simp only [pckReadBool, hdF,
      pckReadTag_absent data pos tn tt tv id pckTypeBool rtop rrest htn hid0 hlast hlt
        (by decide)]
  · simp only [pckReadStr, hdF,
      pckReadTag_absent data pos tn tt tv id pckTypeStr rtop rrest htn hid0 hlast hlt
        (by decide)]
  · simp only [pckReadBin, hdF,
      pckReadTag_absent data pos tn tt tv id pckTypeBin rtop rrest htn hid0 hlast hlt
        (by decide)]

/-- Witness for C4 at a concrete absent field: lookahead id 5 loaded, requested id 3. -/
theorem claim_C4_absent_field_witness :
    (pckReadU32 ⟨[], 0, 5, 0, 0, [⟨pckTypeObj, 0, 0⟩]⟩ 3 true 7
       = .ok (7, ⟨[], 0, 5, 0, 0, [⟨pckTypeObj, 3, 0⟩]⟩)) ∧
    (pckReadBin ⟨[], 0, 5, 0, 0, [⟨pckTypeObj, 0, 0⟩]⟩ 3 true
       = .ok (none, ⟨[], 0, 5, 0, 0, [⟨pckTypeObj, 3, 0⟩]⟩)) ∧
    (pckReadU32 ⟨[], 0, 5, 0, 0, [⟨pckTypeObj, 0, 0⟩]⟩ 3 false 7
       = .error (.formatError "field 3 does not exist")) := by
  have h := claim_C4_absent_field [] 0 5 0 0 3 ⟨pckTypeObj, 0, 0⟩ [] 7 (-2) true
    (some [9]) (by decide) (by decide) (by decide) (by decide)
  refine ⟨h.1, h.2.2.2.2.2.2.2.1, ?_⟩
  have := h.2.2.2.2.2.2.2.2.1
  simpa using this

/-- C6 (amended): once the next tag is already loaded and the requested id is above
the frame idLast and at most the lookahead id, readNull returns true iff the
requested id is less than the next tag's id, and the reader state is completely
unchanged.  (The unqualified claim is refuted separately: when the lookahead is
empty the call itself loads it, advancing bufferPos.) -/
theorem claim_C6_readNull_loaded_peek (data : List Nat) (pos tn tt tv id : Nat)
    (rtop : PackTagStack) (rrest : List PackTagStack)
    (htn : tn ≠ 0) (hid0 : id ≠ 0) (hlast : rtop.idLast < id) (hle : id ≤ tn) :
    pckReadNull ⟨data, pos, tn, tt, tv, rtop :: rrest⟩ id
      = .ok (decide (id < tn), ⟨data, pos, tn, tt, tv, rtop :: rrest⟩) := by
  simp only [pckReadNull, pckReadNullInternal,
    pckReadTag_loaded_peek data pos tn tt tv id rtop rrest htn hid0 hlast hle]

/-- Witness for C6: with the lookahead loaded at id 5, readNull(3) is true and
readNull(5) is false, both leaving the state untouched. -/
theorem claim_C6_readNull_loaded_peek_witness :
    pckReadNull ⟨[], 0, 5, 0, 0, [⟨pckTypeObj, 0, 0⟩]⟩ 3
      = .ok (true, ⟨[], 0, 5, 0, 0, [⟨pckTypeObj, 0, 0⟩]⟩) ∧
    pckReadNull ⟨[], 0, 5, 0, 0, [⟨pckTypeObj, 0, 0⟩]⟩ 5
      = .ok (false, ⟨[], 0, 5, 0, 0, [⟨pckTypeObj, 0, 0⟩]⟩) := by
  constructor
  · have h := claim_C6_readNull_loaded_peek [] 0 5 0 0 3 ⟨pckTypeObj, 0, 0⟩ []
      (by decide) (by decide) (by decide) (by decide)
    simpa using h
  · have h := claim_C6_readNull_loaded_peek [] 0 5 0 0 5 ⟨pckTypeObj, 0, 0⟩ []
      (by decide) (by decide) (by decide) (by decide)
    simpa using h

/-- Counterexample to C6 as stated: with an empty lookahead, readNull(1) on the
buffer [0xA4, 0x00] must parse the next tag, so the buffer position (and the
whole lookahead) changes even though the call is a peek. -/
theorem claim_C6_readNull_changes_state :
    pckReadNull (pckReadNewBuf [0xA4, 0x00]) 1
      = .ok (false, ⟨[0xA4, 0x00], 1, 1, pckTypeU32, 1, [⟨pckTypeObj, 0, 0⟩]⟩) ∧
    (pckReadNewBuf [0xA4, 0x00]).bufferPos = 0 ∧
    (pckReadNewBuf [0xA4, 0x00]).tagNextId = 0 := by
  exact ⟨rfl, rfl, rfl⟩

/-- C10: a defaultNull read of an absent field (next loaded tag ID above the
requested one) returns the default but advances the frame idLast to the requested
id, so a later read in the same frame at any id at or below it fails with
"field N was already read", exactly as if the field had been consumed. -/
theorem claim_C10_defaultNull_advances_idLast
    (data : List Nat) (pos tn tt tv id id2 du du2 : Nat)
    (rtop : PackTagStack) (rrest : List PackTagStack)
    (htn : tn ≠ 0) (hid0 : id ≠ 0) (hlast : rtop.idLast < id) (hlt : id < tn)
    (hid2 : id2 ≠ 0) (hle : id2 ≤ id) :
    pckReadU32 ⟨data, pos, tn, tt, tv, rtop :: rrest⟩ id true du
      = .ok (du, ⟨data, pos, tn, tt, tv, { rtop with idLast := id } :: rrest⟩) ∧
    pckReadU32 ⟨data, pos, tn, tt, tv, { rtop with idLast := id } :: rrest⟩ id2 false du2
      = .error (.formatError ("field " ++ toString id2 ++ " was already read")) := by
  have hpeek := pckReadTag_absent_peek data pos tn tt tv id rtop rrest htn hid0 hlast hlt
  have hnull : pckReadNullInternal ⟨data, pos, tn, tt, tv, rtop :: rrest⟩ id
      = .ok (true, id, ⟨data, pos, tn, tt, tv, rtop :: rrest⟩) := by
    simp only [pckReadNullInternal, hpeek]
    simp [hlt]
  have hdT : pckReadDefaultNull ⟨data, pos, tn, tt, tv, rtop :: rrest⟩ true id
      = .ok (true, id, ⟨data, pos, tn, tt, tv, { rtop with idLast := id } :: rrest⟩) := by
    simp [pckReadDefaultNull, hnull, setTopIdLast]
  have hdF : pckReadDefaultNull
      ⟨data, pos, tn, tt, tv, { rtop with idLast := id } :: rrest⟩ false id2
      = .ok (false, id2, ⟨data, pos, tn, tt, tv, { rtop with idLast := id } :: rrest⟩) := by
    simp [pckReadDefaultNull]
  constructor
  · simp only [pckReadU32, hdT]
  · simp only [pckReadU32, hdF,
      pckReadTag_already_read data pos tn tt tv id2 pckTypeU32
        { rtop with idLast := id } rrest hid2 hle (by decide)]

/-- Witness for C10: the default read at id 3 advances idLast to 3; the later read
at id 2 fails as already read. -/
theorem claim_C10_defaultNull_advances_idLast_witness :
    pckReadU32 ⟨[], 0, 5, 0, 0, [⟨pckTypeObj, 0, 0⟩]⟩ 3 true 7
      = .ok (7, ⟨[], 0, 5, 0, 0, [⟨pckTypeObj, 3, 0⟩]⟩) ∧
    pckReadU32 ⟨[], 0, 5, 0, 0, [⟨pckTypeObj, 3, 0⟩]⟩ 2 false 0
      = .error (.formatError "field 2 was already read") := by
  have h := claim_C10_defaultNull_advances_idLast [] 0 5 0 0 3 2 7 0
    ⟨pckTypeObj, 0, 0⟩ [] (by decide) (by decide) (by decide) (by decide)
    (by decide) (by decide)
  exact ⟨h.1, by simpa using h.2⟩

/-- C9: writeU32(value=1, id=1) into an empty frame emits the single tag byte 0xA4
(U32 ordinal 10 in the high nibble, the value bit 0x4 set, no more-value flag 0x8,
no more-ID-delta flag 0x2, ID-delta low bit 0x1 clear), and readU32(id=1) on that
byte returns 1. -/
theorem claim_C9_tag_example :
    pckWriteU32 pckWriteNewBuf 1 1 false 0
      = .ok ⟨[0xA4], [⟨pckTypeObj, 1, 0⟩]⟩ ∧
    0xA4 >>> 4 = pckTypeU32 ∧ 0xA4 &&& 0x4 = 0x4 ∧
    0xA4 &&& 0x8 = 0 ∧ 0xA4 &&& 0x2 = 0 ∧ 0xA4 &&& 0x1 = 0 ∧
    pckReadU32 (pckReadNewBuf [0xA4]) 1 false 0
      = .ok (1, ⟨[0xA4], 1, 0, pckTypeU32, 1, [⟨pckTypeObj, 1, 0⟩]⟩) := by
  refine ⟨?_, by decide, by decide, by decide, by decide, by decide, ?_⟩ <;> rfl

/-- C8: varint decoding fails with a format error (message "unterminated base-128
integer", which the spec calls "unterminated varint") when ten consecutive bytes all
carry the continuation bit, and with format-error "unexpected EOF" when the stream
ends before a byte with the continuation bit clear is found. -/
theorem claim_C8_varint_errors (st : PackReadState) :
    ((∀ j, j < 10 → st.bufferPos + j < st.data.length ∧
        0x80 ≤ st.data.getD (st.bufferPos + j) 0) →
      pckReadUInt64Internal st
        = .error (.formatError "unterminated base-128 integer")) ∧
    (st.data.length - st.bufferPos < 10 →
      (∀ j, st.bufferPos + j < st.data.length →
        0x80 ≤ st.data.getD (st.bufferPos + j) 0) →
      pckReadUInt64Internal st = .error (.formatError "unexpected EOF")) := by
  constructor
  · intro h
    simp only [pckReadUInt64Internal]
    rw [pckReadUInt64Go_unterminated 10 0 0 st.bufferPos st.data rfl h]
  · intro hlen h
    simp only [pckReadUInt64Internal]
    rw [pckReadUInt64Go_eof 10 0 0 st.bufferPos st.data rfl hlen h]

/-- Witness for C8: ten continuation bytes are unterminated; a single continuation
byte at the end of the stream is an unexpected EOF. -/
theorem claim_C8_varint_errors_witness :
    pckReadUInt64Internal ⟨List.replicate 10 0x80, 0, 0, 0, 0, []⟩
      = .error (.formatError "unterminated base-128 integer") ∧
    pckReadUInt64Internal ⟨[0x80], 0, 0, 0, 0, []⟩
      = .error (.formatError "unexpected EOF") := by
  constructor
  · exact (claim_C8_varint_errors ⟨List.replicate 10 0x80, 0, 0, 0, 0, []⟩).1
      (by decide)
  · refine (claim_C8_varint_errors ⟨[0x80], 0, 0, 0, 0, []⟩).2 (by norm_num) ?_
    intro j hj
    simp only [List.length_cons, List.length_nil, Nat.zero_add] at hj
    interval_cases j
    decide

/-- Witness for C2 at the largest 64-bit value. -/
theorem claim_C2_varint_witness :
    18446744073709551615 < 2 ^ 64 ∧
    ((pckWriteUInt64Internal 18446744073709551615).length ≤ 10 ∧
    (∃ bs b, pckWriteUInt64Internal 18446744073709551615 = bs ++ [b] ∧ b < 0x80 ∧
      ∀ x ∈ bs, 0x80 ≤ x ∧ x < 0x100) ∧
    ∀ (pre post : List Nat) (tn tt tv : Nat) (stack : List PackTagStack),
      pckReadUInt64Internal
          ⟨pre ++ pckWriteUInt64Internal 18446744073709551615 ++ post,
            pre.length, tn, tt, tv, stack⟩
        = .ok (18446744073709551615,
            ⟨pre ++ pckWriteUInt64Internal 18446744073709551615 ++ post,
              pre.length + (pckWriteUInt64Internal 18446744073709551615).length,
              tn, tt, tv, stack⟩)) :=
  ⟨by norm_num, claim_C2_varint 18446744073709551615 (by norm_num)⟩

/-- Witness for C1 at a concrete write program covering every claimed type and
nesting. -/
theorem claim_C1_roundtrip_witness :
    itemsWF 0 [PackItem.u32 1 1, PackItem.str 2 [120],
      PackItem.arr 3 [PackItem.bool 1 true, PackItem.i64 2 (-5)],
      PackItem.obj 4 [PackItem.time 1 99, PackItem.bin 2 []],
      PackItem.u64 5 18446744073709551615, PackItem.i32 6 (-7)] = true ∧
    ∃ (st1 wst : PackWriteState) (rst : PackReadState),
      pckWriteItems pckWriteNewBuf [PackItem.u32 1 1, PackItem.str 2 [120],
        PackItem.arr 3 [PackItem.bool 1 true, PackItem.i64 2 (-5)],
        PackItem.obj 4 [PackItem.time 1 99, PackItem.bin 2 []],
        PackItem.u64 5 18446744073709551615, PackItem.i32 6 (-7)] = .ok st1 ∧
      pckWriteEnd st1 = .ok wst ∧
      pckReadItems (pckReadNewBuf wst.buffer) [PackItem.u32 1 1, PackItem.str 2 [120],
        PackItem.arr 3 [PackItem.bool 1 true, PackItem.i64 2 (-5)],
        PackItem.obj 4 [PackItem.time 1 99, PackItem.bin 2 []],
        PackItem.u64 5 18446744073709551615, PackItem.i32 6 (-7)]
        = .ok (PackItem.valueList [PackItem.u32 1 1, PackItem.str 2 [120],
            PackItem.arr 3 [PackItem.bool 1 true, PackItem.i64 2 (-5)],
            PackItem.obj 4 [PackItem.time 1 99, PackItem.bin 2 []],
            PackItem.u64 5 18446744073709551615, PackItem.i32 6 (-7)], rst) := by
  have hwf : itemsWF 0 [PackItem.u32 1 1, PackItem.str 2 [120],
      PackItem.arr 3 [PackItem.bool 1 true, PackItem.i64 2 (-5)],
      PackItem.obj 4 [PackItem.time 1 99, PackItem.bin 2 []],
      PackItem.u64 5 18446744073709551615, PackItem.i32 6 (-7)] = true := by
    simp [itemsWF, itemWF, PackItem.topId]
  exact ⟨hwf, claim_C1_roundtrip _ hwf⟩

end Pack
